import Mathlib

/-!
The build coordinator of sas-container-recipes (`order.go`)

A shallow embedding of the coordination code of `order.go` (the consuming loops of
`NewSoftwareOrder`, `Prepare` and `Build`, the worker `buildWorker`, the
`--build-only` filter of `LoadPlaybook`, `GetIntermediateStatus`, `TestMirror`,
`TestRegistry`), of `getContainers`, of the variables file of `GenerateManifests` and
of the `--tag` check of `LoadCommands`, and theorems about them.

Conventions of the embedding.

* `order.Containers` is a Go map from unit name to `*Container`.  It is embedded as
  the list of its values in the order in which a `range` loop visits them.  Go
  leaves that order unspecified, so every theorem quantifies over all lists.
* A goroutine that sends on the unbuffered channels `progress`, `done`, `fail` is
  embedded as the list of `Signal`s it sends, in program order; a consuming loop is
  a function of the values it receives, in the order received.
* Goroutines run one after another: the tasks of `Prepare` in the order in which
  they are started, and in `Build` the first worker until the queue is empty or the
  worker ends.
* Calls that leave `order.go` (the Docker client, the methods of `Container`, which
  are declared in `container.go`, sub-processes, the clock) are answered by an
  explicit environment record.  The clock is a counter that every `time.Now()`
  reads and advances.
* `int64` arithmetic is `Int` arithmetic followed by `wrapInt64`.
* A Go string is a `String`; `len(s) > 0` is `s.length > 0`, and positions in a
  string count characters.
* A regular expression is matched by derivatives (`Regex.deriv`).
-/

namespace SasRecipes

/-! ## Data model -/

/-- Modelled from the spec: the `Status` enumeration is declared in `container.go`,
which is not among the sources; `order.go` uses the constants `Unknown`, `Loading`,
`Loaded`, `Built`, `Pushed`, `DoNotBuild` and `Failed`, and section 3 of the
specification lists `Building` between `Loaded` and `Built`. -/
inductive Status where
  | Unknown
  | Loading
  | Loaded
  | Building
  | Built
  | Pushed
  | DoNotBuild
  | Failed
  deriving DecidableEq, Repr

/-- The resource declarations of a unit, as `GenerateManifests` reads them
(`container.Config.Resources`). -/
structure Resources where
  Limits : List String := []
  Requests : List String := []
  deriving DecidableEq, Repr

/-- The static configuration of a unit, as `GenerateManifests` reads it
(`container.Config`); its type is declared in `container.go`. -/
structure ContainerConfig where
  Ports : List String := []
  Environment : List String := []
  Secrets : List String := []
  Volumes : List String := []
  Resources : Resources := {}
  deriving DecidableEq, Repr

/-- The fields of `Container` that `order.go` reads or writes.  Times are readings of
a logical clock, sizes are `int64` values. -/
structure Container where
  Name : String
  Tag : String := ""
  Status : Status := Status.Unknown
  BaseImage : String := ""
  BuildStart : Nat := 0
  BuildEnd : Nat := 0
  PushStart : Nat := 0
  PushEnd : Nat := 0
  ImageSize : Int := 0
  Config : ContainerConfig := {}
  deriving DecidableEq, Repr

/-- One value sent on one of the three channels `progress`, `done`, `fail`. -/
inductive Signal where
  | progress (msg : String)
  | done (name : String)
  | fail (msg : String)
  deriving DecidableEq, Repr

/-- How a goroutine (or a call) ends: it returns, it panics (which ends the whole
process), or it stays blocked on a channel for ever. -/
inductive Ending where
  | returned
  | panicked
  | blocked
  deriving DecidableEq, Repr

/-! ## Strings -/

/-- The table `White_Space` of package `unicode`: the ranges of code points, both ends
included, for which `unicode.IsSpace` holds. -/
def White_Space : List (Nat × Nat) :=
  [(0x0009, 0x000D), (0x0020, 0x0020), (0x0085, 0x0085), (0x00A0, 0x00A0),
   (0x1680, 0x1680), (0x2000, 0x200A), (0x2028, 0x2029), (0x202F, 0x202F),
   (0x205F, 0x205F), (0x3000, 0x3000)]

/-- Whether a code point lies in one of the ranges of a table. -/
def inRanges (table : List (Nat × Nat)) (r : Nat) : Bool :=
  table.any (fun range => decide (range.1 ≤ r) && decide (r ≤ range.2))

/-- Go's `unicode.IsSpace`, the test that `strings.TrimSpace` applies: the tab, line
feed, vertical tab, form feed, carriage return and blank of ASCII, U+0085, U+00A0 and
the other members of `White_Space`.  (The library answers the Latin-1 range by a
switch that lists the same code points as the table.) -/
def isSpace (c : Char) : Bool :=
  inRanges White_Space c.toNat

/-- Go's `strings.TrimSpace`: the text without its leading and trailing white space,
as `unicode.IsSpace` sees it. -/
def TrimSpace (s : String) : String :=
  ⟨((s.data.dropWhile isSpace).reverse.dropWhile isSpace).reverse⟩

/-- The constant `unicode.MaxRune`. -/
def MaxRune : Nat := 0x10FFFF

/-- The constant `unicode.MaxASCII`. -/
def MaxASCII : Nat := 0x7F

/-- The constant `unicode.UpperLower`: the delta of a range in which upper and lower
case letters alternate, starting with an upper case letter. -/
def UpperLower : Int := 0x10FFFF + 1

/-- An entry of the table `unicode.CaseRanges`, with the delta for the lower case
only: the code points from `Lo` to `Hi`, both included, are lower-cased by adding
`Delta`, or by the alternation rule when `Delta` is `UpperLower`. -/
structure CaseRange where
  Lo : Nat
  Hi : Nat
  Delta : Int
  deriving DecidableEq, Repr

/-- The lower-case mappings of `unicode.CaseRanges`: the simple lower-case mapping of
every code point that has one in the Unicode Character Database (version 14.0), in
increasing order; a range holds no code point that the mapping leaves unchanged,
except the lower case letters of an alternating range. -/
def CaseRanges : List CaseRange :=
  [CaseRange.mk 0x0041 0x005A 32, CaseRange.mk 0x00C0 0x00D6 32, CaseRange.mk 0x00D8 0x00DE 32,
   CaseRange.mk 0x0100 0x012F UpperLower, CaseRange.mk 0x0130 0x0130 (-199),
   CaseRange.mk 0x0132 0x0137 UpperLower, CaseRange.mk 0x0139 0x0148 UpperLower,
   CaseRange.mk 0x014A 0x0177 UpperLower, CaseRange.mk 0x0178 0x0178 (-121),
   CaseRange.mk 0x0179 0x017E UpperLower, CaseRange.mk 0x0181 0x0181 210,
   CaseRange.mk 0x0182 0x0185 UpperLower, CaseRange.mk 0x0186 0x0186 206,
   CaseRange.mk 0x0187 0x0187 1, CaseRange.mk 0x0189 0x018A 205, CaseRange.mk 0x018B 0x018B 1,
   CaseRange.mk 0x018E 0x018E 79, CaseRange.mk 0x018F 0x018F 202, CaseRange.mk 0x0190 0x0190 203,
   CaseRange.mk 0x0191 0x0191 1, CaseRange.mk 0x0193 0x0193 205, CaseRange.mk 0x0194 0x0194 207,
   CaseRange.mk 0x0196 0x0196 211, CaseRange.mk 0x0197 0x0197 209, CaseRange.mk 0x0198 0x0198 1,
   CaseRange.mk 0x019C 0x019C 211, CaseRange.mk 0x019D 0x019D 213,
   CaseRange.mk 0x019F 0x019F 214, CaseRange.mk 0x01A0 0x01A5 UpperLower,
   CaseRange.mk 0x01A6 0x01A6 218, CaseRange.mk 0x01A7 0x01A7 1, CaseRange.mk 0x01A9 0x01A9 218,
   CaseRange.mk 0x01AC 0x01AC 1, CaseRange.mk 0x01AE 0x01AE 218, CaseRange.mk 0x01AF 0x01AF 1,
   CaseRange.mk 0x01B1 0x01B2 217, CaseRange.mk 0x01B3 0x01B6 UpperLower,
   CaseRange.mk 0x01B7 0x01B7 219, CaseRange.mk 0x01B8 0x01B8 1, CaseRange.mk 0x01BC 0x01BC 1,
   CaseRange.mk 0x01C4 0x01C4 2, CaseRange.mk 0x01C5 0x01C5 1, CaseRange.mk 0x01C7 0x01C7 2,
   CaseRange.mk 0x01C8 0x01C8 1, CaseRange.mk 0x01CA 0x01CA 2,
   CaseRange.mk 0x01CB 0x01DC UpperLower, CaseRange.mk 0x01DE 0x01EF UpperLower,
   CaseRange.mk 0x01F1 0x01F1 2, CaseRange.mk 0x01F2 0x01F5 UpperLower,
   CaseRange.mk 0x01F6 0x01F6 (-97), CaseRange.mk 0x01F7 0x01F7 (-56),
   CaseRange.mk 0x01F8 0x021F UpperLower, CaseRange.mk 0x0220 0x0220 (-130),
   CaseRange.mk 0x0222 0x0233 UpperLower, CaseRange.mk 0x023A 0x023A 10795,
   CaseRange.mk 0x023B 0x023B 1, CaseRange.mk 0x023D 0x023D (-163),
   CaseRange.mk 0x023E 0x023E 10792, CaseRange.mk 0x0241 0x0241 1,
   CaseRange.mk 0x0243 0x0243 (-195), CaseRange.mk 0x0244 0x0244 69,
   CaseRange.mk 0x0245 0x0245 71, CaseRange.mk 0x0246 0x024F UpperLower,
   CaseRange.mk 0x0370 0x0373 UpperLower, CaseRange.mk 0x0376 0x0376 1,
   CaseRange.mk 0x037F 0x037F 116, CaseRange.mk 0x0386 0x0386 38, CaseRange.mk 0x0388 0x038A 37,
   CaseRange.mk 0x038C 0x038C 64, CaseRange.mk 0x038E 0x038F 63, CaseRange.mk 0x0391 0x03A1 32,
   CaseRange.mk 0x03A3 0x03AB 32, CaseRange.mk 0x03CF 0x03CF 8,
   CaseRange.mk 0x03D8 0x03EF UpperLower, CaseRange.mk 0x03F4 0x03F4 (-60),
   CaseRange.mk 0x03F7 0x03F7 1, CaseRange.mk 0x03F9 0x03F9 (-7), CaseRange.mk 0x03FA 0x03FA 1,
   CaseRange.mk 0x03FD 0x03FF (-130), CaseRange.mk 0x0400 0x040F 80,
   CaseRange.mk 0x0410 0x042F 32, CaseRange.mk 0x0460 0x0481 UpperLower,
   CaseRange.mk 0x048A 0x04BF UpperLower, CaseRange.mk 0x04C0 0x04C0 15,
   CaseRange.mk 0x04C1 0x04CE UpperLower, CaseRange.mk 0x04D0 0x052F UpperLower,
   CaseRange.mk 0x0531 0x0556 48, CaseRange.mk 0x10A0 0x10C5 7264,
   CaseRange.mk 0x10C7 0x10C7 7264, CaseRange.mk 0x10CD 0x10CD 7264,
   CaseRange.mk 0x13A0 0x13EF 38864, CaseRange.mk 0x13F0 0x13F5 8,
   CaseRange.mk 0x1C90 0x1CBA (-3008), CaseRange.mk 0x1CBD 0x1CBF (-3008),
   CaseRange.mk 0x1E00 0x1E95 UpperLower, CaseRange.mk 0x1E9E 0x1E9E (-7615),
   CaseRange.mk 0x1EA0 0x1EFF UpperLower, CaseRange.mk 0x1F08 0x1F0F (-8),
   CaseRange.mk 0x1F18 0x1F1D (-8), CaseRange.mk 0x1F28 0x1F2F (-8),
   CaseRange.mk 0x1F38 0x1F3F (-8), CaseRange.mk 0x1F48 0x1F4D (-8),
   CaseRange.mk 0x1F59 0x1F59 (-8), CaseRange.mk 0x1F5B 0x1F5B (-8),
   CaseRange.mk 0x1F5D 0x1F5D (-8), CaseRange.mk 0x1F5F 0x1F5F (-8),
   CaseRange.mk 0x1F68 0x1F6F (-8), CaseRange.mk 0x1F88 0x1F8F (-8),
   CaseRange.mk 0x1F98 0x1F9F (-8), CaseRange.mk 0x1FA8 0x1FAF (-8),
   CaseRange.mk 0x1FB8 0x1FB9 (-8), CaseRange.mk 0x1FBA 0x1FBB (-74),
   CaseRange.mk 0x1FBC 0x1FBC (-9), CaseRange.mk 0x1FC8 0x1FCB (-86),
   CaseRange.mk 0x1FCC 0x1FCC (-9), CaseRange.mk 0x1FD8 0x1FD9 (-8),
   CaseRange.mk 0x1FDA 0x1FDB (-100), CaseRange.mk 0x1FE8 0x1FE9 (-8),
   CaseRange.mk 0x1FEA 0x1FEB (-112), CaseRange.mk 0x1FEC 0x1FEC (-7),
   CaseRange.mk 0x1FF8 0x1FF9 (-128), CaseRange.mk 0x1FFA 0x1FFB (-126),
   CaseRange.mk 0x1FFC 0x1FFC (-9), CaseRange.mk 0x2126 0x2126 (-7517),
   CaseRange.mk 0x212A 0x212A (-8383), CaseRange.mk 0x212B 0x212B (-8262),
   CaseRange.mk 0x2132 0x2132 28, CaseRange.mk 0x2160 0x216F 16, CaseRange.mk 0x2183 0x2183 1,
   CaseRange.mk 0x24B6 0x24CF 26, CaseRange.mk 0x2C00 0x2C2F 48, CaseRange.mk 0x2C60 0x2C60 1,
   CaseRange.mk 0x2C62 0x2C62 (-10743), CaseRange.mk 0x2C63 0x2C63 (-3814),
   CaseRange.mk 0x2C64 0x2C64 (-10727), CaseRange.mk 0x2C67 0x2C6C UpperLower,
   CaseRange.mk 0x2C6D 0x2C6D (-10780), CaseRange.mk 0x2C6E 0x2C6E (-10749),
   CaseRange.mk 0x2C6F 0x2C6F (-10783), CaseRange.mk 0x2C70 0x2C70 (-10782),
   CaseRange.mk 0x2C72 0x2C72 1, CaseRange.mk 0x2C75 0x2C75 1,
   CaseRange.mk 0x2C7E 0x2C7F (-10815), CaseRange.mk 0x2C80 0x2CE3 UpperLower,
   CaseRange.mk 0x2CEB 0x2CEE UpperLower, CaseRange.mk 0x2CF2 0x2CF2 1,
   CaseRange.mk 0xA640 0xA66D UpperLower, CaseRange.mk 0xA680 0xA69B UpperLower,
   CaseRange.mk 0xA722 0xA72F UpperLower, CaseRange.mk 0xA732 0xA76F UpperLower,
   CaseRange.mk 0xA779 0xA77C UpperLower, CaseRange.mk 0xA77D 0xA77D (-35332),
   CaseRange.mk 0xA77E 0xA787 UpperLower, CaseRange.mk 0xA78B 0xA78B 1,
   CaseRange.mk 0xA78D 0xA78D (-42280), CaseRange.mk 0xA790 0xA793 UpperLower,
   CaseRange.mk 0xA796 0xA7A9 UpperLower, CaseRange.mk 0xA7AA 0xA7AA (-42308),
   CaseRange.mk 0xA7AB 0xA7AB (-42319), CaseRange.mk 0xA7AC 0xA7AC (-42315),
   CaseRange.mk 0xA7AD 0xA7AD (-42305), CaseRange.mk 0xA7AE 0xA7AE (-42308),
   CaseRange.mk 0xA7B0 0xA7B0 (-42258), CaseRange.mk 0xA7B1 0xA7B1 (-42282),
   CaseRange.mk 0xA7B2 0xA7B2 (-42261), CaseRange.mk 0xA7B3 0xA7B3 928,
   CaseRange.mk 0xA7B4 0xA7C3 UpperLower, CaseRange.mk 0xA7C4 0xA7C4 (-48),
   CaseRange.mk 0xA7C5 0xA7C5 (-42307), CaseRange.mk 0xA7C6 0xA7C6 (-35384),
   CaseRange.mk 0xA7C7 0xA7CA UpperLower, CaseRange.mk 0xA7D0 0xA7D0 1,
   CaseRange.mk 0xA7D6 0xA7D9 UpperLower, CaseRange.mk 0xA7F5 0xA7F5 1,
   CaseRange.mk 0xFF21 0xFF3A 32, CaseRange.mk 0x10400 0x10427 40,
   CaseRange.mk 0x104B0 0x104D3 40, CaseRange.mk 0x10570 0x1057A 39,
   CaseRange.mk 0x1057C 0x1058A 39, CaseRange.mk 0x1058C 0x10592 39,
   CaseRange.mk 0x10594 0x10595 39, CaseRange.mk 0x10C80 0x10CB2 64,
   CaseRange.mk 0x118A0 0x118BF 32, CaseRange.mk 0x16E40 0x16E5F 32,
   CaseRange.mk 0x1E900 0x1E921 34]

/-- The function `to` of package `unicode` for the lower case: the entry that holds
`r` decides; in an alternating range the offset of `r` gets its low bit set
(`Lo + ((r - Lo) &^ 1 | 1)`), elsewhere the delta is added; a code point in no range
is returned as it is.  The ranges are disjoint, so looking them up in order finds the
entry that the binary search of the library finds. -/
def toLowerCase (r : Nat) : List CaseRange → Nat
  | [] => r
  | cr :: caseRange =>
    if cr.Lo ≤ r ∧ r ≤ cr.Hi then
      if cr.Delta > MaxRune then cr.Lo + ((r - cr.Lo) / 2 * 2 + 1)
      else Int.toNat (r + cr.Delta)
    else toLowerCase r caseRange

/-- Go's `unicode.ToLower`: the ASCII letters `A` to `Z` are moved by `'a' - 'A'`, the
other ASCII characters are left alone, everything else goes through the case
table. -/
def unicodeToLower (r : Char) : Char :=
  if r.toNat ≤ MaxASCII then
    if 'A'.toNat ≤ r.toNat ∧ r.toNat ≤ 'Z'.toNat then
      Char.ofNat (r.toNat + ('a'.toNat - 'A'.toNat))
    else r
  else Char.ofNat (toLowerCase r.toNat CaseRanges)

/-- Go's `strings.ToLower`: every character mapped to its lower case by
`unicode.ToLower`. -/
def ToLower (s : String) : String :=
  ⟨s.data.map unicodeToLower⟩

/-- The comparison key of line 930: `strings.ToLower(strings.TrimSpace(s))`. -/
def normalize (s : String) : String :=
  ToLower (TrimSpace s)

/-- Go's `strings.Join`. -/
def Join (elems : List String) (sep : String) : String :=
  sep.intercalate elems

/-! ## `LoadPlaybook`: the `--build-only` filter (lines 920-948) -/

/-- The inner loop of lines 928-934 for the unit called `name`: it walks
`order.BuildOnly`, adds one to `totalMatchesFound` for every target equal to the
unit's name (both lower-cased and trimmed) and raises `matchFound`. -/
def matchBuildOnly (name : String) (BuildOnly : List String)
    (totalMatchesFound : Nat) : Nat × Bool :=
  BuildOnly.foldl
    (fun acc target =>
      if normalize target = normalize name then (acc.1 + 1, true) else acc)
    (totalMatchesFound, false)

/-- The outer loop of lines 926-938: a unit for which no target matched gets the
status `DoNotBuild`; the running `totalMatchesFound` is threaded through. -/
def markDoNotBuild (BuildOnly : List String) :
    List Container → Nat → List Container × Nat
  | [], totalMatchesFound => ([], totalMatchesFound)
  | container :: rest, totalMatchesFound =>
    let found := matchBuildOnly container.Name BuildOnly totalMatchesFound
    let container' :=
      if found.2 = false then { container with Status := Status.DoNotBuild } else container
    let out := markDoNotBuild BuildOnly rest found.1
    (container' :: out.1, out.2)

/-- What the last step of `LoadPlaybook` leaves behind. -/
structure BuildOnlyStep where
  Containers : List Container
  numberOfBuilds : Nat
  signals : List Signal
  deriving DecidableEq, Repr

/-- The message of line 944. -/
def buildOnlyMissing : String :=
  "One or more of the chosen --build-only containers do not exist"

/-- Lines 920-948 of `LoadPlaybook`.  The send on `fail` has no `return` after it,
so the task goes on to the send on `done`. -/
def LoadPlaybookBuildOnly (Containers : List Container) (BuildOnly : List String) :
    BuildOnlyStep :=
  if BuildOnly.length > 0 then
    let out := markDoNotBuild BuildOnly Containers 0
    let numberOfBuilds := out.2
    if BuildOnly.length ≠ numberOfBuilds then
      { Containers := out.1, numberOfBuilds := numberOfBuilds,
        signals := [Signal.fail buildOnlyMissing, Signal.done "1"] }
    else
      { Containers := out.1, numberOfBuilds := numberOfBuilds,
        signals := [Signal.done "1"] }
  else
    { Containers := Containers, numberOfBuilds := Containers.length,
      signals := [Signal.done "1"] }

/-- Number of units of a registry whose status is `s`. -/
def countStatus (s : Status) (Containers : List Container) : Nat :=
  Containers.countP (fun c => c.Status = s)

/-- Number of units of a registry whose status is not `s`. -/
def countNotStatus (s : Status) (Containers : List Container) : Nat :=
  Containers.countP (fun c => c.Status ≠ s)

/-- A value was sent on `fail`. -/
def sentFail (signals : List Signal) : Bool :=
  signals.any (fun s => match s with | Signal.fail _ => true | _ => false)

/-- A value was sent on `done`. -/
def sentDone (signals : List Signal) : Bool :=
  signals.any (fun s => match s with | Signal.done _ => true | _ => false)

/-! ## `GetIntermediateStatus` (lines 293-312) -/

/-- The loop of lines 294-302: the names of the pushed units and the names of the
units that are neither pushed nor excluded. -/
def intermediateLists (Containers : List Container) : List String × List String :=
  Containers.foldl
    (fun acc container =>
      if container.Status = Status.Pushed then (acc.1 ++ [container.Name], acc.2)
      else if container.Status ≠ Status.DoNotBuild then (acc.1, acc.2 ++ [container.Name])
      else acc)
    ([], [])

/-- The `fmt.Sprintf` of lines 309-311. -/
def intermediateMessage (finished total : Nat) (complete remaining : List String) :
    String :=
  "Built & Pushed [ " ++ toString finished ++ " / " ++ toString total ++ " ].\nComplete: "
    ++ Join complete ", " ++ "\nRemaining: " ++ Join remaining ", " ++ "\n"

/-- The method `GetIntermediateStatus`: the values it sends on `progress`. -/
def GetIntermediateStatus (Containers : List Container) : List Signal :=
  let lists := intermediateLists Containers
  let finishedContainers := lists.1
  let remainingContainers := lists.2
  if remainingContainers.length = 0 then
    []
  else
    [Signal.progress
      (intermediateMessage finishedContainers.length
        (finishedContainers.length + remainingContainers.length)
        finishedContainers remainingContainers)]

/-- Go's `strings.Contains`, on the characters of the two strings. -/
def containsChars : List Char → List Char → Bool
  | [], substr => substr.isEmpty
  | c :: s, substr => substr.isPrefixOf (c :: s) || containsChars s substr

/-- Go's `strings.Contains`. -/
def Contains (s substr : String) : Bool :=
  containsChars s.data substr.data

/-- The value an `int64` holds after an operation whose exact result is `x`. -/
def wrapInt64 (x : Int) : Int :=
  (x + 9223372036854775808) % 18446744073709551616 - 9223372036854775808

/-! ## The order and its environment -/

/-- The fields of `SoftwareOrder` that the coordination code reads or writes.  `Log`
holds the blocks handed to `WriteLog`, oldest first. -/
structure SoftwareOrder where
  DeploymentType : String
  MirrorURL : String := ""
  BuildOnly : List String := []
  Verbose : Bool := false
  Containers : List Container := []
  TotalBuildSize : Int := 0
  EndTime : Nat := 0
  Log : List String := []
  BaseImage : String := ""
  VirtualHost : String := ""
  DockerNamespace : String := ""
  DockerRegistry : String := ""
  TimestampTag : String := ""
  License : String := ""
  deriving DecidableEq, Repr

/-- The method `WriteLog`, as far as the log's content goes. -/
def SoftwareOrder.WriteLog (order : SoftwareOrder) (block : String) : SoftwareOrder :=
  { order with Log := order.Log ++ [block] }

/-- What a call of `Container.Prebuild` did: the lines it sent on `progress`, the
status it left in the unit, and the error it returned. -/
structure PrebuildOutcome where
  progress : List String := []
  Status : Status := Status.Loaded
  err : Option String := none

/-- What a call of `Container.Build` did: the lines it sent on `progress`, the status
it left in the unit, and the error it returned. -/
structure BuildOutcome where
  progress : List String := []
  Status : Status := Status.Loaded
  err : Option String := none

/-- What `DockerClient.ImageList` returned: the `Size` of every image summary, and
the error. -/
structure ImageListOutcome where
  sizes : List Int := []
  err : Option String := none

/-- What a call of `Container.Push` did. -/
structure PushOutcome where
  progress : List String := []
  err : Option String := none

/-- The collaborators of the coordinator that are not in `order.go`.  The methods of
`Container` live in `container.go`; they are answered per unit name.  `now` is the
reading of the clock when the pool starts, `NumCPU` is `runtime.NumCPU()`, which is
at least 1. -/
structure Env where
  Prebuild : String → PrebuildOutcome
  Build : String → BuildOutcome
  ImageList : String → ImageListOutcome
  Push : String → PushOutcome
  GetWholeImageName : Container → String
  GenerateManifests : List Container → Option String
  buildProgrammingOnlySingleContainer : Option String := none
  now : Nat := 0
  NumCPU : Nat := 1
  NumCPU_pos : 0 < NumCPU := by decide

/-- A call that leaves the worker. -/
inductive Call where
  | Build (name : String)
  | ImageList (name : String)
  | Push (name : String)
  deriving DecidableEq, Repr

/-! ## `buildWorker` (lines 460-508) -/

/-- What the workers share and what they have done so far: the cumulative size
counter of the order, the clock, the values sent on the channels, the calls made,
and the blocks a worker handed to `WriteLog`. -/
structure PoolState where
  TotalBuildSize : Int
  now : Nat
  signals : List Signal := []
  calls : List Call := []
  warnings : List String := []
  deriving DecidableEq, Repr

/-- Where control is after a piece of the loop body. -/
inductive Flow where
  | next
  | returned
  | panicked
  deriving DecidableEq, Repr

/-- A piece of the loop body has run. -/
structure Step where
  flow : Flow
  state : PoolState
  container : Container
  deriving DecidableEq, Repr

/-- Lines 466-477, the build of one unit. -/
def buildSection (env : Env) (st : PoolState) (container : Container) : Step :=
  let container := { container with BuildStart := st.now }
  let st := { st with now := st.now + 1 }
  let out := env.Build container.Name
  let st := { st with
    calls := st.calls ++ [Call.Build container.Name],
    signals := st.signals ++ out.progress.map Signal.progress }
  let container := { container with Status := out.Status }
  match out.err with
  | some err =>
    let container := { container with Status := Status.Failed }
    let st := { st with
      signals := st.signals ++
        [Signal.fail (container.Name ++ ":" ++ container.Tag ++ " container build " ++ err)] }
    { flow := Flow.returned, state := st, container := container }
  | none =>
    let container := { container with BuildEnd := st.now }
    let st := { st with now := st.now + 1 }
    let container :=
      if container.Status ≠ Status.Failed then { container with Status := Status.Built }
      else container
    { flow := Flow.next, state := st, container := container }

/-- The block handed to `WriteLog` on line 485. -/
def sizeWarning : String :=
  "Unable to connect to Docker client for image build sizes"

/-- Lines 479-489, the size of the image.  `imageInfo[0]` is read whatever `err` is;
on an empty list the index is out of range and the goroutine panics. -/
def sizeSection (env : Env) (st : PoolState) (container : Container) : Step :=
  let out := env.ImageList container.Name
  let st := { st with calls := st.calls ++ [Call.ImageList container.Name] }
  let st :=
    match out.err with
    | some _ => { st with warnings := st.warnings ++ [sizeWarning] }
    | none => st
  match out.sizes with
  | [] => { flow := Flow.panicked, state := st, container := container }
  | imageSize :: _ =>
    let st := { st with TotalBuildSize := wrapInt64 (st.TotalBuildSize + imageSize) }
    let container := { container with ImageSize := imageSize }
    { flow := Flow.next, state := st, container := container }

/-- Lines 491-506, the push of one unit.  `before` and `after` are the other units of
the registry, which `GetIntermediateStatus` reads. -/
def pushSection (env : Env) (before after : List Container) (st : PoolState)
    (container : Container) : Step :=
  let container := { container with PushStart := st.now }
  let st := { st with now := st.now + 1 }
  let out := env.Push container.Name
  let st := { st with
    calls := st.calls ++ [Call.Push container.Name],
    signals := st.signals ++ out.progress.map Signal.progress }
  match out.err with
  | some err =>
    let container := { container with Status := Status.Failed }
    let st := { st with
      signals := st.signals ++
        [Signal.fail (env.GetWholeImageName container ++ " container push " ++ err),
          Signal.done container.Name] }
    { flow := Flow.returned, state := st, container := container }
  | none =>
    let container := { container with PushEnd := st.now }
    let st := { st with now := st.now + 1 }
    let container := { container with Status := Status.Pushed }
    let st := { st with
      signals := st.signals ++
        [Signal.progress
          (env.GetWholeImageName container ++ ": finished pushing image to Docker registry")]
        ++ GetIntermediateStatus (before ++ container :: after)
        ++ [Signal.done container.Name] }
    { flow := Flow.next, state := st, container := container }

/-- Lines 466-506, the loop body for a unit that passed the guard of line 462. -/
def buildUnit (env : Env) (before after : List Container) (st : PoolState)
    (container : Container) : Step :=
  let built := buildSection env st container
  match built.flow with
  | Flow.next =>
    let sized := sizeSection env built.state built.container
    match sized.flow with
    | Flow.next => pushSection env before after sized.state sized.container
    | _ => sized
  | _ => built

/-- How a worker ends: the queue is closed and empty, or the worker returned after a
failure, or it panicked. -/
inductive WorkerExit where
  | drained
  | returned
  | panicked
  deriving DecidableEq, Repr

/-- A worker has ended. -/
structure WorkerResult where
  exit : WorkerExit
  state : PoolState
  Containers : List Container
  unread : List Container
  deriving DecidableEq, Repr

/-- The function `buildWorker` run on the units it receives from `containers`, in the
order received.  `before` holds the units of the registry already taken from the
queue; a unit whose status is not `Loaded` is skipped by the `continue` of line
463. -/
def buildWorker (env : Env) :
    PoolState → List Container → List Container → WorkerResult
  | st, before, [] =>
    { exit := WorkerExit.drained, state := st, Containers := before, unread := [] }
  | st, before, container :: queue =>
    if container.Status ≠ Status.Loaded then
      buildWorker env st (before ++ [container]) queue
    else
      let step := buildUnit env before queue st container
      match step.flow with
      | Flow.next => buildWorker env step.state (before ++ [step.container]) queue
      | Flow.returned =>
        { exit := WorkerExit.returned, state := step.state,
          Containers := before ++ step.container :: queue, unread := queue }
      | Flow.panicked =>
        { exit := WorkerExit.panicked, state := step.state,
          Containers := before ++ step.container :: queue, unread := queue }

/-! ## The consuming loops -/

/-- How a `for { select { ... } }` loop over the three channels ends: the completion
counter reached the target, a value arrived on `fail`, or no value arrives any more
and the `select` blocks for ever. -/
inductive LoopExit where
  | succeeded
  | failed (failure : String)
  | waiting
  deriving DecidableEq, Repr

/-- A consuming loop has ended: the counter, the blocks it handed to `WriteLog`, and
the values it never received. -/
structure LoopResult where
  exit : LoopExit
  doneCount : Nat
  log : List String
  unread : List Signal
  deriving DecidableEq, Repr

/-- The number of loading tasks that `NewSoftwareOrder` starts (lines 178-196). -/
def loadingWorkerCount : Nat :=
  0 + 1 + 1 + 1 + 1 + 1

/-- The loop of lines 198-216 of `NewSoftwareOrder`, run on the values in the order
in which the `select` receives them. -/
def loadingLoop (workerCount : Nat) : Nat → List String → List Signal → LoopResult
  | doneCount, log, [] =>
    { exit := LoopExit.waiting, doneCount := doneCount, log := log, unread := [] }
  | doneCount, log, Signal.done _ :: rest =>
    let doneCount := doneCount + 1
    if doneCount = workerCount then
      { exit := LoopExit.succeeded, doneCount := doneCount, log := log, unread := rest }
    else
      loadingLoop workerCount doneCount log rest
  | doneCount, log, Signal.fail failure :: rest =>
    { exit := LoopExit.failed failure, doneCount := doneCount, log := log, unread := rest }
  | doneCount, log, Signal.progress progress :: rest =>
    loadingLoop workerCount doneCount (log ++ [progress]) rest

/-- The loop of lines 624-639 of `Build`; it differs from the loading loop in that
the failure is also written to the log. -/
def buildLoop (numberOfBuilds : Nat) : Nat → List String → List Signal → LoopResult
  | doneCount, log, [] =>
    { exit := LoopExit.waiting, doneCount := doneCount, log := log, unread := [] }
  | doneCount, log, Signal.done _ :: rest =>
    let doneCount := doneCount + 1
    if doneCount = numberOfBuilds then
      { exit := LoopExit.succeeded, doneCount := doneCount, log := log, unread := rest }
    else
      buildLoop numberOfBuilds doneCount log rest
  | doneCount, log, Signal.fail failure :: rest =>
    { exit := LoopExit.failed failure, doneCount := doneCount, log := log ++ [failure],
      unread := rest }
  | doneCount, log, Signal.progress progress :: rest =>
    buildLoop numberOfBuilds doneCount (log ++ [progress]) rest

/-- The loop of lines 979-999 of `Prepare`: a value on `fail` is written to the log
and the loop goes on. -/
def prepareLoop (workerCount : Nat) : Nat → List String → List Signal → LoopResult
  | doneCount, log, [] =>
    { exit := LoopExit.waiting, doneCount := doneCount, log := log, unread := [] }
  | doneCount, log, Signal.done _ :: rest =>
    let doneCount := doneCount + 1
    if doneCount = workerCount then
      { exit := LoopExit.succeeded, doneCount := doneCount, log := log, unread := rest }
    else
      prepareLoop workerCount doneCount log rest
  | doneCount, log, Signal.fail failure :: rest =>
    prepareLoop workerCount doneCount (log ++ [failure]) rest
  | doneCount, log, Signal.progress progress :: rest =>
    prepareLoop workerCount doneCount (log ++ [progress]) rest

/-! ## `Build` (lines 579-641) -/

/-- A call has ended, with what it returned when it returned. -/
inductive Outcome (α : Type) where
  | returned (value : α)
  | panicked
  | blocked
  deriving DecidableEq, Repr

/-- The error of lines 595-597. -/
def zeroBuilds : String :=
  "The number of builds are set to zero. " ++
    "An error in pre-build tasks may have occured or the " ++
    "Software Order entitlement does not match the deployment type."

/-- The counting loop of lines 587-592. -/
def numberOfBuilds (Containers : List Container) : Nat :=
  Containers.foldl
    (fun numberOfBuilds container =>
      if container.Status = Status.Loaded then numberOfBuilds + 1 else numberOfBuilds)
    0

/-- The sending loop of lines 620-622: every unit of the registry is sent on `jobs`. -/
def dispatch (Containers : List Container) : List Container :=
  Containers.foldl (fun jobs container => jobs ++ [container]) []

/-- The capacity of the channel `jobs` (line 612). -/
def jobsCapacity : Nat := 100

/-- The number of units that `workers` workers take from `jobs` before the consuming
loop of `Build` runs.  Until then nobody receives on `progress`, `done` or `fail`, so
a worker skips the units that are not `Loaded` and stops at the first send it makes
for a `Loaded` unit. -/
def takenBeforeLoop : Nat → List Container → Nat
  | 0, _ => 0
  | _ + 1, [] => 0
  | workers + 1, container :: queue =>
    if container.Status = Status.Loaded then 1 + takenBeforeLoop workers queue
    else 1 + takenBeforeLoop (workers + 1) queue

/-- The sending loop of lines 620-622 blocks for ever: the units not yet taken by a
worker do not fit the buffer of `jobs`. -/
def jobsBlock (workers : Nat) (Containers : List Container) : Bool :=
  decide (jobsCapacity + takenBeforeLoop workers Containers < Containers.length)

/-- The lines written to the log before the workers start (lines 598-608). -/
def announceBuilds (order : SoftwareOrder) (numberOfBuilds : Nat) : SoftwareOrder :=
  let order :=
    if numberOfBuilds = 1 then
      order.WriteLog ("Starting " ++ toString numberOfBuilds ++
        " build process ... (this may take several minutes)")
    else
      order.WriteLog ("Starting " ++ toString numberOfBuilds ++
        " build processes ... (this may take several minutes)")
  let order :=
    if !order.Verbose then
      order.WriteLog ("[TIP] The '--verbose' flag can be used to view the Docker build " ++
        "layers as they are being created.")
    else order
  order.WriteLog
    "[TIP] System resource utilization can be seen by using the `docker stats` command."

/-- What `Build` returned and left behind: the error, the order, the number of
workers started, the units sent on `jobs`, the calls the workers made and the blocks
they handed to `WriteLog`. -/
structure BuildReturn where
  err : Option String
  order : SoftwareOrder
  workers : Nat := 0
  jobs : List Container := []
  calls : List Call := []
  warnings : List String := []
  deriving DecidableEq, Repr

/-- The method `Build`, with the workers running one after another: the first worker
takes units from `jobs` until the queue is empty or it returns, and the consuming
loop receives what it sends.  A worker that returns has sent on `fail`, which makes
`Build` return, so the other workers take no unit before `Build` is over. -/
def Build (env : Env) (order : SoftwareOrder) : Outcome BuildReturn :=
  if order.DeploymentType = "single" then
    Outcome.returned { err := env.buildProgrammingOnlySingleContainer, order := order }
  else
    let numberOfBuilds := numberOfBuilds order.Containers
    if numberOfBuilds = 0 then
      Outcome.returned { err := some zeroBuilds, order := order }
    else
      let order := announceBuilds order numberOfBuilds
      let workers := env.NumCPU
      if jobsBlock workers order.Containers then
        Outcome.blocked
      else
        let jobs := dispatch order.Containers
        let pool := buildWorker env
          { TotalBuildSize := order.TotalBuildSize, now := env.now } [] jobs
        match pool.exit with
        | WorkerExit.panicked => Outcome.panicked
        | _ =>
          let loop := buildLoop numberOfBuilds 0 order.Log pool.state.signals
          let order := { order with
            Containers := pool.Containers,
            TotalBuildSize := pool.state.TotalBuildSize,
            Log := loop.log }
          match loop.exit with
          | LoopExit.succeeded =>
            Outcome.returned
              { err := none, order := { order with EndTime := pool.state.now },
                workers := workers, jobs := jobs, calls := pool.state.calls,
                warnings := pool.state.warnings }
          | LoopExit.failed failure =>
            Outcome.returned
              { err := some failure, order := order,
                workers := workers, jobs := jobs, calls := pool.state.calls,
                warnings := pool.state.warnings }
          | LoopExit.waiting => Outcome.blocked

/-! ## `Prepare` (lines 952-1001) -/

/-- The goroutine of lines 966-974, for one unit.  After the send on `fail` there is
no `return`: the task goes on to the send on `done`. -/
def prebuildTask (env : Env) (container : Container) : Container × List Signal :=
  let container := { container with Status := Status.Loading }
  let out := env.Prebuild container.Name
  let container := { container with Status := out.Status }
  match out.err with
  | some err =>
    let container := { container with Status := Status.Failed }
    (container,
      out.progress.map Signal.progress ++
        [Signal.fail (container.Name ++ " prebuild " ++ err), Signal.done container.Name])
  | none =>
    (container, out.progress.map Signal.progress ++ [Signal.done container.Name])

/-- The tasks of `Prepare` have run. -/
structure Prebuilt where
  Containers : List Container
  workerCount : Nat
  signals : List Signal
  deriving DecidableEq, Repr

/-- The loop of lines 963-976, with the tasks running one after another in the
order in which they are started. -/
def startPrebuilds (env : Env) : List Container → Prebuilt
  | [] => { Containers := [], workerCount := 0, signals := [] }
  | container :: rest =>
    let others := startPrebuilds env rest
    if container.Status ≠ Status.DoNotBuild then
      let task := prebuildTask env container
      { Containers := task.1 :: others.Containers,
        workerCount := others.workerCount + 1,
        signals := task.2 ++ others.signals }
    else
      { others with Containers := container :: others.Containers }

/-- What `Prepare` returned and left behind; `manifests` tells whether
`GenerateManifests` was called. -/
structure PrepareReturn where
  err : Option String
  order : SoftwareOrder
  manifests : Bool
  deriving DecidableEq, Repr

/-- The method `Prepare`.  Its loop has one way out, the counter reaching
`workerCount`; then the result of `GenerateManifests` is returned. -/
def Prepare (env : Env) (order : SoftwareOrder) : Outcome PrepareReturn :=
  if order.DeploymentType = "single" then
    Outcome.returned { err := none, order := order, manifests := false }
  else
    let tasks := startPrebuilds env order.Containers
    let loop := prepareLoop tasks.workerCount 0 order.Log tasks.signals
    let order := { order with Containers := tasks.Containers, Log := loop.log }
    match loop.exit with
    | LoopExit.succeeded =>
      Outcome.returned
        { err := env.GenerateManifests order.Containers, order := order, manifests := true }
    | _ => Outcome.blocked

/-! ## `TestMirror` (lines 781-802) -/

/-- What `http.Get` returned: an error (and then a nil response), or a response with
its status code. -/
inductive HttpResult where
  | error (err : String)
  | response (StatusCode : Int)
  deriving DecidableEq, Repr

/-- A task has ended: the values it sent, and how it ended. -/
structure Task where
  signals : List Signal
  ending : Ending
  deriving DecidableEq, Repr

/-- The message of line 784. -/
def mirrorNeedsTLS : String :=
  "The --mirror-url must have TLS enabled. Provide the url with 'https' instead of " ++
    "'http' in the command argument."

/-- The method `TestMirror`.  No send on `fail` is followed by a `return`.  After a
failed `http.Get` the response is nil, and `response.Body` on line 795 panics.  When
the status code is not 200, `err` is nil on line 797, and `err.Error()` panics before
anything is sent. -/
def TestMirror (MirrorURL : String) (Get : String → HttpResult) : Task :=
  if MirrorURL.length > 0 then
    let sent : List Signal :=
      if Contains MirrorURL "http://" then [Signal.fail mirrorNeedsTLS] else []
    let url := if !Contains MirrorURL "https://" then "https://" ++ MirrorURL else MirrorURL
    let sent := sent ++
      [Signal.progress ("Checking the mirror URL for validity ... curl " ++ url)]
    match Get url with
    | HttpResult.error err =>
      { signals := sent ++ [Signal.fail err], ending := Ending.panicked }
    | HttpResult.response StatusCode =>
      if StatusCode ≠ 200 then
        { signals := sent, ending := Ending.panicked }
      else
        { signals := sent ++
            [Signal.progress
              ("Finished checking the mirror URL for validity: http status code " ++
                toString StatusCode),
              Signal.done "1"],
          ending := Ending.returned }
  else
    { signals := [Signal.done "1"], ending := Ending.returned }

/-! ## `NewSoftwareOrder` (lines 198-216) -/

/-- The consuming loop of `NewSoftwareOrder` on the values `received` from the five
loading tasks, followed by the call of `Prepare`: the error returned and the order. -/
def NewSoftwareOrder (env : Env) (order : SoftwareOrder) (received : List Signal) :
    Outcome (Option String × SoftwareOrder) :=
  let loop := loadingLoop loadingWorkerCount 0 order.Log received
  let order := { order with Log := loop.log }
  match loop.exit with
  | LoopExit.succeeded =>
    match Prepare env order with
    | Outcome.returned prepared => Outcome.returned (prepared.err, prepared.order)
    | Outcome.panicked => Outcome.panicked
    | Outcome.blocked => Outcome.blocked
  | LoopExit.failed failure => Outcome.returned (some failure, order)
  | LoopExit.waiting => Outcome.blocked

/-! ## More of Go's `strings` -/

/-- Go's `strings.Index` on the characters of the two strings: the position of the
first occurrence of `substr`, or -1. -/
def indexChars : List Char → List Char → Int
  | [], substr => if substr.isEmpty then 0 else -1
  | c :: s, substr =>
    if substr.isPrefixOf (c :: s) then 0
    else
      let i := indexChars s substr
      if i < 0 then -1 else i + 1

/-- Go's `strings.Index`. -/
def Index (s substr : String) : Int :=
  indexChars s.data substr.data

/-- The slice expression `s[low:]`; `none` stands for the panic on a bound out of
range. -/
def sliceFrom (s : String) (low : Int) : Option String :=
  if 0 ≤ low ∧ low ≤ s.length then some ⟨s.data.drop low.toNat⟩ else none

/-- The slice expression `s[0:high]`; `none` stands for the panic on a bound out of
range. -/
def sliceTo (s : String) (high : Int) : Option String :=
  if 0 ≤ high ∧ high ≤ s.length then some ⟨s.data.take high.toNat⟩ else none

/-- Go's `strings.Replace(s, old, new, -1)` on characters, for a non-empty `old`;
`skip` counts the characters of a replaced occurrence that are still to be passed. -/
def replaceChars (old new : List Char) : Nat → List Char → List Char
  | _, [] => []
  | skip + 1, _ :: s => replaceChars old new skip s
  | 0, c :: s =>
    if old.isPrefixOf (c :: s) then new ++ replaceChars old new (old.length - 1) s
    else c :: replaceChars old new 0 s

/-- Go's `strings.Replace(s, old, new, -1)`, for a non-empty `old`. -/
def Replace (s old new : String) : String :=
  ⟨replaceChars old.data new.data 0 s.data⟩

/-- Go's `strings.Split` on characters, for a non-empty separator; `skip` counts the
characters of a separator that are still to be passed. -/
def splitChars (sep : List Char) : Nat → List Char → List (List Char)
  | _, [] => [[]]
  | skip + 1, _ :: s => splitChars sep skip s
  | 0, c :: s =>
    if sep.isPrefixOf (c :: s) then [] :: splitChars sep (sep.length - 1) s
    else
      match splitChars sep 0 s with
      | [] => [[c]]
      | part :: parts => (c :: part) :: parts

/-- Go's `strings.Split`, for a non-empty separator. -/
def Split (s sep : String) : List String :=
  (splitChars sep.data 0 s.data).map String.mk

/-! ## `TestRegistry` (lines 806-865) -/

/-- Lines 852-861 of `TestRegistry`: the token is cut out of the Docker configuration
with `strings.Index` and slices.  `none` stands for a panic on a slice bound. -/
def extractAuth (config DockerRegistry : String) : Option String := do
  let startSection := Index config DockerRegistry
  let config ← sliceFrom config startSection
  let endSection := Index config "\x7d,"
  let config ← sliceTo config endSection
  let authSection := "\"auth\": \""
  let startAuth := Index config "\"auth\": \""
  let config ← sliceFrom config (startAuth + authSection.length - 1)
  let config := TrimSpace config
  let config := Replace config "\"" ""
  let config := Replace config "\n" ""
  let config := Replace config "\t" ""
  pure config

/-- What `TestRegistry` asks of the machine: the answer of `http.Get`, the home
directory of `user.Current()` (or its error) and the content of a file (or the error
of `ioutil.ReadFile`). -/
structure RegistryHost where
  Get : String → HttpResult
  Current : Except String String
  ReadFile : String → Except String String

/-- The task `TestRegistry` has ended: the values it sent, how it ended, and
`order.RegistryAuth`. -/
structure RegistryTask where
  signals : List Signal
  ending : Ending
  RegistryAuth : String
  deriving DecidableEq, Repr

/-- The message of line 813. -/
def registryNeedsTLS : String :=
  "The --docker-registry-url must have TLS enabled. Provide the url with 'https' " ++
    "instead of 'http' in the command argument."

/-- The message of line 843. -/
def registryNotInConfig : String :=
  "Cannot find the --docker-registry-url in the Docker config. " ++
    "Run `docker login <registry>` before building."

/-- Lines 831-864 of `TestRegistry`, after the URL was checked: the Docker
configuration is read and the token taken from it.  After a failed `user.Current()`
the user object is nil and line 836 panics; a failed `ReadFile` leaves an empty
content. -/
def loadRegistryAuth (host : RegistryHost) (DockerRegistry RegistryAuth : String)
    (sent : List Signal) : RegistryTask :=
  match host.Current with
  | Except.error err =>
    { signals := sent ++
        [Signal.fail ("Cannot get user home directory path for docker config. " ++ err)],
      ending := Ending.panicked, RegistryAuth := RegistryAuth }
  | Except.ok HomeDir =>
    let dockerConfigPath := HomeDir ++ "/.docker/config.json"
    let read : String × List Signal :=
      match host.ReadFile dockerConfigPath with
      | Except.error err =>
        ("", sent ++
          [Signal.fail ("Cannot read Docker configuration or file read permission is " ++
            "not permitted in " ++ dockerConfigPath ++
            " run a `docker login <registry>`. " ++ err)])
      | Except.ok configContent => (configContent, sent)
    let config := read.1
    let sent := read.2
    let sent :=
      if !Contains config DockerRegistry then sent ++ [Signal.fail registryNotInConfig]
      else sent
    match extractAuth config DockerRegistry with
    | none => { signals := sent, ending := Ending.panicked, RegistryAuth := RegistryAuth }
    | some auth =>
      { signals := sent ++ [Signal.done "1"], ending := Ending.returned,
        RegistryAuth := auth }

/-- The method `TestRegistry`.  No send on `fail` is followed by a `return`.  After a
failed `http.Get` the response is nil and line 824 panics; when the status code is
not 200, `err` is nil on line 826 and `err.Error()` panics before anything is sent. -/
def TestRegistry (host : RegistryHost) (DeploymentType DockerRegistry RegistryAuth : String) :
    RegistryTask :=
  if DeploymentType = "single" then
    { signals := [Signal.done "1"], ending := Ending.returned, RegistryAuth := RegistryAuth }
  else
    let sent : List Signal :=
      if Contains DockerRegistry "http://" then [Signal.fail registryNeedsTLS] else []
    let url :=
      if !Contains DockerRegistry "https://" then "https://" ++ DockerRegistry
      else DockerRegistry
    let sent := sent ++
      [Signal.progress ("Checking the Docker registry URL for validity ... curl " ++ url)]
    match host.Get url with
    | HttpResult.error err =>
      { signals := sent ++ [Signal.fail err], ending := Ending.panicked,
        RegistryAuth := RegistryAuth }
    | HttpResult.response StatusCode =>
      if StatusCode ≠ 200 then
        { signals := sent, ending := Ending.panicked, RegistryAuth := RegistryAuth }
      else
        loadRegistryAuth host DockerRegistry RegistryAuth
          (sent ++
            [Signal.progress
              ("Finished checking the Docker registry URL for validity: http status code "
                ++ toString StatusCode)])

/-- The Docker configuration of the comment on `Registry` (lines 122-129). -/
def documentedConfig : String :=
  "\x7b\n    \"auths\": \x7b\n        \"docker.mycompany.com\": \x7b\n" ++
    "            \"auth\": \"Zaoiqw0==\"\n        \x7d\n    \x7d,\n\x7d"

/-- A Docker configuration in which another entry follows that of the registry, as
in the comment of lines 847-850. -/
def configWithNextEntry : String :=
  "\x7b\n\t\"auths\": \x7b\n\t\t\"docker.mycompany.com\": \x7b\n\t\t\t\"auth\": \"Y29J79JPO==\"\n" ++
    "\t\t\x7d,\n\t\t\"other.example.com\": \x7b\n\t\t\t\"auth\": \"b3RoZXI=\"\n\t\t\x7d\n\t\x7d\n\x7d"

/-! ## `getContainers` (lines 647-696) -/

/-- The names that are not added to the registry (lines 651-654). -/
def ignoredContainers : List String :=
  ["all", "sas-all", "CommandLine", "sas-casserver-secondary", "sas-casserver-worker"]

/-- The header of the section that lists the units (line 663). -/
def startOfSection : String := "[sas-all:children]"

/-- The error of line 671. -/
def cannotFindSection : String :=
  "Cannot find inventory.ini section with all container names"

/-- The loop of lines 665-669 from line number `index` on: `startLine` becomes the
number of every line that equals the header. -/
def findStartLine : List String → Nat → Nat → Nat
  | [], _, startLine => startLine
  | line :: lines, index, startLine =>
    findStartLine lines (index + 1) (if line = startOfSection then index else startLine)

/-- The loop of lines 676-680: `skip` is raised when the line equals an ignored
name. -/
def isIgnored (name : String) : Bool :=
  ignoredContainers.foldl (fun skip ignored => if name = ignored then true else skip) false

/-- The map assignment `containers[container.Name] = &container` of line 692: an
entry under the same name is replaced. -/
def setContainer (containers : List Container) (container : Container) : List Container :=
  if containers.any (fun c => c.Name = container.Name) then
    containers.map (fun c => if c.Name = container.Name then container else c)
  else
    containers ++ [container]

/-- The loop of lines 673-693 over the lines that follow the header.  `GetTag` is the
method of `Container` that computes the tag. -/
def addContainers (BaseImage : String) (GetTag : Container → String) :
    List String → List Container → List Container
  | [], containers => containers
  | name :: lines, containers =>
    if isIgnored name || (TrimSpace name).length = 0 then
      addContainers BaseImage GetTag lines containers
    else
      let container : Container :=
        { Name := ToLower name, Status := Status.Unknown, BaseImage := BaseImage }
      let container := { container with Tag := GetTag container }
      addContainers BaseImage GetTag lines (setContainer containers container)

/-- The function `getContainers`: the registry and the error.  `inventoryBytes` is
what `ioutil.ReadFile` returned for `inventory.ini`. -/
def getContainers (order : SoftwareOrder) (GetTag : Container → String)
    (inventoryBytes : Except String String) : List Container × Option String :=
  match inventoryBytes with
  | Except.error err => ([], some err)
  | Except.ok inventory =>
    let startLine := findStartLine (Split inventory "\n") 0 0
    if startLine = 0 then
      ([], some cannotFindSection)
    else
      (addContainers order.BaseImage GetTag ((Split inventory "\n").drop (startLine + 1)) [],
        none)

/-! ## `GenerateManifests`: the variables file (lines 1006-1118) -/

/-- The constant `RECIPE_VERSION` (line 49). -/
def RECIPE_VERSION : String := "19.0.4"

/-- Go's `strings.HasPrefix`. -/
def HasPrefix (s pre : String) : Bool :=
  pre.data.isPrefixOf s.data

/-- A loop of the form `for _, item := range items { block += "    - " + item + "\n" }`
(lines 1015-1017, 1023-1025, 1049-1051). -/
def appendItems (block : String) (items : List String) : String :=
  items.foldl (fun block item => block ++ "    - " ++ item ++ "\n") block

/-- The ports block (lines 1014-1017). -/
def portsBlock (container : Container) : String :=
  appendItems "    ports:\n" container.Config.Ports

/-- The environment block (lines 1020-1028). -/
def environmentBlock (container : Container) : String :=
  let environment := "    environment:"
  if container.Config.Environment.length > 0 then
    appendItems (environment ++ "\n") container.Config.Environment
  else
    environment ++ " []\n"

/-- The secrets block (lines 1031-1043).  The prefix test of line 1035 is made on the
block built so far, not on the item. -/
def secretsBlock (License : String) (container : Container) : String :=
  let secrets := "    secrets:"
  if container.Config.Secrets.length > 0 then
    container.Config.Secrets.foldl
      (fun secrets item =>
        if HasPrefix (ToLower secrets) "setinit_text_enc" then
          secrets ++ "    - " ++ item ++ License ++ "\n"
        else
          secrets ++ "    - " ++ item ++ "\n")
      (secrets ++ "\n")
  else
    secrets ++ " []\n"

/-- The volumes block (lines 1046-1054). -/
def volumesBlock (container : Container) : String :=
  let volumes := "    volumes:"
  if container.Config.Volumes.length > 0 then
    appendItems (volumes ++ "\n") container.Config.Volumes
  else
    volumes ++ " []\n"

/-- The section of one unit (lines 1013-1076).  The blocks `volumes` and `resources`
are built by the function and appended to nothing. -/
def containerSection (License : String) (container : Container) : String :=
  let ports := portsBlock container
  let environment := environmentBlock container
  let secrets := secretsBlock License container
  let _volumes := volumesBlock container
  let containerSection := "  " ++ container.Name ++ ":\n"
  let containerSection := containerSection ++ ports
  let containerSection := containerSection ++ environment
  containerSection ++ secrets

/-- The loop of lines 1007-1078: one section for every unit that is not
`DoNotBuild`. -/
def containerVarSections (License : String) (Containers : List Container) : List String :=
  Containers.foldl
    (fun sections container =>
      if container.Status = Status.DoNotBuild then sections
      else sections ++ [containerSection License container])
    []

/-- The head of the variables file (lines 1082-1110). -/
def manifestHead (order : SoftwareOrder) : String :=
  "\nSECURE_CONSUL: false\nTLS_ENABLED: false\nSAS_K8S_NAMESPACE: " ++ order.DockerNamespace ++
    "\nSAS_K8S_INGRESS_PATH: " ++ order.VirtualHost ++
    "\nSAS_K8S_INGRESS_DOMAIN: " ++ order.VirtualHost ++
    "\nCAS_VIRTUAL_HOST: " ++ order.VirtualHost ++
    "\ndocker_tag: " ++ (RECIPE_VERSION ++ "-" ++ order.TimestampTag) ++
    "\nSAS_MANIFEST_DIR: manifests/\nDEPLOYMENT_LABEL: sas-viya\n" ++
    "DISABLE_CONSUL_HTTP_PORT: false\n" ++
    "sas_cas_mode: \"\x7b\x7b cas_mode | default('smp') \x7d\x7d\"\n" ++
    "orchestration_root: /ansible/roles/\nMETAREPO_CERT_DIR: /ansible\n" ++
    "SAS_CONFIG_ROOT: /opt/sas/viya/home/\n\nsettings:\n  base: " ++ order.BaseImage ++
    "\n  project_name: sas-viya\n  k8s_namespace:\n    name: " ++ order.DockerNamespace ++ "\n"

/-- The services part of the variables file (lines 1112-1115). -/
def servicesPart (order : SoftwareOrder) : String :=
  (containerVarSections order.License order.Containers).foldl
    (fun vars containerSection => vars ++ containerSection ++ "\n")
    "services:\n"

/-- The text that `GenerateManifests` writes to `manifest-vars.yml`
(lines 1082-1118). -/
def manifestVars (order : SoftwareOrder) : String :=
  manifestHead order ++ servicesPart order ++
    ("registries: \n  docker-registry:\n    url: " ++ order.DockerRegistry ++
      " \n    namespace: " ++ order.DockerNamespace)

/-! ## `LoadCommands`: the check of `--tag` (lines 400-406) -/

/-- The regular expressions that the pattern of line 403 is made of. -/
inductive Regex where
  | nothing
  | empty
  | char (c : Char)
  | range (lo hi : Char)
  | alt (r s : Regex)
  | seq (r s : Regex)
  | star (r : Regex)
  deriving DecidableEq, Repr

/-- The expression matches the empty string. -/
def Regex.nullable : Regex → Bool
  | Regex.nothing => false
  | Regex.empty => true
  | Regex.char _ => false
  | Regex.range _ _ => false
  | Regex.alt r s => r.nullable || s.nullable
  | Regex.seq r s => r.nullable && s.nullable
  | Regex.star _ => true

/-- The derivative of an expression: what is left to match after the character `c`. -/
def Regex.deriv : Regex → Char → Regex
  | Regex.nothing, _ => Regex.nothing
  | Regex.empty, _ => Regex.nothing
  | Regex.char d, c => if c = d then Regex.empty else Regex.nothing
  | Regex.range lo hi, c => if lo ≤ c ∧ c ≤ hi then Regex.empty else Regex.nothing
  | Regex.alt r s, c => Regex.alt (r.deriv c) (s.deriv c)
  | Regex.seq r s, c =>
    if r.nullable then Regex.alt (Regex.seq (r.deriv c) s) (s.deriv c)
    else Regex.seq (r.deriv c) s
  | Regex.star r, c => Regex.seq (r.deriv c) (Regex.star r)

/-- The expression matches the whole of the text. -/
def Regex.matches (r : Regex) (text : List Char) : Bool :=
  (text.foldl Regex.deriv r).nullable

/-- The character class `[_A-z0-9]`. -/
def tagCharacter : Regex :=
  Regex.alt (Regex.char '_') (Regex.alt (Regex.range 'A' 'z') (Regex.range '0' '9'))

/-- The pattern `^[_A-z0-9]*((-|s)*[_A-z0-9])*$` of line 403; the anchors make it
match the whole of the text. -/
def validTagCharacters : Regex :=
  Regex.seq (Regex.star tagCharacter)
    (Regex.star
      (Regex.seq (Regex.star (Regex.alt (Regex.char '-') (Regex.char 's'))) tagCharacter))

/-- The error of line 405. -/
def invalidTag : String :=
  "The --tag argument contains invalid characters. " ++
    "It must contain contain only A-Z, a-z, 0-9, _, ., or -"

/-- Lines 402-406 of `LoadCommands`: the error returned for the value of `--tag`,
if any. -/
def checkTag (TagOverride : String) : Option String :=
  if TagOverride.length > 0 ∧ !validTagCharacters.matches TagOverride.data then
    some invalidTag
  else
    none

/-! ## `LoadCommands`: the list arguments (lines 374-387 and 442-453) -/

/-- Lines 374-387 of `LoadCommands`: `order.AddOns` for the value of `--addons`.  The
list is split at blanks and at commas, and the longer of the two results is kept. -/
def loadAddOns (addons : String) : List String :=
  let addons := TrimSpace addons
  if addons = "" then
    []
  else
    let spaceDelimList := Split (TrimSpace addons) " "
    let commaDelimList := Split (TrimSpace addons) ","
    if spaceDelimList.length < commaDelimList.length then commaDelimList
    else spaceDelimList

/-- Lines 442-453 of `LoadCommands`: `order.BuildOnly` for the value of
`--build-only`; `BuildOnly` is the list that the deployment type has set before
(lines 429-431), which an empty value leaves in place. -/
def loadBuildOnly (BuildOnly : List String) (buildOnly : String) : List String :=
  let buildOnly := TrimSpace buildOnly
  if buildOnly ≠ "" then
    let spaceDelimList := Split buildOnly " "
    let commaDelimList := Split buildOnly ","
    if spaceDelimList.length < commaDelimList.length then commaDelimList
    else spaceDelimList
  else
    BuildOnly

/-! ## Line 488 under concurrent workers -/

/-- A worker of the pool as far as line 488,
`container.SoftwareOrder.TotalBuildSize += imageSize`, goes: the image sizes of the
units it takes from `jobs`, in order, that it has still to add, and the value of the
counter that it has read for the first of them, when the read is done and the write
is not. -/
structure SizeWorker where
  imageSizes : List Int
  read : Option Int := none
  deriving DecidableEq, Repr

/-- The counter of the order and the workers that `Build` started (lines 617-619),
between two accesses to the counter. -/
structure SizeState where
  TotalBuildSize : Int
  workers : List SizeWorker
  deriving DecidableEq, Repr

/-- The next access of a worker to the counter: the read of line 488, or, when the
read is done, the write of the value read plus `imageSize`.  The statement is under
no lock and is no atomic operation, so the two are separate accesses.  A worker that
has added all its sizes does nothing. -/
def SizeWorker.access (TotalBuildSize : Int) (worker : SizeWorker) : Int × SizeWorker :=
  match worker.imageSizes, worker.read with
  | [], _ => (TotalBuildSize, worker)
  | _ :: _, none => (TotalBuildSize, { worker with read := some TotalBuildSize })
  | imageSize :: rest, some value =>
    (wrapInt64 (value + imageSize), { imageSizes := rest, read := none })

/-- Worker number `w` makes its next access. -/
def accessBy (state : SizeState) (w : Nat) : SizeState :=
  match state.workers[w]? with
  | none => state
  | some worker =>
    let out := worker.access state.TotalBuildSize
    { TotalBuildSize := out.1, workers := state.workers.set w out.2 }

/-- An interleaving of the workers: the schedule names, access after access, the worker
that makes it. -/
def interleave (state : SizeState) (schedule : List Nat) : SizeState :=
  schedule.foldl accessBy state

/-- Every worker has added all its sizes. -/
def allAdded (state : SizeState) : Bool :=
  state.workers.all (fun worker => worker.imageSizes.isEmpty && worker.read.isNone)

/-- The sum of the sizes that the workers have still to add. -/
def sizesToAdd (state : SizeState) : Int :=
  (state.workers.map (fun worker => worker.imageSizes.sum)).sum

/-- Two workers at the start of `Build`, the first with one unit whose image measures
`a` bytes, the second with one unit whose image measures `b` bytes. -/
def twoWorkers (TotalBuildSize a b : Int) : SizeState :=
  { TotalBuildSize := TotalBuildSize,
    workers := [{ imageSizes := [a] }, { imageSizes := [b] }] }

/-! ## Specification-side counts -/

/-- Number of targets of the filter that equal `name` after normalisation. -/
def matchCount (name : String) (BuildOnly : List String) : Nat :=
  BuildOnly.countP (fun target => normalize target = normalize name)

/-- The unit after the filter has looked at it. -/
def filtered (BuildOnly : List String) (c : Container) : Container :=
  if matchCount c.Name BuildOnly = 0 then { c with Status := Status.DoNotBuild } else c

/-- Number of units of the registry whose normalised name equals that of `target`. -/
def unitCount (target : String) (cs : List Container) : Nat :=
  cs.countP (fun c => normalize target = normalize c.Name)

/-- Names of the pushed units, in registry order. -/
def finishedNames (cs : List Container) : List String :=
  (cs.filter (fun c => c.Status = Status.Pushed)).map (fun c => c.Name)

/-- Names of the units that are neither pushed nor excluded, in registry order. -/
def remainingNames (cs : List Container) : List String :=
  (cs.filter (fun c => c.Status ≠ Status.Pushed ∧ c.Status ≠ Status.DoNotBuild)).map
    (fun c => c.Name)

/-- The unit a call is made for. -/
def Call.name : Call → String
  | Call.Build name => name
  | Call.ImageList name => name
  | Call.Push name => name

/-- Number of values sent on `done`. -/
def countDone (signals : List Signal) : Nat :=
  signals.countP (fun s => match s with | Signal.done _ => true | _ => false)

/-- The messages sent on `progress`, in order. -/
def progressOf (signals : List Signal) : List String :=
  signals.filterMap (fun s => match s with | Signal.progress msg => some msg | _ => none)

/-- The size that the image engine reports for a unit: the `Size` of the first
image summary. -/
def measuredSize (env : Env) (name : String) : Int :=
  (env.ImageList name).sizes.headD 0

/-- The build, the size query and the push of a unit succeed. -/
def succeeds (env : Env) (name : String) : Prop :=
  (env.Build name).err = none ∧ (env.ImageList name).err = none
    ∧ (env.ImageList name).sizes ≠ [] ∧ (env.Push name).err = none

instance (env : Env) (name : String) : Decidable (succeeds env name) := by
  unfold succeeds
  infer_instance

/-- An environment in which every call succeeds; the image of unit `a` measures 10
bytes, that of `b` 20 bytes and any other 5 bytes. -/
def calmEnv : Env :=
  { Prebuild := fun _ => {},
    Build := fun _ => {},
    ImageList := fun name =>
      if name = "a" then { sizes := [10] } else if name = "b" then { sizes := [20] }
      else { sizes := [5] },
    Push := fun _ => {},
    GetWholeImageName := fun container => container.Name ++ ":" ++ container.Tag,
    GenerateManifests := fun _ => none,
    NumCPU := 4 }

/-- The environment `calmEnv`, except that `Build` of unit `a` returns no error and
leaves the unit with status `Failed`. -/
def silentFailureEnv : Env :=
  { calmEnv with
    Build := fun name => if name = "a" then { Status := Status.Failed } else {} }

/-- The environment `calmEnv`, except that `Prebuild` of unit `a` returns the error
`no config`. -/
def prebuildFailureEnv : Env :=
  { calmEnv with
    Prebuild := fun name =>
      if name = "a" then { Status := Status.Loading, err := some "no config" } else {} }

/-- Sum of the measured sizes of the units with status `Pushed`. -/
def pushedSizes (env : Env) (cs : List Container) : Int :=
  ((cs.filter (fun c => c.Status = Status.Pushed)).map
    (fun c => measuredSize env c.Name)).sum

/-- Sum of the measured sizes of the units with status `Loaded`. -/
def loadedSizes (env : Env) (cs : List Container) : Int :=
  ((cs.filter (fun c => c.Status = Status.Loaded)).map
    (fun c => measuredSize env c.Name)).sum

/-- The unit `c'` is what the pool leaves of the unit `c` when all goes well: a
`Loaded` unit is `Pushed` and carries its measured size, any other unit is as it
was. -/
def pushedFrom (env : Env) (c c' : Container) : Prop :=
  c'.Name = c.Name
    ∧ (c.Status = Status.Loaded →
        c'.Status = Status.Pushed ∧ c'.ImageSize = measuredSize env c.Name)
    ∧ (c.Status ≠ Status.Loaded → c' = c)

/-- Scenario A of the specification: three units, all of them `Loaded` after the
prepare phase, no filter. -/
def scenarioA : SoftwareOrder :=
  { DeploymentType := "full",
    Containers := [{ Name := "a", Status := Status.Loaded },
      { Name := "b", Status := Status.Loaded },
      { Name := "c", Status := Status.Loaded }] }

/-- An order of type `multiple` whose only unit is `Loaded`. -/
def oneLoaded : SoftwareOrder :=
  { DeploymentType := "multiple", Containers := [{ Name := "a", Status := Status.Loaded }] }

/-- The blocks that the loop of `Prepare` writes to the log for the values it
receives: the messages sent on `progress` and on `fail`, in order. -/
def loggedOf (signals : List Signal) : List String :=
  signals.filterMap
    (fun s => match s with
      | Signal.progress msg => some msg
      | Signal.fail msg => some msg
      | Signal.done _ => none)

/-- Number of values sent on `fail`. -/
def countFail (signals : List Signal) : Nat :=
  signals.countP (fun s => match s with | Signal.fail _ => true | _ => false)

/-- The environment `calmEnv`, except that the size query for unit `a` fails: it
returns an error and no image. -/
def sizeFailureEnv : Env :=
  { calmEnv with
    ImageList := fun name =>
      if name = "a" then { sizes := [], err := some "connection refused" }
      else { sizes := [5] } }

/-- The environment `calmEnv`, except that `Build` of unit `a` returns the error
`exit 1`. -/
def buildFailureEnv : Env :=
  { calmEnv with
    Build := fun name => if name = "a" then { err := some "exit 1" } else {} }

/-- The environment `calmEnv`, except that `Push` of unit `a` returns the error
`denied`. -/
def pushFailureEnv : Env :=
  { calmEnv with
    Push := fun name => if name = "a" then { err := some "denied" } else {} }

/-- A machine on which the registry answers 200, the user has the home directory
`/home/sas`, and the Docker configuration is the text `config`. -/
def hostWithConfig (config : String) : RegistryHost :=
  { Get := fun _ => HttpResult.response 200,
    Current := Except.ok "/home/sas",
    ReadFile := fun _ => Except.ok config }

/-- A machine on which the registry answers 200 and the Docker configuration cannot
be read. -/
def hostWithoutConfig : RegistryHost :=
  { Get := fun _ => HttpResult.response 200,
    Current := Except.ok "/home/sas",
    ReadFile := fun _ => Except.error "no such file or directory" }

/-- The lines of the inventory from which `getContainers` makes units: those after
the last header line. -/
def listedLines (inventory : String) : List String :=
  (Split inventory "\n").drop (findStartLine (Split inventory "\n") 0 0 + 1)

/-- A tag for the examples: the recipe version. -/
def versionTag (_ : Container) : String := "19.0.4"

/-- A unit with one port, one environment entry, one secret and one volume. -/
def configuredUnit : Container :=
  { Name := "consul", Status := Status.Loaded,
    Config :=
      { Ports := ["8500"], Environment := ["CONSUL_SERVER_FLAG=true"],
        Secrets := ["setinit_text_enc=abc"],
        Volumes := ["log:/opt/sas/viya/config/var/log"] } }

/-- The unit without its volume declarations. -/
def withoutVolumes (container : Container) : Container :=
  { container with Config := { container.Config with Volumes := [] } }

/-- The character `c` can be matched by some character or range of the expression. -/
def Regex.accepts : Regex → Char → Bool
  | Regex.nothing, _ => false
  | Regex.empty, _ => false
  | Regex.char d, c => c = d
  | Regex.range lo hi, c => lo ≤ c ∧ c ≤ hi
  | Regex.alt r s, c => r.accepts c || s.accepts c
  | Regex.seq r s, c => r.accepts c || s.accepts c
  | Regex.star r, c => r.accepts c

/-- The expression matches no text at all, as far as its shape tells. -/
def Regex.void : Regex → Bool
  | Regex.nothing => true
  | Regex.empty => false
  | Regex.char _ => false
  | Regex.range _ _ => false
  | Regex.alt r s => r.void && s.void
  | Regex.seq r s => r.void || s.void
  | Regex.star _ => false

/-- An inventory whose section `[sas-all:children]` lists no unit. -/
def emptyInventory : String :=
  "[all]\nlocalhost\n\n[sas-all:children]\n"

/-- An order of type `full` without `--build-only`, with the registry that
`getContainers` reads from `emptyInventory`. -/
def emptyOrder : SoftwareOrder :=
  { DeploymentType := "full", BuildOnly := [],
    Containers :=
      (getContainers { DeploymentType := "full" } versionTag (Except.ok emptyInventory)).1 }

/-- The lines that a loop of the form
`for _, item := range items { block += "    - " + item + "\n" }` adds to a block. -/
def itemLines : List String → String
  | [] => ""
  | item :: items => "    - " ++ item ++ "\n" ++ itemLines items

/-- The block starts with a blank. -/
def startsWithBlank (block : String) : Prop :=
  ∃ rest, block.data = ' ' :: rest

/-- The characters of the names `names`, joined by the character `sep`. -/
def joinChars (sep : Char) : List (List Char) → List Char
  | [] => []
  | [name] => name
  | name :: next :: names => name ++ sep :: joinChars sep (next :: names)

/-- A name that can stand in a list argument: it is not empty and holds neither
white space nor a comma. -/
def plainName (name : String) : Prop :=
  name ≠ "" ∧ ∀ c ∈ name.data, isSpace c = false ∧ c ≠ ','

instance (name : String) : Decidable (plainName name) := by
  unfold plainName
  infer_instance

/-- No member of `White_Space` lies between `lo` and `hi`. -/
def noSpace (lo hi : Nat) : Bool :=
  White_Space.all (fun range => decide (hi < range.1) || decide (range.2 < lo))

/-- The code points of an entry of the case table and their lower-cased forms lie
clear of the white space. -/
def clearOfSpace (cr : CaseRange) : Bool :=
  noSpace cr.Lo cr.Hi &&
    (if cr.Delta > MaxRune then noSpace cr.Lo (cr.Hi + 1)
     else noSpace (Int.toNat (cr.Lo + cr.Delta)) (Int.toNat (cr.Hi + cr.Delta)))

/-! # Theorems -/

theorem matchBuildOnly_foldl (name : String) (BuildOnly : List String) (acc : Nat × Bool) :
    BuildOnly.foldl
      (fun acc target =>
        if normalize target = normalize name then (acc.1 + 1, true) else acc) acc
      = (acc.1 + matchCount name BuildOnly,
          acc.2 || decide (0 < matchCount name BuildOnly)) := by
  induction BuildOnly generalizing acc with
  | nil => simp [matchCount]
  | cons t ts ih =>
    rw [List.foldl_cons, ih]
    by_cases h : normalize t = normalize name
    · simp [matchCount, h, List.countP_cons]
      omega
    · simp [matchCount, h, List.countP_cons]

theorem matchBuildOnly_eq (name : String) (BuildOnly : List String) (n : Nat) :
    matchBuildOnly name BuildOnly n
      = (n + matchCount name BuildOnly, decide (0 < matchCount name BuildOnly)) := by
  unfold matchBuildOnly
  rw [matchBuildOnly_foldl]
  simp

theorem markDoNotBuild_eq (BuildOnly : List String) (cs : List Container) (n : Nat) :
    markDoNotBuild BuildOnly cs n
      = (cs.map (filtered BuildOnly),
          n + (cs.map (fun c => matchCount c.Name BuildOnly)).sum) := by
  induction cs generalizing n with
  | nil => simp [markDoNotBuild]
  | cons c cs ih =>
    simp only [markDoNotBuild, ih, matchBuildOnly_eq, List.map_cons, List.sum_cons]
    refine Prod.ext ?_ ?_
    · simp only [filtered]
      by_cases h : matchCount c.Name BuildOnly = 0
      · simp [h]
      · have : 0 < matchCount c.Name BuildOnly := Nat.pos_of_ne_zero h
        simp [h, this]
    · simp only
      omega

theorem sum_unitCount_cons (BuildOnly : List String) (c : Container) (cs : List Container) :
    (BuildOnly.map (fun t => unitCount t (c :: cs))).sum
      = matchCount c.Name BuildOnly + (BuildOnly.map (fun t => unitCount t cs)).sum := by
  induction BuildOnly with
  | nil => simp [matchCount]
  | cons t ts iht =>
    simp only [List.map_cons, List.sum_cons, iht]
    by_cases h : normalize t = normalize c.Name
    · simp [matchCount, unitCount, List.countP_cons, h]
      omega
    · simp [matchCount, unitCount, List.countP_cons, h]
      omega

theorem sum_matchCount_eq (BuildOnly : List String) (cs : List Container) :
    (cs.map (fun c => matchCount c.Name BuildOnly)).sum
      = (BuildOnly.map (fun t => unitCount t cs)).sum := by
  induction cs with
  | nil => simp [unitCount]
  | cons c cs ih =>
    rw [sum_unitCount_cons, List.map_cons, List.sum_cons, ih]

theorem countP_key_le_one {α : Type} (f : α → String) (l : List α) (k : String)
    (h : (l.map f).Nodup) : l.countP (fun x => f x = k) ≤ 1 := by
  have h1 : (l.map f).count k ≤ 1 := List.nodup_iff_count_le_one.mp h k
  have h2 : (l.map f).count k = l.countP (fun x => f x = k) := by
    rw [List.count_eq_countP, List.countP_map]
    apply List.countP_congr
    intro x _
    simp
  omega

theorem matchCount_le_one (name : String) (BuildOnly : List String)
    (h : (BuildOnly.map normalize).Nodup) : matchCount name BuildOnly ≤ 1 :=
  countP_key_le_one normalize BuildOnly (normalize name) h

theorem unitCount_le_one (target : String) (cs : List Container)
    (h : (cs.map (fun c => normalize c.Name)).Nodup) : unitCount target cs ≤ 1 := by
  have h1 : cs.countP (fun c => normalize c.Name = normalize target) ≤ 1 :=
    countP_key_le_one (fun c : Container => normalize c.Name) cs (normalize target) h
  have h2 : unitCount target cs
      = cs.countP (fun c => normalize c.Name = normalize target) := by
    unfold unitCount
    apply List.countP_congr
    intro x _
    simp [eq_comm]
  omega

theorem unitCount_pos_iff (target : String) (cs : List Container) :
    0 < unitCount target cs ↔ ∃ c ∈ cs, normalize target = normalize c.Name := by
  unfold unitCount
  rw [List.countP_pos_iff]
  simp

theorem sum_le_length_of_le_one {α : Type} (f : α → Nat) (l : List α)
    (h : ∀ x ∈ l, f x ≤ 1) : (l.map f).sum ≤ l.length := by
  induction l with
  | nil => simp
  | cons a l ih =>
    have ha := h a (List.mem_cons_self a l)
    have hl := ih (fun x hx => h x (List.mem_cons_of_mem a hx))
    simp only [List.map_cons, List.sum_cons, List.length_cons]
    omega

theorem sum_eq_length_iff {α : Type} (f : α → Nat) (l : List α)
    (h : ∀ x ∈ l, f x ≤ 1) : (l.map f).sum = l.length ↔ ∀ x ∈ l, 0 < f x := by
  induction l with
  | nil => simp
  | cons a l ih =>
    have ha := h a (List.mem_cons_self a l)
    have hl : ∀ x ∈ l, f x ≤ 1 := fun x hx => h x (List.mem_cons_of_mem a hx)
    have hs := sum_le_length_of_le_one f l hl
    have ih' := ih hl
    simp only [List.map_cons, List.sum_cons, List.length_cons, List.forall_mem_cons]
    constructor
    · intro hsum
      have h1 : (l.map f).sum = l.length := by omega
      exact ⟨by omega, ih'.mp h1⟩
    · rintro ⟨h0, hall⟩
      have h1 := ih'.mpr hall
      omega

theorem countP_ne_zero_eq_sum {α : Type} (f : α → Nat) (l : List α)
    (h : ∀ x ∈ l, f x ≤ 1) : l.countP (fun x => f x ≠ 0) = (l.map f).sum := by
  induction l with
  | nil => simp
  | cons a l ih =>
    have ha := h a (List.mem_cons_self a l)
    have hl := ih (fun x hx => h x (List.mem_cons_of_mem a hx))
    simp only [List.map_cons, List.sum_cons, List.countP_cons, hl]
    by_cases h0 : f a = 0
    · simp [h0]
    · have : f a = 1 := by omega
      simp [this]
      omega

theorem filtered_status_ne (BuildOnly : List String) (c : Container)
    (hc : c.Status ≠ Status.DoNotBuild) :
    ((filtered BuildOnly c).Status ≠ Status.DoNotBuild) ↔ matchCount c.Name BuildOnly ≠ 0 := by
  unfold filtered
  by_cases h : matchCount c.Name BuildOnly = 0
  · simp [h]
  · simp [h, hc]

theorem countNotStatus_filtered (BuildOnly : List String) (cs : List Container)
    (hfresh : ∀ c ∈ cs, c.Status ≠ Status.DoNotBuild) :
    countNotStatus Status.DoNotBuild (cs.map (filtered BuildOnly))
      = cs.countP (fun c => matchCount c.Name BuildOnly ≠ 0) := by
  unfold countNotStatus
  rw [List.countP_map]
  apply List.countP_congr
  intro c hc
  have := filtered_status_ne BuildOnly c (hfresh c hc)
  simp only [Function.comp, decide_eq_true_eq]
  exact this

theorem countStatus_add_countNotStatus (s : Status) (cs : List Container) :
    countStatus s cs + countNotStatus s cs = cs.length := by
  unfold countStatus countNotStatus
  rw [List.length_eq_countP_add_countP (fun c : Container => decide (c.Status = s)) cs]
  congr 1
  apply List.countP_congr
  intro c _
  simp

theorem LoadPlaybookBuildOnly_containers (cs : List Container) (BuildOnly : List String)
    (hne : BuildOnly ≠ []) :
    (LoadPlaybookBuildOnly cs BuildOnly).Containers = cs.map (filtered BuildOnly) := by
  have hlen : BuildOnly.length > 0 := List.length_pos.mpr hne
  unfold LoadPlaybookBuildOnly
  simp only [hlen, if_true, markDoNotBuild_eq]
  split <;> rfl

theorem LoadPlaybookBuildOnly_sentFail (cs : List Container) (BuildOnly : List String)
    (hne : BuildOnly ≠ []) :
    sentFail (LoadPlaybookBuildOnly cs BuildOnly).signals = true
      ↔ (BuildOnly.map (fun t => unitCount t cs)).sum ≠ BuildOnly.length := by
  have hlen : BuildOnly.length > 0 := List.length_pos.mpr hne
  unfold LoadPlaybookBuildOnly
  simp only [hlen, if_true, markDoNotBuild_eq, sum_matchCount_eq, Nat.zero_add]
  by_cases h : BuildOnly.length = (BuildOnly.map (fun t => unitCount t cs)).sum
  · simp [h, sentFail]
  · simp [h, sentFail, Ne.symm h]

/-- Claim C1 (amended).  The `--build-only` step of `LoadPlaybook` on a registry whose unit
names are pairwise distinct after lower-casing and trimming and in which no unit is
`DoNotBuild` yet (the registry as `getContainers` has just built it), with a non-empty
filter of `K` names that are pairwise distinct after lower-casing and trimming and
each equal the name of some unit: afterwards exactly `K` units have a status other
than `DoNotBuild` and exactly `size - K` units have status `DoNotBuild`. -/
theorem buildOnly_counts (cs : List Container) (BuildOnly : List String)
    (hne : BuildOnly ≠ [])
    (hunits : (cs.map (fun c => normalize c.Name)).Nodup)
    (htargets : (BuildOnly.map normalize).Nodup)
    (hfresh : ∀ c ∈ cs, c.Status ≠ Status.DoNotBuild)
    (hmatch : ∀ t ∈ BuildOnly, ∃ c ∈ cs, normalize t = normalize c.Name) :
    countNotStatus Status.DoNotBuild (LoadPlaybookBuildOnly cs BuildOnly).Containers
        = BuildOnly.length
      ∧ countStatus Status.DoNotBuild (LoadPlaybookBuildOnly cs BuildOnly).Containers
        = cs.length - BuildOnly.length := by
  have hkept : countNotStatus Status.DoNotBuild (cs.map (filtered BuildOnly))
      = BuildOnly.length := by
    rw [countNotStatus_filtered BuildOnly cs hfresh,
      countP_ne_zero_eq_sum (fun c : Container => matchCount c.Name BuildOnly) cs
        (fun c _ => matchCount_le_one c.Name BuildOnly htargets),
      sum_matchCount_eq]
    exact (sum_eq_length_iff (fun t => unitCount t cs) BuildOnly
      (fun t _ => unitCount_le_one t cs hunits)).mpr
      (fun t ht => (unitCount_pos_iff t cs).mpr (hmatch t ht))
  have htotal := countStatus_add_countNotStatus Status.DoNotBuild (cs.map (filtered BuildOnly))
  rw [LoadPlaybookBuildOnly_containers cs BuildOnly hne]
  rw [List.length_map] at htotal
  exact ⟨hkept, by omega⟩

/-- Claim C1, witness: five units, a filter naming two of them (scenario B of the
specification), the second name between a no-break space and a blank. -/
theorem buildOnly_counts_witness :
    countNotStatus Status.DoNotBuild
        (LoadPlaybookBuildOnly
          [{ Name := "consul" }, { Name := "httpproxy" }, { Name := "programming" },
            { Name := "sas-casserver-primary" }, { Name := "computeserver" }]
          ["Consul", "\u00a0httpproxy "]).Containers = 2
      ∧ countStatus Status.DoNotBuild
        (LoadPlaybookBuildOnly
          [{ Name := "consul" }, { Name := "httpproxy" }, { Name := "programming" },
            { Name := "sas-casserver-primary" }, { Name := "computeserver" }]
          ["Consul", "\u00a0httpproxy "]).Containers = 5 - 2 :=
  buildOnly_counts
    [{ Name := "consul" }, { Name := "httpproxy" }, { Name := "programming" },
      { Name := "sas-casserver-primary" }, { Name := "computeserver" }]
    ["Consul", "\u00a0httpproxy "] (by decide) (by decide) (by decide) (by decide) (by decide)

/-- Claim C1, counterexample.  The claim as stated fails in two ways.  With the filter
`a a` (two names, both matching the unit `a`) on the registry `a`, `b`, one unit
is left to build, not two, and one unit is `DoNotBuild`, not zero.  With the filter
`a` on a registry holding the two units `a` and `a ` (the second with a trailing
blank, which the comparison trims), two units are left to build, not one. -/
theorem buildOnly_counts_counterexample :
    ((["a", "a"] : List String) ≠ []
      ∧ (∀ t ∈ (["a", "a"] : List String),
          ∃ c ∈ ([{ Name := "a" }, { Name := "b" }] : List Container),
            normalize t = normalize c.Name)
      ∧ countNotStatus Status.DoNotBuild
          (LoadPlaybookBuildOnly [{ Name := "a" }, { Name := "b" }] ["a", "a"]).Containers
          ≠ (["a", "a"] : List String).length
      ∧ countStatus Status.DoNotBuild
          (LoadPlaybookBuildOnly [{ Name := "a" }, { Name := "b" }] ["a", "a"]).Containers
          ≠ ([{ Name := "a" }, { Name := "b" }] : List Container).length
              - (["a", "a"] : List String).length)
    ∧ ((["a"] : List String) ≠ []
      ∧ (∀ t ∈ (["a"] : List String),
          ∃ c ∈ ([{ Name := "a" }, { Name := "a " }] : List Container),
            normalize t = normalize c.Name)
      ∧ countNotStatus Status.DoNotBuild
          (LoadPlaybookBuildOnly [{ Name := "a" }, { Name := "a " }] ["a"]).Containers
          ≠ (["a"] : List String).length) := by
  decide

/-- Claim C2 (amended).  The `--build-only` step of `LoadPlaybook` on a registry whose unit
names are pairwise distinct after lower-casing and trimming, with a non-empty filter:
a message is sent on `fail` if and only if some name of the filter equals the name
of no unit (both lower-cased and trimmed). -/
theorem buildOnly_fail_iff (cs : List Container) (BuildOnly : List String)
    (hne : BuildOnly ≠ [])
    (hunits : (cs.map (fun c => normalize c.Name)).Nodup) :
    sentFail (LoadPlaybookBuildOnly cs BuildOnly).signals = true
      ↔ ∃ t ∈ BuildOnly, ∀ c ∈ cs, normalize t ≠ normalize c.Name := by
  rw [LoadPlaybookBuildOnly_sentFail cs BuildOnly hne, Ne,
    sum_eq_length_iff (fun t => unitCount t cs) BuildOnly
      (fun t _ => unitCount_le_one t cs hunits)]
  simp only [unitCount_pos_iff]
  push_neg
  rfl

/-- Claim C2, witness: the filter names `consul`, in capitals after a no-break space, and
a unit that the order does not hold. -/
theorem buildOnly_fail_iff_witness :
    sentFail (LoadPlaybookBuildOnly [{ Name := "consul" }, { Name := "httpproxy" }]
        ["\u00a0CONSUL", "zzz"]).signals = true
      ↔ ∃ t ∈ (["\u00a0CONSUL", "zzz"] : List String),
          ∀ c ∈ ([{ Name := "consul" }, { Name := "httpproxy" }] : List Container),
            normalize t ≠ normalize c.Name :=
  buildOnly_fail_iff [{ Name := "consul" }, { Name := "httpproxy" }] ["\u00a0CONSUL", "zzz"]
    (by decide) (by decide)

/-- Claim C2, counterexample.  On a registry holding the units `a` and `a ` the claim fails
in both directions: the filter `a zzz` names a unit that does not exist and no
message is sent on `fail` (the two matches of `a` make up for it), and the filter
`a`, whose only name matches, makes the step send on `fail`. -/
theorem buildOnly_fail_counterexample :
    ((∃ t ∈ (["a", "zzz"] : List String),
          ∀ c ∈ ([{ Name := "a" }, { Name := "a " }] : List Container),
            normalize t ≠ normalize c.Name)
      ∧ sentFail (LoadPlaybookBuildOnly [{ Name := "a" }, { Name := "a " }]
            ["a", "zzz"]).signals = false)
    ∧ ((∀ t ∈ (["a"] : List String),
          ∃ c ∈ ([{ Name := "a" }, { Name := "a " }] : List Container),
            normalize t = normalize c.Name)
      ∧ sentFail (LoadPlaybookBuildOnly [{ Name := "a" }, { Name := "a " }]
            ["a"]).signals = true) := by
  decide

theorem intermediateLists_foldl (cs : List Container) (acc : List String × List String) :
    cs.foldl
      (fun acc container =>
        if container.Status = Status.Pushed then (acc.1 ++ [container.Name], acc.2)
        else if container.Status ≠ Status.DoNotBuild then (acc.1, acc.2 ++ [container.Name])
        else acc) acc
      = (acc.1 ++ finishedNames cs, acc.2 ++ remainingNames cs) := by
  induction cs generalizing acc with
  | nil => simp [finishedNames, remainingNames]
  | cons c cs ih =>
    rw [List.foldl_cons, ih]
    by_cases h1 : c.Status = Status.Pushed
    · simp [finishedNames, remainingNames, h1]
    · by_cases h2 : c.Status = Status.DoNotBuild
      · simp [finishedNames, remainingNames, h1, h2]
      · simp [finishedNames, remainingNames, h1, h2]

theorem intermediateLists_eq (cs : List Container) :
    intermediateLists cs = (finishedNames cs, remainingNames cs) := by
  unfold intermediateLists
  rw [intermediateLists_foldl]
  simp

theorem finishedNames_length (cs : List Container) :
    (finishedNames cs).length = countStatus Status.Pushed cs := by
  simp [finishedNames, countStatus, List.countP_eq_length_filter]

theorem remainingNames_length (cs : List Container) :
    (remainingNames cs).length
      = cs.countP (fun c => c.Status ≠ Status.Pushed ∧ c.Status ≠ Status.DoNotBuild) := by
  simp [remainingNames, List.countP_eq_length_filter]

theorem finished_add_remaining (cs : List Container) :
    countStatus Status.Pushed cs
        + cs.countP (fun c => c.Status ≠ Status.Pushed ∧ c.Status ≠ Status.DoNotBuild)
      = countNotStatus Status.DoNotBuild cs := by
  unfold countStatus countNotStatus
  induction cs with
  | nil => simp
  | cons c cs ih =>
    simp only [List.countP_cons]
    by_cases h1 : c.Status = Status.Pushed
    · simp [h1] at ih ⊢
      omega
    · by_cases h2 : c.Status = Status.DoNotBuild
      · simp [h2] at ih ⊢
        omega
      · simp [h1, h2] at ih ⊢
        omega

/-- Claim C3.  For every snapshot of unit statuses, the two lists that
`GetIntermediateStatus` builds have as lengths the number of `Pushed` units
(finished) and the number of units neither `Pushed` nor `DoNotBuild` (remaining);
the two add up to the number of units that are not `DoNotBuild`; and the method sends
nothing on `progress` when the remaining count is 0, otherwise exactly one message,
whose text is `Built & Pushed [ f / t ].`, a line `Complete: ` with the names of the
finished units and a line `Remaining: ` with the names of the remaining ones, where
`f` is the finished count and `t`, the total, is the number of units that are not
`DoNotBuild`, both in decimal. -/
theorem GetIntermediateStatus_counts (cs : List Container) :
    (intermediateLists cs).1.length = countStatus Status.Pushed cs
      ∧ (intermediateLists cs).2.length
          = cs.countP (fun c => c.Status ≠ Status.Pushed ∧ c.Status ≠ Status.DoNotBuild)
      ∧ (intermediateLists cs).1.length + (intermediateLists cs).2.length
          = countNotStatus Status.DoNotBuild cs
      ∧ GetIntermediateStatus cs
          = (if cs.countP (fun c => c.Status ≠ Status.Pushed ∧ c.Status ≠ Status.DoNotBuild) = 0
            then []
            else [Signal.progress
              ("Built & Pushed [ " ++ Nat.repr (countStatus Status.Pushed cs) ++ " / "
                ++ Nat.repr (countNotStatus Status.DoNotBuild cs) ++ " ].\nComplete: "
                ++ ", ".intercalate (finishedNames cs) ++ "\nRemaining: "
                ++ ", ".intercalate (remainingNames cs) ++ "\n")])
      ∧ GetIntermediateStatus
            [{ Name := "consul", Status := Status.Pushed },
             { Name := "httpproxy", Status := Status.Loaded },
             { Name := "sas-casserver-primary", Status := Status.DoNotBuild },
             { Name := "programming", Status := Status.Failed },
             { Name := "identities", Status := Status.Pushed }]
          = [Signal.progress
              "Built & Pushed [ 2 / 4 ].\nComplete: consul, identities\nRemaining: httpproxy, programming\n"] := by
  have hf := finishedNames_length cs
  have hr := remainingNames_length cs
  have hsum := finished_add_remaining cs
  refine ⟨?_, ?_, ?_, ?_, ?_⟩
  · rw [intermediateLists_eq]; exact hf
  · rw [intermediateLists_eq]; exact hr
  · rw [intermediateLists_eq]; simp only; omega
  · unfold GetIntermediateStatus
    simp only [intermediateLists_eq, hf, hr, hsum]
    rfl
  · decide

/-! ## The check of `--tag` -/

theorem Regex.nullable_of_void (r : Regex) (h : r.void = true) : r.nullable = false := by
  induction r with
  | nothing => rfl
  | empty => simp [Regex.void] at h
  | char d => rfl
  | range lo hi => rfl
  | alt r s ihr ihs =>
    simp only [Regex.void, Bool.and_eq_true] at h
    simp [Regex.nullable, ihr h.1, ihs h.2]
  | seq r s ihr ihs =>
    simp only [Regex.void, Bool.or_eq_true] at h
    rcases h with h | h
    · simp [Regex.nullable, ihr h]
    · simp [Regex.nullable, ihs h]
  | star r _ => simp [Regex.void] at h

theorem Regex.void_deriv (r : Regex) (c : Char) (h : r.void = true) :
    (r.deriv c).void = true := by
  induction r with
  | nothing => rfl
  | empty => simp [Regex.void] at h
  | char d => simp [Regex.void] at h
  | range lo hi => simp [Regex.void] at h
  | alt r s ihr ihs =>
    simp only [Regex.void, Bool.and_eq_true] at h
    simp [Regex.deriv, Regex.void, ihr h.1, ihs h.2]
  | seq r s ihr ihs =>
    simp only [Regex.void, Bool.or_eq_true] at h
    rcases h with h | h
    · have hn := Regex.nullable_of_void r h
      simp [Regex.deriv, hn, Regex.void, ihr h]
    · by_cases hn : r.nullable = true
      · simp [Regex.deriv, hn, Regex.void, ihs h, h]
      · simp [Regex.deriv, hn, Regex.void, h]
  | star r _ => simp [Regex.void] at h

theorem Regex.void_deriv_of_not_accepts (r : Regex) (c : Char) (h : r.accepts c = false) :
    (r.deriv c).void = true := by
  induction r with
  | nothing => rfl
  | empty => rfl
  | char d =>
    simp only [Regex.accepts, decide_eq_false_iff_not] at h
    simp [Regex.deriv, h, Regex.void]
  | range lo hi =>
    simp only [Regex.accepts, decide_eq_false_iff_not] at h
    simp [Regex.deriv, h, Regex.void]
  | alt r s ihr ihs =>
    simp only [Regex.accepts, Bool.or_eq_false_iff] at h
    simp [Regex.deriv, Regex.void, ihr h.1, ihs h.2]
  | seq r s ihr ihs =>
    simp only [Regex.accepts, Bool.or_eq_false_iff] at h
    by_cases hn : r.nullable = true
    · simp [Regex.deriv, hn, Regex.void, ihr h.1, ihs h.2]
    · simp [Regex.deriv, hn, Regex.void, ihr h.1]
  | star r ih =>
    simp only [Regex.accepts] at h
    simp [Regex.deriv, Regex.void, ih h]

theorem Regex.accepts_of_deriv (r : Regex) (c d : Char) (h : r.accepts c = false) :
    (r.deriv d).accepts c = false := by
  induction r with
  | nothing => rfl
  | empty => rfl
  | char e =>
    simp only [Regex.deriv]
    split <;> rfl
  | range lo hi =>
    simp only [Regex.deriv]
    split <;> rfl
  | alt r s ihr ihs =>
    simp only [Regex.accepts, Bool.or_eq_false_iff] at h
    simp [Regex.deriv, Regex.accepts, ihr h.1, ihs h.2]
  | seq r s ihr ihs =>
    simp only [Regex.accepts, Bool.or_eq_false_iff] at h
    by_cases hn : r.nullable = true
    · simp [Regex.deriv, hn, Regex.accepts, ihr h.1, ihs h.2, h.2]
    · simp [Regex.deriv, hn, Regex.accepts, ihr h.1, h.2]
  | star r ih =>
    simp only [Regex.accepts] at h
    simp [Regex.deriv, Regex.accepts, ih h, h]

theorem Regex.matches_of_void (text : List Char) :
    ∀ r : Regex, r.void = true → r.matches text = false := by
  induction text with
  | nil =>
    intro r h
    exact Regex.nullable_of_void r h
  | cons d text ih =>
    intro r h
    exact ih (r.deriv d) (Regex.void_deriv r d h)

/-- A text that holds a character which no character or range of the expression can
match is not matched. -/
theorem Regex.matches_of_not_accepts (c : Char) (text : List Char) :
    ∀ r : Regex, r.accepts c = false → c ∈ text → r.matches text = false := by
  induction text with
  | nil =>
    intro r _ hmem
    simp at hmem
  | cons d text ih =>
    intro r h hmem
    by_cases hd : c = d
    · subst hd
      exact Regex.matches_of_void text (r.deriv c) (Regex.void_deriv_of_not_accepts r c h)
    · have hmem' : c ∈ text := by
        rcases List.mem_cons.mp hmem with h' | h'
        · exact absurd h' hd
        · exact h'
      exact ih (r.deriv d) (Regex.accepts_of_deriv r c d h) hmem'

set_option maxRecDepth 100000 in
/-- Claim C20 (the code at the failing inputs).  The pattern of line 403 has no `.` in
its character class, so the check returns the `invalid characters` error for every
`--tag` value that holds a `.`, and with it for the documented default format
`19.0.4-2019-03-18-09-49-38`; it also refuses a value that ends with `-`, and it
accepts `[`, which lies between `Z` and `a` in the range `A-z`.  A value made of
letters, digits and inner `-` is accepted. -/
theorem checkTag_rejects_dot :
    (∀ TagOverride : String, '.' ∈ TagOverride.data → checkTag TagOverride = some invalidTag)
      ∧ checkTag "19.0.4-2019-03-18-09-49-38" = some invalidTag
      ∧ checkTag "release-" = some invalidTag
      ∧ checkTag "a[b" = none
      ∧ checkTag "2019-03-18-09-49-38" = none := by
  refine ⟨?_, by decide, by decide, by decide, by decide⟩
  intro TagOverride hdot
  have hmatch : validTagCharacters.matches TagOverride.data = false :=
    Regex.matches_of_not_accepts '.' TagOverride.data validTagCharacters (by decide) hdot
  have hlen : TagOverride.length > 0 := by
    rw [String.length]
    exact List.length_pos_of_mem hdot
  simp [checkTag, hmatch, hlen]

/-! ## The dispatcher and the guard of the worker -/

theorem dispatch_foldl (cs jobs : List Container) :
    cs.foldl (fun jobs container => jobs ++ [container]) jobs = jobs ++ cs := by
  induction cs generalizing jobs with
  | nil => simp
  | cons c cs ih => rw [List.foldl_cons, ih]; simp

theorem dispatch_eq (cs : List Container) : dispatch cs = cs := by
  unfold dispatch
  rw [dispatch_foldl]
  simp

theorem numberOfBuilds_foldl (cs : List Container) (n : Nat) :
    cs.foldl
      (fun numberOfBuilds container =>
        if container.Status = Status.Loaded then numberOfBuilds + 1 else numberOfBuilds) n
      = n + countStatus Status.Loaded cs := by
  induction cs generalizing n with
  | nil => simp [countStatus]
  | cons c cs ih =>
    rw [List.foldl_cons, ih]
    by_cases h : c.Status = Status.Loaded
    · simp [countStatus, List.countP_cons, h]
      omega
    · simp [countStatus, List.countP_cons, h]

theorem numberOfBuilds_eq (cs : List Container) :
    numberOfBuilds cs = countStatus Status.Loaded cs := by
  unfold numberOfBuilds
  rw [numberOfBuilds_foldl]
  simp

theorem countStatus_eq_zero (s : Status) (cs : List Container) :
    countStatus s cs = 0 ↔ ∀ c ∈ cs, c.Status ≠ s := by
  unfold countStatus
  rw [List.countP_eq_zero]
  simp

theorem buildSection_calls (env : Env) (st : PoolState) (c : Container) :
    (buildSection env st c).state.calls = st.calls ++ [Call.Build c.Name] := by
  unfold buildSection
  cases h : (env.Build c.Name).err <;> simp [h]

theorem buildSection_name (env : Env) (st : PoolState) (c : Container) :
    (buildSection env st c).container.Name = c.Name := by
  unfold buildSection
  cases h : (env.Build c.Name).err
  · simp only [h]
    split <;> rfl
  · simp [h]

theorem sizeSection_calls (env : Env) (st : PoolState) (c : Container) :
    (sizeSection env st c).state.calls = st.calls ++ [Call.ImageList c.Name] := by
  unfold sizeSection
  cases h1 : (env.ImageList c.Name).err <;> cases h2 : (env.ImageList c.Name).sizes <;>
    simp [h1, h2]

theorem sizeSection_name (env : Env) (st : PoolState) (c : Container) :
    (sizeSection env st c).container.Name = c.Name := by
  unfold sizeSection
  cases h2 : (env.ImageList c.Name).sizes <;> simp [h2]

theorem pushSection_calls (env : Env) (before after : List Container) (st : PoolState)
    (c : Container) :
    (pushSection env before after st c).state.calls = st.calls ++ [Call.Push c.Name] := by
  unfold pushSection
  cases h : (env.Push c.Name).err <;> simp [h]

theorem takenBeforeLoop_le (workers : Nat) (queue : List Container) :
    takenBeforeLoop workers queue ≤ queue.length := by
  induction queue generalizing workers with
  | nil => cases workers <;> simp [takenBeforeLoop]
  | cons c queue ih =>
    cases workers with
    | zero => simp [takenBeforeLoop]
    | succ w =>
      rw [takenBeforeLoop]
      have h1 := ih w
      have h2 := ih (w + 1)
      split <;> simp only [List.length_cons] <;> omega

/-- A registry that fits the buffer of `jobs` never blocks the sending loop. -/
theorem jobsBlock_of_fits (workers : Nat) (cs : List Container)
    (h : cs.length ≤ jobsCapacity) : jobsBlock workers cs = false := by
  unfold jobsBlock
  simp only [decide_eq_false_iff_not, not_lt]
  omega

/-! ## The empty batch -/

theorem Build_of_none_loaded (env : Env) (order : SoftwareOrder)
    (htype : order.DeploymentType ≠ "single")
    (hnone : ∀ c ∈ order.Containers, c.Status ≠ Status.Loaded) :
    Build env order = Outcome.returned { err := some zeroBuilds, order := order } := by
  have h0 : numberOfBuilds order.Containers = 0 := by
    rw [numberOfBuilds_eq]
    exact (countStatus_eq_zero Status.Loaded order.Containers).mpr hnone
  unfold Build
  simp only [htype, if_false, h0, if_true]

/-- Claim C5.  For an order whose deployment type is not `single` and whose registry
holds no unit with status `Loaded`, `Build` returns the error `The number of builds
are set to zero. ...`; no worker is started, no unit is sent on `jobs`, no call is
made, and the order (the status of every unit included) is as it was. -/
theorem Build_zero_builds (env : Env) (order : SoftwareOrder)
    (htype : order.DeploymentType ≠ "single")
    (hnone : ∀ c ∈ order.Containers, c.Status ≠ Status.Loaded) :
    Build env order
      = Outcome.returned
          { err := some zeroBuilds, order := order, workers := 0, jobs := [], calls := [],
            warnings := [] } := by
  have h0 : numberOfBuilds order.Containers = 0 := by
    rw [numberOfBuilds_eq]
    exact (countStatus_eq_zero Status.Loaded order.Containers).mpr hnone
  unfold Build
  simp only [htype, if_false, h0, if_true]

/-- Claim C5, witness: a filter left nothing to build and the only other unit failed its
prebuild. -/
theorem Build_zero_builds_witness :
    Build calmEnv
        { DeploymentType := "full",
          Containers := [{ Name := "a", Status := Status.DoNotBuild },
            { Name := "b", Status := Status.Failed }] }
      = Outcome.returned
          { err := some zeroBuilds,
            order :=
              { DeploymentType := "full",
                Containers := [{ Name := "a", Status := Status.DoNotBuild },
                  { Name := "b", Status := Status.Failed }] },
            workers := 0, jobs := [], calls := [], warnings := [] } :=
  Build_zero_builds calmEnv
    { DeploymentType := "full",
      Containers := [{ Name := "a", Status := Status.DoNotBuild },
        { Name := "b", Status := Status.Failed }] }
    (by decide) (by decide)

/-! ## `TestMirror` on a status code other than 200 -/

/-- Claim C8 (the code at the failing inputs).  For every non-empty mirror URL without
`http://` and every response of `http.Get` whose status code is not 200, `TestMirror`
panics on `err.Error()` (line 797, `err` is nil): it has sent on `progress` only,
nothing on `fail` and nothing on `done`. -/
theorem TestMirror_bad_status (MirrorURL : String) (Get : String → HttpResult)
    (StatusCode : Int)
    (hurl : MirrorURL.length > 0)
    (htls : Contains MirrorURL "http://" = false)
    (hget : Get (if !Contains MirrorURL "https://" then "https://" ++ MirrorURL
      else MirrorURL) = HttpResult.response StatusCode)
    (hcode : StatusCode ≠ 200) :
    (TestMirror MirrorURL Get).ending = Ending.panicked
      ∧ sentFail (TestMirror MirrorURL Get).signals = false
      ∧ sentDone (TestMirror MirrorURL Get).signals = false := by
  unfold TestMirror
  simp only [hurl, if_true, htls, hget, hcode, ne_eq, not_false_eq_true]
  simp [sentFail, sentDone]

/-- Claim C8, witness: the mirror answers 500 (scenario C of the specification). -/
theorem TestMirror_bad_status_witness :
    (TestMirror "mirror.example.com" (fun _ => HttpResult.response 500)).ending
        = Ending.panicked
      ∧ sentFail (TestMirror "mirror.example.com"
          (fun _ => HttpResult.response 500)).signals = false
      ∧ sentDone (TestMirror "mirror.example.com"
          (fun _ => HttpResult.response 500)).signals = false :=
  TestMirror_bad_status "mirror.example.com" (fun _ => HttpResult.response 500) 500
    (by decide) (by decide) (by decide) (by decide)

/-! ## The consuming loops of `NewSoftwareOrder` and `Build` -/

@[simp]
theorem countDone_nil : countDone [] = 0 := rfl

@[simp]
theorem countDone_progress (msg : String) (s : List Signal) :
    countDone (Signal.progress msg :: s) = countDone s := by
  simp [countDone, List.countP_cons]

@[simp]
theorem countDone_done (name : String) (s : List Signal) :
    countDone (Signal.done name :: s) = countDone s + 1 := by
  simp [countDone, List.countP_cons]

@[simp]
theorem countDone_fail (msg : String) (s : List Signal) :
    countDone (Signal.fail msg :: s) = countDone s := by
  simp [countDone, List.countP_cons]

@[simp]
theorem progressOf_nil : progressOf [] = [] := rfl

@[simp]
theorem progressOf_progress (msg : String) (s : List Signal) :
    progressOf (Signal.progress msg :: s) = msg :: progressOf s := by
  simp [progressOf]

@[simp]
theorem progressOf_fail (msg : String) (s : List Signal) :
    progressOf (Signal.fail msg :: s) = progressOf s := by
  simp [progressOf]

@[simp]
theorem sentFail_nil : sentFail [] = false := rfl

@[simp]
theorem sentFail_progress (msg : String) (s : List Signal) :
    sentFail (Signal.progress msg :: s) = sentFail s := by
  simp [sentFail]

@[simp]
theorem sentFail_done (name : String) (s : List Signal) :
    sentFail (Signal.done name :: s) = sentFail s := by
  simp [sentFail]

@[simp]
theorem sentFail_fail (msg : String) (s : List Signal) :
    sentFail (Signal.fail msg :: s) = true := by
  simp [sentFail]

theorem wrapInt64_add (x y : Int) : wrapInt64 (wrapInt64 x + y) = wrapInt64 (x + y) := by
  unfold wrapInt64
  omega

theorem wrapInt64_of_fits (x : Int) (hlo : -9223372036854775808 ≤ x)
    (hhi : x < 9223372036854775808) : wrapInt64 x = x := by
  unfold wrapInt64
  omega

theorem sentFail_append (s t : List Signal) :
    sentFail (s ++ t) = (sentFail s || sentFail t) := by
  simp [sentFail]

theorem countDone_append (s t : List Signal) :
    countDone (s ++ t) = countDone s + countDone t := by
  simp [countDone]

theorem sentFail_map_progress (msgs : List String) :
    sentFail (msgs.map Signal.progress) = false := by
  induction msgs with
  | nil => rfl
  | cons m ms ih => rw [List.map_cons, sentFail_progress, ih]

theorem countDone_map_progress (msgs : List String) :
    countDone (msgs.map Signal.progress) = 0 := by
  induction msgs with
  | nil => rfl
  | cons m ms ih => rw [List.map_cons, countDone_progress, ih]

theorem sentFail_GetIntermediateStatus (cs : List Container) :
    sentFail (GetIntermediateStatus cs) = false := by
  unfold GetIntermediateStatus
  simp only
  split <;> simp

theorem countDone_GetIntermediateStatus (cs : List Container) :
    countDone (GetIntermediateStatus cs) = 0 := by
  unfold GetIntermediateStatus
  simp only
  split <;> simp

/-- The loop body on a unit whose build and push return no error and whose size query
returns at least one image. -/
theorem buildUnit_pushes (env : Env) (before after : List Container) (st : PoolState)
    (c : Container) (hb : (env.Build c.Name).err = none)
    (hs : (env.ImageList c.Name).sizes ≠ []) (hp : (env.Push c.Name).err = none) :
    (buildUnit env before after st c).flow = Flow.next
      ∧ (buildUnit env before after st c).container.Name = c.Name
      ∧ (buildUnit env before after st c).container.Status = Status.Pushed
      ∧ (buildUnit env before after st c).container.ImageSize = measuredSize env c.Name
      ∧ (buildUnit env before after st c).state.TotalBuildSize
          = wrapInt64 (st.TotalBuildSize + measuredSize env c.Name)
      ∧ ∃ sent, (buildUnit env before after st c).state.signals = st.signals ++ sent
          ∧ sentFail sent = false ∧ countDone sent = 1 := by
  obtain ⟨size, sizes, hsizes⟩ : ∃ size sizes, (env.ImageList c.Name).sizes = size :: sizes := by
    cases h : (env.ImageList c.Name).sizes with
    | nil => exact absurd h hs
    | cons a l => exact ⟨a, l, rfl⟩
  have hm : measuredSize env c.Name = size := by simp [measuredSize, hsizes]
  have hbflow : (buildSection env st c).flow = Flow.next := by
    simp [buildSection, hb]
  have hbname : (buildSection env st c).container.Name = c.Name := buildSection_name env st c
  have hbtotal : (buildSection env st c).state.TotalBuildSize = st.TotalBuildSize := by
    simp [buildSection, hb]
  have hbsig : (buildSection env st c).state.signals
      = st.signals ++ (env.Build c.Name).progress.map Signal.progress := by
    simp [buildSection, hb]
  have hsflow : (sizeSection env (buildSection env st c).state
      (buildSection env st c).container).flow = Flow.next := by
    simp [sizeSection, hbname, hsizes]
  have hunit : buildUnit env before after st c
      = pushSection env before after
          (sizeSection env (buildSection env st c).state (buildSection env st c).container).state
          (sizeSection env (buildSection env st c).state
            (buildSection env st c).container).container := by
    unfold buildUnit
    simp only [hbflow, hsflow]
  rw [hunit]
  generalize buildSection env st c = built at hbname hbtotal hbsig
  have hsname : (sizeSection env built.state built.container).container.Name = c.Name := by
    rw [sizeSection_name, hbname]
  have hssize : (sizeSection env built.state built.container).container.ImageSize = size := by
    simp [sizeSection, hbname, hsizes]
  have hstotal : (sizeSection env built.state built.container).state.TotalBuildSize
      = wrapInt64 (st.TotalBuildSize + size) := by
    simp only [sizeSection, hbname, hsizes, hbtotal]
    split <;> rfl
  have hssig : (sizeSection env built.state built.container).state.signals
      = built.state.signals := by
    simp only [sizeSection, hbname, hsizes]
    split <;> rfl
  generalize sizeSection env built.state built.container = sized at hsname hssize hstotal hssig
  refine ⟨?_, ?_, ?_, ?_, ?_, ?_⟩
  · simp [pushSection, hsname, hp]
  · simp [pushSection, hsname, hp, hsname]
  · simp [pushSection, hsname, hp]
  · simp [pushSection, hsname, hp, hssize, hm]
  · simp [pushSection, hsname, hp, hstotal, hm]
  · refine ⟨(env.Build c.Name).progress.map Signal.progress
        ++ (env.Push c.Name).progress.map Signal.progress
        ++ [Signal.progress (env.GetWholeImageName
              { sized.container with
                PushStart := sized.state.now, PushEnd := sized.state.now + 1,
                Status := Status.Pushed }
            ++ ": finished pushing image to Docker registry")]
        ++ GetIntermediateStatus (before ++
            { sized.container with
                PushStart := sized.state.now, PushEnd := sized.state.now + 1,
                Status := Status.Pushed } :: after)
        ++ [Signal.done c.Name], ?_, ?_, ?_⟩
    · simp [pushSection, hsname, hp, hssig, hbsig]
    · simp [sentFail_append, sentFail_map_progress, sentFail_GetIntermediateStatus]
    · simp [countDone_append, countDone_map_progress, countDone_GetIntermediateStatus]

theorem loadedSizes_cons_loaded (env : Env) (c : Container) (cs : List Container)
    (h : c.Status = Status.Loaded) :
    loadedSizes env (c :: cs) = measuredSize env c.Name + loadedSizes env cs := by
  simp [loadedSizes, h]

theorem loadedSizes_cons_other (env : Env) (c : Container) (cs : List Container)
    (h : c.Status ≠ Status.Loaded) :
    loadedSizes env (c :: cs) = loadedSizes env cs := by
  simp [loadedSizes, h]

theorem countStatus_cons_same (s : Status) (c : Container) (cs : List Container)
    (h : c.Status = s) : countStatus s (c :: cs) = countStatus s cs + 1 := by
  simp [countStatus, List.countP_cons, h]

theorem countStatus_cons_other (s : Status) (c : Container) (cs : List Container)
    (h : c.Status ≠ s) : countStatus s (c :: cs) = countStatus s cs := by
  simp [countStatus, List.countP_cons, h]

/-- A worker that meets no failure empties the queue: every `Loaded` unit is pushed
with its measured size, the other units are as they were, the counter has grown by
the measured sizes, and one value per `Loaded` unit was sent on `done`, none on
`fail`. -/
theorem buildWorker_all_succeed (env : Env) (queue : List Container) :
    ∀ (st : PoolState) (before : List Container) (x : Int),
      st.TotalBuildSize = wrapInt64 x →
      (∀ c ∈ queue, c.Status = Status.Loaded → succeeds env c.Name) →
      (buildWorker env st before queue).exit = WorkerExit.drained
        ∧ (∃ queue', (buildWorker env st before queue).Containers = before ++ queue'
            ∧ List.Forall₂ (pushedFrom env) queue queue')
        ∧ (buildWorker env st before queue).state.TotalBuildSize
            = wrapInt64 (x + loadedSizes env queue)
        ∧ ∃ sent, (buildWorker env st before queue).state.signals = st.signals ++ sent
            ∧ sentFail sent = false
            ∧ countDone sent = countStatus Status.Loaded queue := by
  induction queue with
  | nil =>
    intro st before x hx _
    refine ⟨rfl, ⟨[], by simp [buildWorker], List.Forall₂.nil⟩, ?_, [], ?_, rfl, rfl⟩
    · simp [buildWorker, loadedSizes, hx]
    · simp [buildWorker]
  | cons c queue ih =>
    intro st before x hx hok
    have hok' : ∀ d ∈ queue, d.Status = Status.Loaded → succeeds env d.Name :=
      fun d hd => hok d (List.mem_cons_of_mem c hd)
    by_cases hl : c.Status = Status.Loaded
    · obtain ⟨hflow, hname, hstatus, hsize, htotal, sent1, hsent1, hfail1, hdone1⟩ :=
        buildUnit_pushes env before queue st c
          (hok c (List.mem_cons_self c queue) hl).1
          (hok c (List.mem_cons_self c queue) hl).2.2.1
          (hok c (List.mem_cons_self c queue) hl).2.2.2
      have hx' : (buildUnit env before queue st c).state.TotalBuildSize
          = wrapInt64 (x + measuredSize env c.Name) := by
        rw [htotal, hx, wrapInt64_add]
      obtain ⟨hexit, ⟨queue', hcs, hrel⟩, htot, sent2, hsent2, hfail2, hdone2⟩ :=
        ih (buildUnit env before queue st c).state
          (before ++ [(buildUnit env before queue st c).container])
          (x + measuredSize env c.Name) hx' hok'
      have hw : buildWorker env st before (c :: queue)
          = buildWorker env (buildUnit env before queue st c).state
              (before ++ [(buildUnit env before queue st c).container]) queue := by
        rw [buildWorker]
        simp only [hl, ne_eq, not_true_eq_false, if_false, hflow]
      rw [hw]
      refine ⟨hexit, ⟨(buildUnit env before queue st c).container :: queue', ?_, ?_⟩,
        ?_, sent1 ++ sent2, ?_, ?_, ?_⟩
      · rw [hcs]; simp
      · exact List.Forall₂.cons
          ⟨hname, fun _ => ⟨hstatus, hsize⟩, fun h => absurd hl h⟩ hrel
      · rw [htot, loadedSizes_cons_loaded env c queue hl, Int.add_assoc]
      · rw [hsent2, hsent1, List.append_assoc]
      · rw [sentFail_append, hfail1, hfail2]; rfl
      · rw [countDone_append, hdone1, hdone2, countStatus_cons_same _ c queue hl]
        omega
    · obtain ⟨hexit, ⟨queue', hcs, hrel⟩, htot, sent2, hsent2, hfail2, hdone2⟩ :=
        ih st (before ++ [c]) x hx hok'
      have hw : buildWorker env st before (c :: queue)
          = buildWorker env st (before ++ [c]) queue := by
        rw [buildWorker]
        simp only [hl, ne_eq, not_false_eq_true, if_true]
      rw [hw]
      refine ⟨hexit, ⟨c :: queue', ?_, ?_⟩, ?_, sent2, hsent2, hfail2, ?_⟩
      · rw [hcs]; simp
      · exact List.Forall₂.cons ⟨rfl, fun h => absurd h hl, fun _ => rfl⟩ hrel
      · rw [htot, loadedSizes_cons_other env c queue hl]
      · rw [hdone2, countStatus_cons_other _ c queue hl]

theorem buildLoop_succeeds (T : Nat) (signals : List Signal) :
    ∀ (n : Nat) (log : List String), sentFail signals = false → n < T →
      T ≤ n + countDone signals → (buildLoop T n log signals).exit = LoopExit.succeeded := by
  induction signals with
  | nil =>
    intro n log _ hn hcount
    simp at hcount
    omega
  | cons s rest ih =>
    intro n log hpre hn hcount
    cases s with
    | progress msg =>
      rw [sentFail_progress] at hpre
      rw [countDone_progress] at hcount
      rw [buildLoop]
      exact ih n _ hpre hn hcount
    | done name =>
      rw [sentFail_done] at hpre
      rw [countDone_done] at hcount
      rw [buildLoop]
      by_cases hT : n + 1 = T
      · simp [hT]
      · simp only [hT, if_false]
        exact ih (n + 1) log hpre (by omega) (by omega)
    | fail msg => simp at hpre

theorem pushedSizes_of_pushedFrom (env : Env) (cs cs' : List Container)
    (hrel : List.Forall₂ (pushedFrom env) cs cs')
    (hfresh : ∀ c ∈ cs, c.Status ≠ Status.Pushed) :
    pushedSizes env cs' = loadedSizes env cs := by
  induction hrel with
  | nil => rfl
  | @cons c c' cs cs' hc _ ih =>
    have ih' := ih (fun d hd => hfresh d (List.mem_cons_of_mem c hd))
    have hcf := hfresh c (List.mem_cons_self c cs)
    obtain ⟨hname, hloaded, hother⟩ := hc
    unfold pushedSizes loadedSizes at ih' ⊢
    by_cases hl : c.Status = Status.Loaded
    · have hp := (hloaded hl).1
      simp [hl, hp, hname, ih']
    · have heq := hother hl
      subst heq
      simp [hl, hcf, ih']

theorem announceBuilds_fields (order : SoftwareOrder) (n : Nat) :
    (announceBuilds order n).Containers = order.Containers
      ∧ (announceBuilds order n).TotalBuildSize = order.TotalBuildSize
      ∧ (announceBuilds order n).DeploymentType = order.DeploymentType := by
  unfold announceBuilds SoftwareOrder.WriteLog
  simp only
  split <;> split <;> simp

theorem pushedFrom_self (env : Env) (cs : List Container)
    (hnone : ∀ c ∈ cs, c.Status ≠ Status.Loaded) :
    List.Forall₂ (pushedFrom env) cs cs := by
  induction cs with
  | nil => exact List.Forall₂.nil
  | cons c cs ih =>
    exact List.Forall₂.cons
      ⟨rfl, fun h => absurd h (hnone c (List.mem_cons_self c cs)), fun _ => rfl⟩
      (ih (fun d hd => hnone d (List.mem_cons_of_mem c hd)))

theorem pushed_size_of_pushedFrom (env : Env) (cs cs' : List Container)
    (hrel : List.Forall₂ (pushedFrom env) cs cs')
    (hfresh : ∀ c ∈ cs, c.Status ≠ Status.Pushed) :
    ∀ c' ∈ cs', c'.Status = Status.Pushed → c'.ImageSize = measuredSize env c'.Name := by
  induction hrel with
  | nil => intro c' hc'; simp at hc'
  | @cons c d cs cs' hc _ ih =>
    intro c' hc' hp
    rcases List.mem_cons.mp hc' with h | h
    · subst h
      obtain ⟨hname, hloaded, hother⟩ := hc
      by_cases hl : c.Status = Status.Loaded
      · rw [(hloaded hl).2, hname]
      · have heq := hother hl
        subst heq
        exact absurd hp (hfresh c' (List.mem_cons_self c' cs))
    · exact ih (fun e he => hfresh e (List.mem_cons_of_mem c he)) c' h hp

/-- Claim C7.  For every order that is not of type `single`, whose size counter is 0 and
whose registry fits the `jobs` channel, if the build, the size query and the push of
every `Loaded` unit succeed (workers running one after another), then `Build`
returns, with no error when there was a unit to build; every unit that was `Loaded`
is `Pushed` and carries its measured size as `ImageSize`, every other unit is as it
was; and `TotalBuildSize` is the `int64` sum of the measured sizes of the pushed
units, which is their exact sum when that fits an `int64`. -/
theorem Build_all_pushed (env : Env) (order : SoftwareOrder)
    (htype : order.DeploymentType ≠ "single")
    (hzero : order.TotalBuildSize = 0)
    (hroom : jobsBlock env.NumCPU order.Containers = false)
    (hfresh : ∀ c ∈ order.Containers, c.Status ≠ Status.Pushed)
    (hok : ∀ c ∈ order.Containers, c.Status = Status.Loaded → succeeds env c.Name) :
    ∃ built, Build env order = Outcome.returned built
      ∧ built.err
          = (if countStatus Status.Loaded order.Containers = 0 then some zeroBuilds else none)
      ∧ List.Forall₂ (pushedFrom env) order.Containers built.order.Containers
      ∧ (∀ c' ∈ built.order.Containers,
          c'.Status = Status.Pushed → c'.ImageSize = measuredSize env c'.Name)
      ∧ built.order.TotalBuildSize = wrapInt64 (pushedSizes env built.order.Containers)
      ∧ (-9223372036854775808 ≤ pushedSizes env built.order.Containers
          ∧ pushedSizes env built.order.Containers < 9223372036854775808 →
          built.order.TotalBuildSize = pushedSizes env built.order.Containers) := by
  have key : ∃ built, Build env order = Outcome.returned built
      ∧ built.err
          = (if countStatus Status.Loaded order.Containers = 0 then some zeroBuilds else none)
      ∧ List.Forall₂ (pushedFrom env) order.Containers built.order.Containers
      ∧ built.order.TotalBuildSize = wrapInt64 (loadedSizes env order.Containers) := by
    by_cases h0 : countStatus Status.Loaded order.Containers = 0
    · have hnone := (countStatus_eq_zero Status.Loaded order.Containers).mp h0
      refine ⟨_, Build_of_none_loaded env order htype hnone, by simp [h0],
        pushedFrom_self env order.Containers hnone, ?_⟩
      have hl : loadedSizes env order.Containers = 0 := by
        unfold loadedSizes
        rw [List.filter_eq_nil_iff.mpr (fun c hc => by simpa using hnone c hc)]
        rfl
      simp only [hzero, hl]
      rfl
    · obtain ⟨hc, ht, _⟩ :=
        announceBuilds_fields order (countStatus Status.Loaded order.Containers)
      obtain ⟨hexit, ⟨cs', hcs, hrel⟩, htot, sent, hsent, hfail, hdone⟩ :=
        buildWorker_all_succeed env order.Containers
          { TotalBuildSize := order.TotalBuildSize, now := env.now } [] 0
          (by simp only [hzero]; rfl) hok
      have hloop : ∀ log, (buildLoop (countStatus Status.Loaded order.Containers) 0 log
          sent).exit = LoopExit.succeeded :=
        fun log => buildLoop_succeeds _ sent 0 log hfail (Nat.pos_of_ne_zero h0)
          (by omega)
      simp only [List.nil_append] at hcs hsent
      unfold Build
      simp only [htype, if_false, numberOfBuilds_eq, h0, hc, ht, hroom, dispatch_eq,
        Bool.false_eq_true, hexit, hsent, hloop]
      refine ⟨_, rfl, rfl, ?_, ?_⟩
      · simp only [hcs]
        exact hrel
      · simp only [htot, Int.zero_add]
  obtain ⟨built, hb, herr, hrel, htot⟩ := key
  have hsum := pushedSizes_of_pushedFrom env _ _ hrel hfresh
  refine ⟨built, hb, herr, hrel, pushed_size_of_pushedFrom env _ _ hrel hfresh, ?_, ?_⟩
  · rw [hsum, htot]
  · rintro ⟨hlo, hhi⟩
    rw [htot, ← hsum]
    exact wrapInt64_of_fits _ hlo hhi

/-- Claim C7, witness: three `Loaded` units whose images measure 10, 20 and 5 bytes
(scenario A of the specification); the counter ends at 35. -/
theorem Build_all_pushed_witness :
    (∃ built, Build calmEnv scenarioA = Outcome.returned built
      ∧ built.err
          = (if countStatus Status.Loaded scenarioA.Containers = 0 then some zeroBuilds
              else none)
      ∧ List.Forall₂ (pushedFrom calmEnv) scenarioA.Containers built.order.Containers
      ∧ (∀ c' ∈ built.order.Containers,
          c'.Status = Status.Pushed → c'.ImageSize = measuredSize calmEnv c'.Name)
      ∧ built.order.TotalBuildSize = wrapInt64 (pushedSizes calmEnv built.order.Containers)
      ∧ (-9223372036854775808 ≤ pushedSizes calmEnv built.order.Containers
          ∧ pushedSizes calmEnv built.order.Containers < 9223372036854775808 →
          built.order.TotalBuildSize = pushedSizes calmEnv built.order.Containers))
    ∧ (match Build calmEnv scenarioA with
        | Outcome.returned built =>
          (built.err, built.order.Containers.map (fun c => (c.Name, c.Status, c.ImageSize)),
            built.order.TotalBuildSize)
        | _ => (none, [], 0))
      = (none, [("a", Status.Pushed, 10), ("b", Status.Pushed, 20), ("c", Status.Pushed, 5)],
          35) :=
  ⟨Build_all_pushed calmEnv scenarioA (by decide) (by decide) (by decide) (by decide)
    (by decide), by decide⟩

/-! ## A build that leaves the unit `Failed` without an error -/

/-- Claim C6 (the code at the failing inputs).  A `Loaded` unit whose
`Container.Build` returns no error and leaves the status `Failed`, the case that the
guard of line 475 provides for: after the build section the status is `Failed` (the
guard keeps it from becoming `Built`) and the worker goes on; when the size query
returns an image and the push returns no error, line 503 sets the status to `Pushed`,
and the worker passes to the next unit. -/
theorem failed_unit_becomes_pushed (env : Env) (before after : List Container)
    (st : PoolState) (c : Container)
    (hbuild : (env.Build c.Name).err = none)
    (hfailed : (env.Build c.Name).Status = Status.Failed)
    (hsize : (env.ImageList c.Name).sizes ≠ [])
    (hpush : (env.Push c.Name).err = none) :
    (buildSection env st c).flow = Flow.next
      ∧ (buildSection env st c).container.Status = Status.Failed
      ∧ (buildUnit env before after st c).flow = Flow.next
      ∧ (buildUnit env before after st c).container.Status = Status.Pushed := by
  obtain ⟨hflow, _, hstatus, _⟩ := buildUnit_pushes env before after st c hbuild hsize hpush
  refine ⟨?_, ?_, hflow, hstatus⟩
  · simp [buildSection, hbuild]
  · simp [buildSection, hbuild, hfailed]

/-- Claim C6, witness: the unit `a` is `Loaded` and its build leaves it `Failed`
without an error; `Build` returns no error and the unit is in the registry as
`Pushed`. -/
theorem failed_unit_becomes_pushed_witness :
    ((buildSection silentFailureEnv { TotalBuildSize := 0, now := 0 }
        { Name := "a", Status := Status.Loaded }).flow = Flow.next
      ∧ (buildSection silentFailureEnv { TotalBuildSize := 0, now := 0 }
          { Name := "a", Status := Status.Loaded }).container.Status = Status.Failed
      ∧ (buildUnit silentFailureEnv [] [] { TotalBuildSize := 0, now := 0 }
          { Name := "a", Status := Status.Loaded }).flow = Flow.next
      ∧ (buildUnit silentFailureEnv [] [] { TotalBuildSize := 0, now := 0 }
          { Name := "a", Status := Status.Loaded }).container.Status = Status.Pushed)
    ∧ (match Build silentFailureEnv oneLoaded with
        | Outcome.returned built =>
          (built.err, built.order.Containers.map (fun c => (c.Name, c.Status)))
        | _ => (none, []))
      = (none, [("a", Status.Pushed)]) :=
  ⟨failed_unit_becomes_pushed silentFailureEnv [] [] { TotalBuildSize := 0, now := 0 }
    { Name := "a", Status := Status.Loaded } (by decide) (by decide) (by decide) (by decide),
    by decide⟩

/-! ## A prebuild that fails -/

@[simp]
theorem loggedOf_nil : loggedOf [] = [] := rfl

@[simp]
theorem loggedOf_progress (msg : String) (s : List Signal) :
    loggedOf (Signal.progress msg :: s) = msg :: loggedOf s := by
  simp [loggedOf]

@[simp]
theorem loggedOf_fail (msg : String) (s : List Signal) :
    loggedOf (Signal.fail msg :: s) = msg :: loggedOf s := by
  simp [loggedOf]

@[simp]
theorem loggedOf_done (name : String) (s : List Signal) :
    loggedOf (Signal.done name :: s) = loggedOf s := by
  simp [loggedOf]

theorem prebuildTask_signals (env : Env) (c : Container) :
    ∃ pre, (prebuildTask env c).2 = pre ++ [Signal.done c.Name] ∧ countDone pre = 0
      ∧ ∀ e, (env.Prebuild c.Name).err = some e →
          Signal.fail (c.Name ++ " prebuild " ++ e) ∈ pre := by
  unfold prebuildTask
  cases h : (env.Prebuild c.Name).err with
  | none =>
    refine ⟨(env.Prebuild c.Name).progress.map Signal.progress, by simp [h],
      countDone_map_progress _, ?_⟩
    intro e he
    simp at he
  | some err =>
    refine ⟨(env.Prebuild c.Name).progress.map Signal.progress
      ++ [Signal.fail (c.Name ++ " prebuild " ++ err)], by simp [h], ?_, ?_⟩
    · rw [countDone_append, countDone_map_progress]
      simp
    · intro e he
      have : err = e := by simpa using he
      subst this
      simp

/-- The values that the tasks of `Prepare` send: nothing when no unit is eligible;
otherwise they end with a `done`, hold one `done` per task, and hold the failure
message of every eligible unit whose prebuild fails. -/
theorem startPrebuilds_signals (env : Env) (cs : List Container) :
    (startPrebuilds env cs).workerCount = countNotStatus Status.DoNotBuild cs
      ∧ ((startPrebuilds env cs).workerCount = 0 → (startPrebuilds env cs).signals = [])
      ∧ (0 < (startPrebuilds env cs).workerCount →
          ∃ pre name, (startPrebuilds env cs).signals = pre ++ [Signal.done name]
            ∧ countDone pre + 1 = (startPrebuilds env cs).workerCount
            ∧ ∀ c ∈ cs, c.Status ≠ Status.DoNotBuild →
                ∀ e, (env.Prebuild c.Name).err = some e →
                  Signal.fail (c.Name ++ " prebuild " ++ e) ∈ pre) := by
  induction cs with
  | nil => simp [startPrebuilds, countNotStatus]
  | cons c cs ih =>
    obtain ⟨hcount, hzero, hpos⟩ := ih
    by_cases hd : c.Status = Status.DoNotBuild
    · have hw : (startPrebuilds env (c :: cs)).workerCount
          = (startPrebuilds env cs).workerCount := by
        simp [startPrebuilds, hd]
      have hsig : (startPrebuilds env (c :: cs)).signals = (startPrebuilds env cs).signals := by
        simp [startPrebuilds, hd]
      rw [hw, hsig]
      refine ⟨by simp [countNotStatus, List.countP_cons, hd, hcount], hzero, ?_⟩
      intro h
      obtain ⟨pre, name, hs, hc, hf⟩ := hpos h
      refine ⟨pre, name, hs, hc, ?_⟩
      intro d hdmem hdne e he
      rcases List.mem_cons.mp hdmem with hdc | hdc
      · subst hdc; exact absurd hd hdne
      · exact hf d hdc hdne e he
    · obtain ⟨tpre, htask, htcount, htfail⟩ := prebuildTask_signals env c
      have hw : (startPrebuilds env (c :: cs)).workerCount
          = (startPrebuilds env cs).workerCount + 1 := by
        simp [startPrebuilds, hd]
      have hsig : (startPrebuilds env (c :: cs)).signals
          = (prebuildTask env c).2 ++ (startPrebuilds env cs).signals := by
        simp [startPrebuilds, hd]
      rw [hw, hsig]
      refine ⟨by simp [countNotStatus, List.countP_cons, hd, hcount], by omega, ?_⟩
      intro _
      by_cases h0 : (startPrebuilds env cs).workerCount = 0
      · refine ⟨tpre, c.Name, by rw [hzero h0, htask]; simp, by omega, ?_⟩
        intro d hdmem hdne e he
        rcases List.mem_cons.mp hdmem with hdc | hdc
        · subst hdc; exact htfail e he
        · have hcnt : countNotStatus Status.DoNotBuild cs = 0 := by omega
          have : d.Status = Status.DoNotBuild := by
            unfold countNotStatus at hcnt
            simpa using (List.countP_eq_zero.mp hcnt) d hdc
          exact absurd this hdne
      · obtain ⟨pre, name, hs, hc, hf⟩ := hpos (Nat.pos_of_ne_zero h0)
        refine ⟨tpre ++ [Signal.done c.Name] ++ pre, name, by rw [hs, htask]; simp, ?_, ?_⟩
        · rw [countDone_append, countDone_append, htcount]
          simp
          omega
        · intro d hdmem hdne e he
          rcases List.mem_cons.mp hdmem with hdc | hdc
          · subst hdc
            exact List.mem_append_left _ (List.mem_append_left _ (htfail e he))
          · exact List.mem_append_right _ (hf d hdc hdne e he)

@[simp]
theorem countFail_nil : countFail [] = 0 := rfl

@[simp]
theorem countFail_progress (msg : String) (s : List Signal) :
    countFail (Signal.progress msg :: s) = countFail s := by
  simp [countFail, List.countP_cons]

@[simp]
theorem countFail_done (name : String) (s : List Signal) :
    countFail (Signal.done name :: s) = countFail s := by
  simp [countFail, List.countP_cons]

@[simp]
theorem countFail_fail (msg : String) (s : List Signal) :
    countFail (Signal.fail msg :: s) = countFail s + 1 := by
  simp [countFail, List.countP_cons]

theorem countFail_append (s t : List Signal) :
    countFail (s ++ t) = countFail s + countFail t := by
  simp [countFail]

theorem countFail_map_progress (msgs : List String) :
    countFail (msgs.map Signal.progress) = 0 := by
  induction msgs with
  | nil => rfl
  | cons m ms ih => rw [List.map_cons, countFail_progress, ih]

/-- Claim C12.  A unit that the worker receives with a status other than `Loaded` is
skipped: the worker passes to the rest of the queue with the shared state (size
counter, clock, values sent, calls made, warnings) exactly as it was and with the
unit put back unchanged; when it is the only unit in the queue, the worker ends with
the state it started with and the unit as it was. -/
theorem buildWorker_skips (env : Env) (st : PoolState) (before queue : List Container)
    (c : Container) (hstatus : c.Status ≠ Status.Loaded) :
    buildWorker env st before (c :: queue) = buildWorker env st (before ++ [c]) queue
      ∧ buildWorker env st before [c]
          = { exit := WorkerExit.drained, state := st, Containers := before ++ [c],
              unread := [] } := by
  constructor
  · rw [buildWorker]
    simp only [hstatus, ne_eq, not_false_eq_true, if_true]
  · rw [buildWorker]
    simp only [hstatus, ne_eq, not_false_eq_true, if_true]
    rw [buildWorker]

/-- Claim C12, witness: a `DoNotBuild` unit and a `Failed` unit in the queue of a worker
whose counter stands at 7. -/
theorem buildWorker_skips_witness :
    (buildWorker calmEnv { TotalBuildSize := 7, now := 3 } []
        ({ Name := "b", Status := Status.DoNotBuild }
          :: [{ Name := "c", Status := Status.Failed }])
      = buildWorker calmEnv { TotalBuildSize := 7, now := 3 }
          ([] ++ [{ Name := "b", Status := Status.DoNotBuild }])
          [{ Name := "c", Status := Status.Failed }]
      ∧ buildWorker calmEnv { TotalBuildSize := 7, now := 3 } []
          [{ Name := "b", Status := Status.DoNotBuild }]
        = { exit := WorkerExit.drained, state := { TotalBuildSize := 7, now := 3 },
            Containers := [] ++ [{ Name := "b", Status := Status.DoNotBuild }],
            unread := [] })
    ∧ buildWorker calmEnv { TotalBuildSize := 7, now := 3 } []
        [{ Name := "b", Status := Status.DoNotBuild }, { Name := "c", Status := Status.Failed }]
      = { exit := WorkerExit.drained, state := { TotalBuildSize := 7, now := 3 },
          Containers := [{ Name := "b", Status := Status.DoNotBuild },
            { Name := "c", Status := Status.Failed }],
          unread := [] } :=
  ⟨buildWorker_skips calmEnv { TotalBuildSize := 7, now := 3 } []
    [{ Name := "c", Status := Status.Failed }] { Name := "b", Status := Status.DoNotBuild }
    (by decide), by decide⟩

/-- Claim C13 (the code at the failing inputs).  A `Loaded` unit whose build returns no
error and whose size query returns no image (as the Docker client does when it
returns an error): the index `imageInfo[0]` of line 487 is out of range and the worker
panics.  The unit is left `Built` (or `Failed`) with `ImageSize` untouched, the counter
is unchanged, and `Container.Push` is never called: the calls made are the build and
the size query. -/
theorem buildWorker_size_query_panics (env : Env) (st : PoolState)
    (before queue : List Container) (c : Container)
    (hstatus : c.Status = Status.Loaded)
    (hbuild : (env.Build c.Name).err = none)
    (hsize : (env.ImageList c.Name).sizes = []) :
    (buildWorker env st before (c :: queue)).exit = WorkerExit.panicked
      ∧ (buildWorker env st before (c :: queue)).unread = queue
      ∧ (buildWorker env st before (c :: queue)).state.calls
          = st.calls ++ [Call.Build c.Name, Call.ImageList c.Name]
      ∧ (buildWorker env st before (c :: queue)).state.TotalBuildSize = st.TotalBuildSize
      ∧ (buildWorker env st before (c :: queue)).state.signals
          = st.signals ++ (env.Build c.Name).progress.map Signal.progress := by
  have hbflow : (buildSection env st c).flow = Flow.next := by
    simp [buildSection, hbuild]
  have hbname : (buildSection env st c).container.Name = c.Name := buildSection_name env st c
  have hbcalls := buildSection_calls env st c
  have hbtotal : (buildSection env st c).state.TotalBuildSize = st.TotalBuildSize := by
    simp [buildSection, hbuild]
  have hbsig : (buildSection env st c).state.signals
      = st.signals ++ (env.Build c.Name).progress.map Signal.progress := by
    simp [buildSection, hbuild]
  have hsflow : (sizeSection env (buildSection env st c).state
      (buildSection env st c).container).flow = Flow.panicked := by
    simp [sizeSection, hbname, hsize]
  have hunit : buildUnit env before queue st c
      = sizeSection env (buildSection env st c).state (buildSection env st c).container := by
    unfold buildUnit
    simp only [hbflow, hsflow]
  have hw : buildWorker env st before (c :: queue)
      = { exit := WorkerExit.panicked, state := (buildUnit env before queue st c).state,
          Containers := before ++ (buildUnit env before queue st c).container :: queue,
          unread := queue } := by
    rw [buildWorker]
    simp only [hstatus, ne_eq, not_true_eq_false, if_false]
    rw [hunit]
    simp only [hsflow]
  rw [hw, hunit]
  refine ⟨rfl, rfl, ?_, ?_, ?_⟩
  · simp only
    rw [sizeSection_calls, hbcalls, hbname]
    simp
  · simp only [sizeSection, hbname, hsize]
    split <;> exact hbtotal
  · simp only [sizeSection, hbname, hsize]
    split <;> exact hbsig

/-- Claim C13, witness: the size query for the `Loaded` unit `a` returns the error
`connection refused` and no image; the worker panics, and so does `Build`. -/
theorem buildWorker_size_query_panics_witness :
    ((buildWorker sizeFailureEnv { TotalBuildSize := 0, now := 0 } []
        ({ Name := "a", Status := Status.Loaded } :: [])).exit = WorkerExit.panicked
      ∧ (buildWorker sizeFailureEnv { TotalBuildSize := 0, now := 0 } []
          ({ Name := "a", Status := Status.Loaded } :: [])).unread = []
      ∧ (buildWorker sizeFailureEnv { TotalBuildSize := 0, now := 0 } []
          ({ Name := "a", Status := Status.Loaded } :: [])).state.calls
          = [] ++ [Call.Build "a", Call.ImageList "a"]
      ∧ (buildWorker sizeFailureEnv { TotalBuildSize := 0, now := 0 } []
          ({ Name := "a", Status := Status.Loaded } :: [])).state.TotalBuildSize = 0
      ∧ (buildWorker sizeFailureEnv { TotalBuildSize := 0, now := 0 } []
          ({ Name := "a", Status := Status.Loaded } :: [])).state.signals
          = [] ++ (sizeFailureEnv.Build "a").progress.map Signal.progress)
    ∧ Build sizeFailureEnv oneLoaded = Outcome.panicked :=
  ⟨buildWorker_size_query_panics sizeFailureEnv { TotalBuildSize := 0, now := 0 } [] []
    { Name := "a", Status := Status.Loaded } (by decide) (by decide) (by decide), by decide⟩

theorem buildWorker_of_returned (env : Env) (st : PoolState) (before queue : List Container)
    (c : Container) (hstatus : c.Status = Status.Loaded)
    (hflow : (buildUnit env before queue st c).flow = Flow.returned) :
    buildWorker env st before (c :: queue)
      = { exit := WorkerExit.returned, state := (buildUnit env before queue st c).state,
          Containers := before ++ (buildUnit env before queue st c).container :: queue,
          unread := queue } := by
  rw [buildWorker]
  simp only [hstatus, ne_eq, not_true_eq_false, if_false, hflow]

theorem buildUnit_of_build_error (env : Env) (st : PoolState) (before queue : List Container)
    (c : Container) (e : String) (hbuild : (env.Build c.Name).err = some e) :
    buildUnit env before queue st c
      = { flow := Flow.returned,
          state :=
            { st with
              now := st.now + 1,
              calls := st.calls ++ [Call.Build c.Name],
              signals := st.signals ++ (env.Build c.Name).progress.map Signal.progress
                ++ [Signal.fail (c.Name ++ ":" ++ c.Tag ++ " container build " ++ e)] },
          container := { c with BuildStart := st.now, Status := Status.Failed } } := by
  have hb : buildSection env st c
      = { flow := Flow.returned,
          state :=
            { st with
              now := st.now + 1,
              calls := st.calls ++ [Call.Build c.Name],
              signals := st.signals ++ (env.Build c.Name).progress.map Signal.progress
                ++ [Signal.fail (c.Name ++ ":" ++ c.Tag ++ " container build " ++ e)] },
          container := { c with BuildStart := st.now, Status := Status.Failed } } := by
    simp [buildSection, hbuild]
  unfold buildUnit
  simp only [hb]

theorem buildUnit_of_push_error (env : Env) (st : PoolState) (before queue : List Container)
    (c : Container) (e : String)
    (hbuild : (env.Build c.Name).err = none)
    (hsize : (env.ImageList c.Name).sizes ≠ [])
    (hpush : (env.Push c.Name).err = some e) :
    (buildUnit env before queue st c).flow = Flow.returned
      ∧ (buildUnit env before queue st c).container.Name = c.Name
      ∧ (buildUnit env before queue st c).container.Status = Status.Failed
      ∧ (buildUnit env before queue st c).state.calls
          = st.calls ++ [Call.Build c.Name, Call.ImageList c.Name, Call.Push c.Name]
      ∧ ∃ sent message, (buildUnit env before queue st c).state.signals
            = st.signals ++ sent ++ [Signal.fail message, Signal.done c.Name]
          ∧ countFail sent = 0 ∧ countDone sent = 0 := by
  obtain ⟨size, sizes, hsizes⟩ : ∃ size sizes, (env.ImageList c.Name).sizes = size :: sizes := by
    cases h : (env.ImageList c.Name).sizes with
    | nil => exact absurd h hsize
    | cons a l => exact ⟨a, l, rfl⟩
  have hbflow : (buildSection env st c).flow = Flow.next := by
    simp [buildSection, hbuild]
  have hbname : (buildSection env st c).container.Name = c.Name := buildSection_name env st c
  have hbcalls := buildSection_calls env st c
  have hbsig : (buildSection env st c).state.signals
      = st.signals ++ (env.Build c.Name).progress.map Signal.progress := by
    simp [buildSection, hbuild]
  have hsflow : (sizeSection env (buildSection env st c).state
      (buildSection env st c).container).flow = Flow.next := by
    simp [sizeSection, hbname, hsizes]
  have hunit : buildUnit env before queue st c
      = pushSection env before queue
          (sizeSection env (buildSection env st c).state (buildSection env st c).container).state
          (sizeSection env (buildSection env st c).state
            (buildSection env st c).container).container := by
    unfold buildUnit
    simp only [hbflow, hsflow]
  have hscalls := sizeSection_calls env (buildSection env st c).state
    (buildSection env st c).container
  rw [hunit]
  generalize buildSection env st c = built at hbname hbcalls hbsig hscalls
  have hsname : (sizeSection env built.state built.container).container.Name = c.Name := by
    rw [sizeSection_name, hbname]
  have hssig : (sizeSection env built.state built.container).state.signals
      = built.state.signals := by
    simp only [sizeSection, hbname, hsizes]
    split <;> rfl
  generalize sizeSection env built.state built.container = sized at hsname hssig hscalls
  refine ⟨?_, ?_, ?_, ?_, ?_⟩
  · simp [pushSection, hsname, hpush]
  · simp [pushSection, hsname, hpush]
  · simp [pushSection, hsname, hpush]
  · rw [pushSection_calls, hscalls, hbcalls, hsname, hbname]
    simp
  · refine ⟨(env.Build c.Name).progress.map Signal.progress
        ++ (env.Push c.Name).progress.map Signal.progress,
      env.GetWholeImageName { sized.container with
          PushStart := sized.state.now, Status := Status.Failed }
        ++ " container push " ++ e, ?_, ?_, ?_⟩
    · simp [pushSection, hsname, hpush, hssig, hbsig]
    · simp [countFail_append, countFail_map_progress]
    · simp [countDone_append, countDone_map_progress]

/-- Claim C14.  A `Loaded` unit at the head of the queue of a worker.  When
`Container.Build` returns an error, the worker returns at once: the unit is `Failed`,
the one message sent on `fail` is the unit's name, a colon, its tag and then
` container build ` and the error, the only call made is that build (no retry, no size
query, no push), and the rest of the queue is left unread.  When the build and the
size query went through and `Container.Push` returns an error, the worker returns as
well: the unit is `Failed`, a message was sent on `fail`, the calls made are one build,
one size query and one push, and the rest of the queue is left unread. -/
theorem buildWorker_stops_on_error (env : Env) (st : PoolState)
    (before queue : List Container) (c : Container) (e : String)
    (hstatus : c.Status = Status.Loaded) :
    ((env.Build c.Name).err = some e →
        buildWorker env st before (c :: queue)
          = { exit := WorkerExit.returned,
              state :=
                { st with
                  now := st.now + 1,
                  calls := st.calls ++ [Call.Build c.Name],
                  signals := st.signals ++ (env.Build c.Name).progress.map Signal.progress
                    ++ [Signal.fail (c.Name ++ ":" ++ c.Tag ++ " container build " ++ e)] },
              Containers :=
                before ++ { c with BuildStart := st.now, Status := Status.Failed } :: queue,
              unread := queue })
      ∧ ((env.Build c.Name).err = none → (env.ImageList c.Name).sizes ≠ [] →
          (env.Push c.Name).err = some e →
          (buildWorker env st before (c :: queue)).exit = WorkerExit.returned
            ∧ (buildWorker env st before (c :: queue)).unread = queue
            ∧ (∃ c', (buildWorker env st before (c :: queue)).Containers
                  = before ++ c' :: queue
                ∧ c'.Name = c.Name ∧ c'.Status = Status.Failed)
            ∧ (buildWorker env st before (c :: queue)).state.calls
                = st.calls ++ [Call.Build c.Name, Call.ImageList c.Name, Call.Push c.Name]
            ∧ ∃ sent message, (buildWorker env st before (c :: queue)).state.signals
                  = st.signals ++ sent ++ [Signal.fail message, Signal.done c.Name]
                ∧ countFail sent = 0 ∧ countDone sent = 0) := by
  constructor
  · intro hbuild
    have hunit := buildUnit_of_build_error env st before queue c e hbuild
    rw [buildWorker_of_returned env st before queue c hstatus (by rw [hunit]), hunit]
  · intro hbuild hsize hpush
    obtain ⟨hflow, hname, hfailed, hcalls, hsent⟩ :=
      buildUnit_of_push_error env st before queue c e hbuild hsize hpush
    rw [buildWorker_of_returned env st before queue c hstatus hflow]
    exact ⟨rfl, rfl, ⟨_, rfl, hname, hfailed⟩, hcalls, hsent⟩

/-- Claim C14, witness: the build of the `Loaded` unit `a`, tagged `19.0.4`, returns
`exit 1` with unit `b` still in the queue; and in another environment its push returns
`denied`. -/
theorem buildWorker_stops_on_error_witness :
    buildWorker buildFailureEnv { TotalBuildSize := 0, now := 0 } []
        ({ Name := "a", Tag := "19.0.4", Status := Status.Loaded }
          :: [{ Name := "b", Status := Status.Loaded }])
      = { exit := WorkerExit.returned,
          state :=
            { TotalBuildSize := 0, now := 1, calls := [Call.Build "a"],
              signals := [Signal.fail "a:19.0.4 container build exit 1"] },
          Containers :=
            [{ Name := "a", Tag := "19.0.4", Status := Status.Failed },
              { Name := "b", Status := Status.Loaded }],
          unread := [{ Name := "b", Status := Status.Loaded }] }
    ∧ (buildWorker pushFailureEnv { TotalBuildSize := 0, now := 0 } []
          ({ Name := "a", Tag := "19.0.4", Status := Status.Loaded }
            :: [{ Name := "b", Status := Status.Loaded }])).exit = WorkerExit.returned
    ∧ (buildWorker pushFailureEnv { TotalBuildSize := 0, now := 0 } []
          ({ Name := "a", Tag := "19.0.4", Status := Status.Loaded }
            :: [{ Name := "b", Status := Status.Loaded }])).state.signals
        = [Signal.fail "a:19.0.4 container push denied", Signal.done "a"] :=
  ⟨(buildWorker_stops_on_error buildFailureEnv { TotalBuildSize := 0, now := 0 } []
      [{ Name := "b", Status := Status.Loaded }]
      { Name := "a", Tag := "19.0.4", Status := Status.Loaded } "exit 1" (by decide)).1
      (by decide),
    ((buildWorker_stops_on_error pushFailureEnv { TotalBuildSize := 0, now := 0 } []
      [{ Name := "b", Status := Status.Loaded }]
      { Name := "a", Tag := "19.0.4", Status := Status.Loaded } "denied" (by decide)).2
      (by decide) (by decide) (by decide)).1,
    by decide⟩

/-! ## What a task sends on `done` and on `fail` -/

/-- Claim C11 (the code at the failing inputs).  The task that `Prepare` starts for a
unit whose `Container.Prebuild` returns an error sends one value on `fail` and then
one value on `done`: there is no `return` between lines 971 and 973. -/
theorem prebuildTask_sends_fail_and_done (env : Env) (c : Container) (e : String)
    (hfail : (env.Prebuild c.Name).err = some e) :
    (prebuildTask env c).2
        = (env.Prebuild c.Name).progress.map Signal.progress
          ++ [Signal.fail (c.Name ++ " prebuild " ++ e), Signal.done c.Name]
      ∧ countFail (prebuildTask env c).2 = 1
      ∧ countDone (prebuildTask env c).2 = 1 := by
  have h : (prebuildTask env c).2
      = (env.Prebuild c.Name).progress.map Signal.progress
        ++ [Signal.fail (c.Name ++ " prebuild " ++ e), Signal.done c.Name] := by
    simp [prebuildTask, hfail]
  rw [h, countFail_append, countDone_append, countFail_map_progress, countDone_map_progress]
  exact ⟨rfl, by simp, by simp⟩

/-- Claim C11, witness: the prebuild of unit `a` fails, and the task sends on both
channels.  Other tasks miss the contract as well: `TestMirror` on a status code 500
sends on neither channel and panics; `TestMirror` on an `http://` URL whose request
fails sends twice on `fail`; `TestRegistry` with an unreadable Docker configuration
sends twice on `fail` and panics; the worker whose push fails sends on `fail` and then
on `done`.  The worker whose build fails sends once on `fail` and returns. -/
theorem prebuildTask_sends_fail_and_done_witness :
    ((prebuildTask prebuildFailureEnv { Name := "a" }).2
        = (prebuildFailureEnv.Prebuild "a").progress.map Signal.progress
          ++ [Signal.fail ("a" ++ " prebuild " ++ "no config"), Signal.done "a"]
      ∧ countFail (prebuildTask prebuildFailureEnv { Name := "a" }).2 = 1
      ∧ countDone (prebuildTask prebuildFailureEnv { Name := "a" }).2 = 1)
    ∧ (TestMirror "mirror.example.com" (fun _ => HttpResult.response 500)
        = { signals := [Signal.progress
              "Checking the mirror URL for validity ... curl https://mirror.example.com"],
            ending := Ending.panicked })
    ∧ (TestMirror "http://mirror.example.com" (fun _ => HttpResult.error "no such host")
        = { signals := [Signal.fail mirrorNeedsTLS,
              Signal.progress ("Checking the mirror URL for validity ... curl " ++
                "https://http://mirror.example.com"),
              Signal.fail "no such host"],
            ending := Ending.panicked })
    ∧ ((countFail (TestRegistry hostWithoutConfig "full" "docker.mycompany.com" "").signals,
          countDone (TestRegistry hostWithoutConfig "full" "docker.mycompany.com" "").signals,
          (TestRegistry hostWithoutConfig "full" "docker.mycompany.com" "").ending)
        = (2, 0, Ending.panicked))
    ∧ ((buildUnit pushFailureEnv [] [] { TotalBuildSize := 0, now := 0 }
          { Name := "a", Status := Status.Loaded }).state.signals
        = [Signal.fail "a: container push denied", Signal.done "a"])
    ∧ ((buildUnit buildFailureEnv [] [] { TotalBuildSize := 0, now := 0 }
          { Name := "a", Status := Status.Loaded }).state.signals
        = [Signal.fail "a: container build exit 1"]) :=
  ⟨prebuildTask_sends_fail_and_done prebuildFailureEnv { Name := "a" } "no config"
    (by decide), by decide, by decide, by decide, by decide, by decide⟩

/-! ## What `Build` dispatches and what it waits for -/

theorem startPrebuilds_length (env : Env) (cs : List Container) :
    (startPrebuilds env cs).Containers.length = cs.length := by
  induction cs with
  | nil => rfl
  | cons c cs ih =>
    rw [startPrebuilds]
    split <;> simp [ih]

set_option maxRecDepth 100000 in
/-- Claim C18 (the code at the failing input).  On the Docker configuration of the
comment on `Registry`, in which the entry of the registry is the only one, the first
`},` after the registry URL closes the `auths` object, so the text cut out still holds
the closing brace of the entry: `RegistryAuth` becomes the token followed by eight
blanks and `}`.  When another entry follows, the first `},` closes the entry of the
registry and `RegistryAuth` is the token. -/
theorem extractAuth_documented_config :
    extractAuth documentedConfig "docker.mycompany.com" = some "Zaoiqw0==        \x7d"
      ∧ (TestRegistry (hostWithConfig documentedConfig) "full" "docker.mycompany.com" "")
          = { signals :=
                [Signal.progress ("Checking the Docker registry URL for validity ... curl " ++
                    "https://docker.mycompany.com"),
                  Signal.progress ("Finished checking the Docker registry URL for " ++
                    "validity: http status code 200"),
                  Signal.done "1"],
              ending := Ending.returned,
              RegistryAuth := "Zaoiqw0==        \x7d" }
      ∧ extractAuth configWithNextEntry "docker.mycompany.com" = some "Y29J79JPO==" := by
  decide

/-! ## `getContainers`: the names in the registry -/

theorem isIgnored_iff (name : String) : isIgnored name = true ↔ name ∈ ignoredContainers := by
  simp only [isIgnored, ignoredContainers, List.foldl, List.mem_cons, List.mem_singleton,
    List.not_mem_nil, or_false]
  split_ifs <;> simp_all

theorem mem_setContainer (cs : List Container) (c x : Container)
    (h : x ∈ setContainer cs c) : x ∈ cs ∨ x = c := by
  unfold setContainer at h
  split at h
  · rw [List.mem_map] at h
    obtain ⟨y, hy, hxy⟩ := h
    split at hxy
    · exact Or.inr hxy.symm
    · exact Or.inl (hxy ▸ hy)
  · rcases List.mem_append.mp h with h | h
    · exact Or.inl h
    · exact Or.inr (List.mem_singleton.mp h)

/-- Every unit that the loop of lines 673-693 adds is named after a line that is not
an ignored name and not blank. -/
theorem mem_addContainers (BaseImage : String) (GetTag : Container → String)
    (lines : List String) :
    ∀ (acc : List Container) (c : Container),
      c ∈ addContainers BaseImage GetTag lines acc →
      c ∈ acc ∨ ∃ line ∈ lines, line ∉ ignoredContainers ∧ (TrimSpace line).length ≠ 0
        ∧ c.Name = ToLower line := by
  induction lines with
  | nil =>
    intro acc c hc
    exact Or.inl hc
  | cons line lines ih =>
    intro acc c hc
    rw [addContainers] at hc
    split at hc
    · rcases ih acc c hc with h | ⟨l, hl, h⟩
      · exact Or.inl h
      · exact Or.inr ⟨l, List.mem_cons_of_mem line hl, h⟩
    · rename_i hskip
      simp only [Bool.or_eq_true, decide_eq_true_eq, not_or] at hskip
      obtain ⟨hign, hblank⟩ := hskip
      have hign' : line ∉ ignoredContainers := fun h => hign ((isIgnored_iff line).mpr h)
      rcases ih _ c hc with h | ⟨l, hl, h⟩
      · rcases mem_setContainer _ _ _ h with h' | h'
        · exact Or.inl h'
        · exact Or.inr ⟨line, List.mem_cons_self line lines, hign', hblank, by rw [h']⟩
      · exact Or.inr ⟨l, List.mem_cons_of_mem line hl, h⟩

theorem noSpace_spec (lo hi n : Nat) (h : noSpace lo hi = true) (hlo : lo ≤ n)
    (hhi : n ≤ hi) : inRanges White_Space n = false := by
  rw [Bool.eq_false_iff]
  intro hn
  simp only [noSpace, White_Space, List.all_cons, List.all_nil, Bool.and_true,
    Bool.and_eq_true, Bool.or_eq_true, decide_eq_true_eq] at h
  simp only [inRanges, White_Space, List.any_cons, List.any_nil, Bool.or_false,
    Bool.or_eq_true, Bool.and_eq_true, decide_eq_true_eq] at hn
  omega

set_option maxRecDepth 100000 in
theorem CaseRanges_clearOfSpace : CaseRanges.all clearOfSpace = true := by
  decide

theorem toLowerCase_space (r : Nat) (table : List CaseRange)
    (h : table.all clearOfSpace = true) :
    toLowerCase r table = r
      ∨ (inRanges White_Space r = false
          ∧ inRanges White_Space (toLowerCase r table) = false) := by
  induction table with
  | nil => exact Or.inl rfl
  | cons cr rest ih =>
    rw [List.all_cons, Bool.and_eq_true] at h
    rw [toLowerCase]
    split
    · rename_i hin
      right
      have hcr := h.1
      simp only [clearOfSpace, Bool.and_eq_true] at hcr
      refine ⟨noSpace_spec _ _ r hcr.1 hin.1 hin.2, ?_⟩
      split
      · rename_i hd
        rw [if_pos hd] at hcr
        exact noSpace_spec _ _ _ hcr.2 (by omega) (by omega)
      · rename_i hd
        rw [if_neg hd] at hcr
        exact noSpace_spec _ _ _ hcr.2 (by omega) (by omega)
    · exact ih h.2

theorem isSpace_ofNat (m : Nat) (h : inRanges White_Space m = false) :
    isSpace (Char.ofNat m) = false := by
  unfold Char.ofNat
  split
  · exact h
  · decide

theorem isSpace_ofNat_upper :
    ∀ n < 91, 65 ≤ n →
      isSpace (Char.ofNat n) = false ∧ isSpace (Char.ofNat (n + 32)) = false := by
  decide

theorem isSpace_unicodeToLower (c : Char) : isSpace (unicodeToLower c) = isSpace c := by
  unfold unicodeToLower
  split
  · split
    · rename_i h
      have hA : 'A'.toNat = 65 := rfl
      have hZ : 'Z'.toNat = 90 := rfl
      have ha : 'a'.toNat - 'A'.toNat = 32 := rfl
      rw [hA, hZ] at h
      obtain ⟨h1, h2⟩ := isSpace_ofNat_upper c.toNat (by omega) h.1
      rw [ha, h2]
      rw [Char.ofNat_toNat] at h1
      exact h1.symm
    · rfl
  · rcases toLowerCase_space c.toNat CaseRanges CaseRanges_clearOfSpace with h | ⟨h1, h2⟩
    · rw [h, Char.ofNat_toNat]
    · rw [isSpace_ofNat _ h2]
      exact h1.symm

theorem TrimSpace_length_eq_zero (s : String) :
    (TrimSpace s).length = 0 ↔ ∀ x ∈ s.data, isSpace x = true := by
  unfold TrimSpace
  simp only [String.length, List.length_reverse, List.length_eq_zero,
    List.dropWhile_eq_nil_iff, List.mem_reverse]
  constructor
  · intro h
    by_cases hnil : List.dropWhile isSpace s.data = []
    · exact List.dropWhile_eq_nil_iff.mp hnil
    · have hhead := List.head_dropWhile_not isSpace s.data hnil
      have := h _ (List.head_mem hnil)
      rw [this] at hhead
      exact absurd hhead (by decide)
  · intro h x hx
    rw [List.dropWhile_eq_nil_iff.mpr h] at hx
    simp at hx

theorem TrimSpace_ToLower_length (s : String) :
    (TrimSpace (ToLower s)).length = 0 ↔ (TrimSpace s).length = 0 := by
  rw [TrimSpace_length_eq_zero, TrimSpace_length_eq_zero]
  simp only [ToLower, List.mem_map, forall_exists_index, and_imp, forall_apply_eq_imp_iff₂,
    isSpace_unicodeToLower]

theorem getContainers_ok (order : SoftwareOrder) (GetTag : Container → String)
    (inventory : String) (c : Container)
    (hc : c ∈ (getContainers order GetTag (Except.ok inventory)).1) :
    c ∈ addContainers order.BaseImage GetTag (listedLines inventory) [] := by
  simp only [getContainers] at hc
  split at hc
  · simp at hc
  · exact hc

/-- Claim C16 (amended).  For every inventory text, every unit of the registry that
`getContainers` returns is named by the lower-cased form of a line that follows the
section header and is not literally one of the ignored names, and its name is not
blank; and when no line after the header differs from an ignored name by the case of
its letters only, no unit of the registry bears one of the names `all`, `sas-all`,
`CommandLine`, `sas-casserver-secondary`, `sas-casserver-worker`. -/
theorem getContainers_names (order : SoftwareOrder) (GetTag : Container → String)
    (inventory : String) :
    (∀ c ∈ (getContainers order GetTag (Except.ok inventory)).1,
        (TrimSpace c.Name).length ≠ 0
          ∧ ∃ line ∈ listedLines inventory, line ∉ ignoredContainers ∧ c.Name = ToLower line)
      ∧ ((∀ line ∈ listedLines inventory,
            ToLower line ∈ ignoredContainers → line ∈ ignoredContainers) →
          ∀ c ∈ (getContainers order GetTag (Except.ok inventory)).1,
            c.Name ∉ ignoredContainers) := by
  have key : ∀ c ∈ (getContainers order GetTag (Except.ok inventory)).1,
      ∃ line ∈ listedLines inventory, line ∉ ignoredContainers
        ∧ (TrimSpace line).length ≠ 0 ∧ c.Name = ToLower line := by
    intro c hc
    rcases mem_addContainers _ _ _ _ _ (getContainers_ok order GetTag inventory c hc) with h | h
    · simp at h
    · exact h
  constructor
  · intro c hc
    obtain ⟨line, hline, hign, hblank, hname⟩ := key c hc
    refine ⟨?_, line, hline, hign, hname⟩
    rw [hname, Ne, TrimSpace_ToLower_length]
    exact hblank
  · intro hcase c hc hmem
    obtain ⟨line, hline, hign, _, hname⟩ := key c hc
    exact hign (hcase line hline (hname ▸ hmem))

set_option maxRecDepth 100000 in
/-- Claim C16, witness: an inventory whose section lists two units between ignored
names and a blank line. -/
theorem getContainers_names_witness :
    ∀ c ∈ (getContainers { DeploymentType := "full" } versionTag
        (Except.ok "[all]\n[sas-all:children]\nall\nconsul\n\nCommandLine\nhttpproxy")).1,
      c.Name ∉ ignoredContainers :=
  (getContainers_names { DeploymentType := "full" } versionTag
    "[all]\n[sas-all:children]\nall\nconsul\n\nCommandLine\nhttpproxy").2 (by decide)

set_option maxRecDepth 100000 in
/-- Claim C16, counterexample.  The line `ALL` does not equal the ignored name `all`, so
it is not skipped, and the unit made from it is named `all`. -/
theorem getContainers_names_counterexample :
    (getContainers { DeploymentType := "full" } versionTag
        (Except.ok "[all]\n[sas-all:children]\nconsul\nALL")).1.map (fun c => c.Name)
      = ["consul", "all"]
    ∧ "all" ∈ ignoredContainers := by
  decide

/-! ## `getContainers`: the section header -/

theorem findStartLine_eq_zero (lines : List String) :
    ∀ (index startLine : Nat),
      findStartLine lines index startLine = 0
        ↔ (startOfSection ∉ lines ∧ startLine = 0)
          ∨ (index = 0 ∧ ∃ rest, lines = startOfSection :: rest ∧ startOfSection ∉ rest) := by
  induction lines with
  | nil =>
    intro index startLine
    simp [findStartLine]
  | cons line rest ih =>
    intro index startLine
    rw [findStartLine, ih]
    by_cases h : line = startOfSection
    · subst h
      simp only [if_true, List.mem_cons, true_or, not_true_eq_false, false_and, false_or,
        Nat.add_one_ne_zero, or_false, List.cons.injEq, true_and, exists_eq_left']
      exact and_comm
    · have h' : ¬ (startOfSection = line) := fun e => h e.symm
      simp [h, h']

/-- Claim C17 (the code at the failing input).  `getContainers` returns the error
`Cannot find inventory.ini section with all container names` exactly when the last
header line has the line number 0, the value that `startLine` starts with: when no
line equals `[sas-all:children]`, and also when the first line does and no later line
does.  On the inventory whose first line is the header, followed by `consul` and
`httpproxy`, it returns the error and an empty registry. -/
theorem getContainers_header_on_first_line :
    (∀ (order : SoftwareOrder) (GetTag : Container → String) (inventory : String),
        (getContainers order GetTag (Except.ok inventory)).2 = some cannotFindSection
          ↔ startOfSection ∉ Split inventory "\n"
            ∨ ∃ rest, Split inventory "\n" = startOfSection :: rest ∧ startOfSection ∉ rest)
      ∧ startOfSection ∈ Split "[sas-all:children]\nconsul\nhttpproxy" "\n"
      ∧ getContainers { DeploymentType := "full" } versionTag
          (Except.ok "[sas-all:children]\nconsul\nhttpproxy")
        = ([], some cannotFindSection)
      ∧ (getContainers { DeploymentType := "full" } versionTag
          (Except.ok "[all]\n[sas-all:children]\nconsul\nhttpproxy")).1.map (fun c => c.Name)
        = ["consul", "httpproxy"] := by
  refine ⟨?_, by decide, by decide, by decide⟩
  intro order GetTag inventory
  have h := findStartLine_eq_zero (Split inventory "\n") 0 0
  simp only [and_true, true_and] at h
  simp only [getContainers]
  split
  · rename_i h0
    simp only [true_iff]
    exact h.mp h0
  · rename_i h0
    constructor
    · intro hne
      simp at hne
    · intro hh
      exact absurd (h.mpr hh) h0

/-! ## The services part of the variables file -/

theorem containerSection_withoutVolumes (License : String) (c : Container) :
    containerSection License (withoutVolumes c) = containerSection License c := rfl

theorem containerVarSections_foldl_withoutVolumes (License : String) (cs : List Container) :
    ∀ sections : List String,
      (cs.map withoutVolumes).foldl
          (fun sections container =>
            if container.Status = Status.DoNotBuild then sections
            else sections ++ [containerSection License container]) sections
        = cs.foldl
          (fun sections container =>
            if container.Status = Status.DoNotBuild then sections
            else sections ++ [containerSection License container]) sections := by
  induction cs with
  | nil => intro sections; rfl
  | cons c cs ih =>
    intro sections
    rw [List.map_cons, List.foldl_cons, List.foldl_cons, containerSection_withoutVolumes]
    exact ih _

set_option maxRecDepth 100000 in
/-- Claim C19 (the code at the failing input).  The section of a unit is its name
followed by its ports, environment and secrets blocks: the volumes block, which lines
1046-1054 build, is appended to nothing (lines 1073-1076), so the services part of the
variables file is the same whether the units declare volumes or not.  For a `Loaded`
unit `consul` with one port, one environment entry, one secret and the volume
`log:/opt/sas/viya/config/var/log`, next to a `DoNotBuild` unit, the services part
holds one section, with the port, the environment entry and the secret as `- item`
lines, and the variables file holds the word `volumes` nowhere. -/
theorem servicesPart_without_volumes :
    (∀ order : SoftwareOrder,
        servicesPart { order with Containers := order.Containers.map withoutVolumes }
          = servicesPart order)
      ∧ servicesPart
          { DeploymentType := "full",
            Containers := [configuredUnit, { Name := "httpproxy", Status := Status.DoNotBuild }] }
        = "services:\n  consul:\n    ports:\n    - 8500\n    environment:\n" ++
          "    - CONSUL_SERVER_FLAG=true\n    secrets:\n    - setinit_text_enc=abc\n\n"
      ∧ Contains
          (manifestVars
            { DeploymentType := "full",
              Containers :=
                [configuredUnit, { Name := "httpproxy", Status := Status.DoNotBuild }] })
          "volumes" = false := by
  refine ⟨?_, by decide, by decide⟩
  intro order
  unfold servicesPart containerVarSections
  simp only
  rw [containerVarSections_foldl_withoutVolumes]

/-! ## `Prepare` with nothing to prepare -/

theorem prepareLoop_zero (signals : List Signal) :
    ∀ (n : Nat) (log : List String), (prepareLoop 0 n log signals).exit = LoopExit.waiting := by
  induction signals with
  | nil => intro n log; rfl
  | cons s rest ih =>
    intro n log
    cases s with
    | progress msg => rw [prepareLoop]; exact ih _ _
    | done name =>
      rw [prepareLoop]
      simp only [Nat.add_one_ne_zero, if_false]
      exact ih _ _
    | fail msg => rw [prepareLoop]; exact ih _ _

theorem prepareLoop_reaches (T : Nat) (pre post : List Signal) (name : String) :
    ∀ (n : Nat) (log : List String), n + countDone pre + 1 = T →
      prepareLoop T n log (pre ++ Signal.done name :: post)
        = { exit := LoopExit.succeeded, doneCount := T, log := log ++ loggedOf pre,
            unread := post } := by
  induction pre with
  | nil =>
    intro n log hcount
    have : n + 1 = T := by simpa using hcount
    simp [prepareLoop, this]
  | cons s pre ih =>
    intro n log hcount
    cases s with
    | progress msg =>
      rw [countDone_progress] at hcount
      rw [List.cons_append, prepareLoop, ih n (log ++ [msg]) hcount]
      simp
    | done name' =>
      rw [countDone_done] at hcount
      have hne : ¬ (n + 1 = T) := by omega
      rw [List.cons_append, prepareLoop]
      simp only [hne, if_false]
      rw [ih (n + 1) log (by omega)]
      simp
    | fail msg =>
      rw [countDone_fail] at hcount
      rw [List.cons_append, prepareLoop, ih n (log ++ [msg]) hcount]
      simp

/-- Claim C23 (the code at the failing input).  The loop of `Prepare` compares the
counter with the target only after it has received a value on `done` (lines 989-990).
For a target of at least 1 it ends with success at the value on `done` that brings the
counter to the target.  For the target 0 it never ends, whatever it receives; and for
an order that is not of type `single` and has no eligible unit, as an order of type
`full` whose inventory section lists no unit, no task is started, nothing is ever
sent, and `Prepare` stays blocked in its loop: it does not return and
`GenerateManifests` is not called. -/
theorem Prepare_blocks_without_units (env : Env) (order : SoftwareOrder)
    (htype : order.DeploymentType ≠ "single")
    (hnone : ∀ c ∈ order.Containers, c.Status = Status.DoNotBuild) :
    Prepare env order = Outcome.blocked
      ∧ (∀ (signals : List Signal) (n : Nat) (log : List String),
          (prepareLoop 0 n log signals).exit = LoopExit.waiting)
      ∧ (∀ (T : Nat) (pre post : List Signal) (name : String) (log : List String),
          countDone pre + 1 = T →
          prepareLoop T 0 log (pre ++ Signal.done name :: post)
            = { exit := LoopExit.succeeded, doneCount := T, log := log ++ loggedOf pre,
                unread := post }) := by
  refine ⟨?_, fun signals n log => prepareLoop_zero signals n log, ?_⟩
  · obtain ⟨hcount, hzero, _⟩ := startPrebuilds_signals env order.Containers
    have h0 : (startPrebuilds env order.Containers).workerCount = 0 := by
      rw [hcount]
      unfold countNotStatus
      rw [List.countP_eq_zero]
      intro c hc
      simp [hnone c hc]
    unfold Prepare
    simp only [htype, if_false, h0, hzero h0, prepareLoop]
  · intro T pre post name log hcount
    exact prepareLoop_reaches T pre post name 0 log (by omega)

set_option maxRecDepth 100000 in
/-- Claim C23, witness: an order of type `full` without `--build-only` whose inventory
section lists no unit.  `getContainers` returns the empty registry and no error, the
filter of `LoadPlaybook` is skipped and the task sends on `done` only, the loop of
`NewSoftwareOrder` receives its five values on `done` and calls `Prepare`, which
stays blocked. -/
theorem Prepare_blocks_without_units_witness :
    getContainers { DeploymentType := "full" } versionTag (Except.ok emptyInventory)
        = ([], none)
      ∧ (LoadPlaybookBuildOnly emptyOrder.Containers emptyOrder.BuildOnly).signals
          = [Signal.done "1"]
      ∧ NewSoftwareOrder calmEnv emptyOrder
          [Signal.done "1", Signal.done "1", Signal.done "1", Signal.done "1",
            Signal.done "1"] = Outcome.blocked
      ∧ (loadingLoop loadingWorkerCount 0 emptyOrder.Log
          [Signal.done "1", Signal.done "1", Signal.done "1", Signal.done "1",
            Signal.done "1"]).exit = LoopExit.succeeded
      ∧ Prepare calmEnv emptyOrder = Outcome.blocked
      ∧ (∀ (signals : List Signal) (n : Nat) (log : List String),
          (prepareLoop 0 n log signals).exit = LoopExit.waiting)
      ∧ (∀ (T : Nat) (pre post : List Signal) (name : String) (log : List String),
          countDone pre + 1 = T →
          prepareLoop T 0 log (pre ++ Signal.done name :: post)
            = { exit := LoopExit.succeeded, doneCount := T, log := log ++ loggedOf pre,
                unread := post }) :=
  ⟨by decide, by decide, by decide, by decide,
    Prepare_blocks_without_units calmEnv emptyOrder (by decide) (by decide)⟩

/-! ## The secrets block -/

theorem appendItems_foldl (items : List String) :
    ∀ block : String,
      items.foldl (fun block item => block ++ "    - " ++ item ++ "\n") block
        = block ++ itemLines items := by
  induction items with
  | nil =>
    intro block
    simp [itemLines]
  | cons item items ih =>
    intro block
    rw [List.foldl_cons, ih]
    simp only [itemLines, String.append_assoc]

theorem HasPrefix_of_startsWithBlank (block : String) (h : startsWithBlank block) :
    HasPrefix (ToLower block) "setinit_text_enc" = false := by
  obtain ⟨rest, hrest⟩ := h
  have hs : "setinit_text_enc".data = 's' :: "etinit_text_enc".data := rfl
  have hne : ('s' == unicodeToLower ' ') = false := by decide
  simp only [HasPrefix, ToLower, hrest, List.map_cons, hs, List.isPrefixOf, hne,
    Bool.false_and]

theorem startsWithBlank_append (block tail : String) (h : startsWithBlank block) :
    startsWithBlank (block ++ tail) := by
  obtain ⟨rest, hrest⟩ := h
  exact ⟨rest ++ tail.data, by rw [String.data_append, hrest]; rfl⟩

theorem secrets_foldl (License : String) (items : List String) :
    ∀ block : String, startsWithBlank block →
      items.foldl
          (fun secrets item =>
            if HasPrefix (ToLower secrets) "setinit_text_enc" then
              secrets ++ "    - " ++ item ++ License ++ "\n"
            else
              secrets ++ "    - " ++ item ++ "\n") block
        = block ++ itemLines items := by
  induction items with
  | nil =>
    intro block _
    simp [itemLines]
  | cons item items ih =>
    intro block hblock
    rw [List.foldl_cons]
    simp only [HasPrefix_of_startsWithBlank block hblock, Bool.false_eq_true, if_false]
    rw [ih _ (startsWithBlank_append _ _ (startsWithBlank_append _ _
      (startsWithBlank_append _ _ hblock)))]
    simp only [itemLines, String.append_assoc]

/-- Claim C25.  For every unit and every license text, the secrets block of the unit
is `    secrets:` followed, when the unit has secrets, by a line break and one line
`    - item` for every configured item, verbatim and in order (and by ` []` when it
has none).  The license is appended to no entry, whatever the items are: the text
tested on line 1035 is the block built so far, which starts with a blank, never with
`setinit_text_enc`. -/
theorem secretsBlock_verbatim (License : String) (container : Container) :
    secretsBlock License container
        = (if container.Config.Secrets.length > 0 then
            "    secrets:" ++ "\n" ++ itemLines container.Config.Secrets
          else "    secrets:" ++ " []\n")
      ∧ secretsBlock License container = secretsBlock "" container
      ∧ secretsBlock "LICENSE TEXT"
          { Name := "sas-casserver-primary",
            Config := { Secrets := ["setinit_text_enc=abc", "other=1"] } }
        = "    secrets:\n    - setinit_text_enc=abc\n    - other=1\n" := by
  have key : ∀ L : String, secretsBlock L container
      = (if container.Config.Secrets.length > 0 then
          "    secrets:" ++ "\n" ++ itemLines container.Config.Secrets
        else "    secrets:" ++ " []\n") := by
    intro L
    unfold secretsBlock
    simp only
    split
    · exact secrets_foldl L _ _ ⟨"   secrets:\n".data, by decide⟩
    · rfl
  exact ⟨key License, by rw [key License, key ""], by decide⟩

/-! ## `getContainers`: the registry it returns -/

/-- The value that the loop of lines 665-669 leaves in `startLine`: the number of the
last header line, or the value it started with. -/
theorem findStartLine_last (lines : List String) :
    ∀ (index startLine : Nat),
      (startOfSection ∉ lines ∧ findStartLine lines index startLine = startLine)
        ∨ ∃ i, findStartLine lines index startLine = index + i
            ∧ lines[i]? = some startOfSection
            ∧ ∀ j, i < j → lines[j]? ≠ some startOfSection := by
  induction lines with
  | nil =>
    intro index startLine
    exact Or.inl ⟨by simp, rfl⟩
  | cons line rest ih =>
    intro index startLine
    rw [findStartLine]
    rcases ih (index + 1) (if line = startOfSection then index else startLine) with
      ⟨hnot, hval⟩ | ⟨i, hval, hi, hafter⟩
    · by_cases h : line = startOfSection
      · refine Or.inr ⟨0, ?_, ?_, ?_⟩
        · rw [hval]; simp [h]
        · simp [h]
        · intro j hj hline
          obtain ⟨j', rfl⟩ : ∃ j', j = j' + 1 := ⟨j - 1, by omega⟩
          rw [List.getElem?_cons_succ] at hline
          exact hnot (List.getElem?_mem hline)
      · refine Or.inl ⟨?_, ?_⟩
        · simp only [List.mem_cons, not_or]
          exact ⟨fun e => h e.symm, hnot⟩
        · rw [hval]; simp [h]
    · refine Or.inr ⟨i + 1, ?_, ?_, ?_⟩
      · rw [hval]; omega
      · rw [List.getElem?_cons_succ]; exact hi
      · intro j hj hline
        obtain ⟨j', rfl⟩ : ∃ j', j = j' + 1 := ⟨j - 1, by omega⟩
        rw [List.getElem?_cons_succ] at hline
        exact hafter j' (by omega) hline

theorem setContainer_names (cs : List Container) (c : Container) (name : String) :
    name ∈ (setContainer cs c).map (fun x => x.Name)
      ↔ name ∈ cs.map (fun x => x.Name) ∨ name = c.Name := by
  unfold setContainer
  split
  · rename_i hany
    have hmap : (cs.map (fun x => if x.Name = c.Name then c else x)).map (fun x => x.Name)
        = cs.map (fun x => x.Name) := by
      rw [List.map_map]
      apply List.map_congr_left
      intro x _
      simp only [Function.comp]
      split
      · rename_i h; exact h.symm
      · rfl
    rw [hmap]
    constructor
    · exact Or.inl
    · rintro (h | h)
      · exact h
      · rw [List.any_eq_true] at hany
        obtain ⟨x, hx, hxn⟩ := hany
        rw [h]
        exact List.mem_map.mpr ⟨x, hx, by simpa using hxn⟩
  · simp only [List.map_append, List.map_cons, List.map_nil, List.mem_append,
      List.mem_singleton]

theorem setContainer_nodup (cs : List Container) (c : Container)
    (h : (cs.map (fun x => x.Name)).Nodup) :
    ((setContainer cs c).map (fun x => x.Name)).Nodup := by
  unfold setContainer
  split
  · have hmap : (cs.map (fun x => if x.Name = c.Name then c else x)).map (fun x => x.Name)
        = cs.map (fun x => x.Name) := by
      rw [List.map_map]
      apply List.map_congr_left
      intro x _
      simp only [Function.comp]
      split
      · rename_i h; exact h.symm
      · rfl
    rw [hmap]
    exact h
  · rename_i hany
    rw [List.map_append, List.map_cons, List.map_nil]
    refine List.Nodup.append h (List.nodup_singleton _) ?_
    intro name hname hsingle
    rw [List.mem_singleton] at hsingle
    apply hany
    rw [List.any_eq_true]
    obtain ⟨x, hx, hxn⟩ := List.mem_map.mp hname
    exact ⟨x, hx, by simp [hxn, hsingle]⟩

/-- The registry that the loop of lines 673-693 builds: its names are the names it
started with and the lower-cased forms of the lines that are neither ignored nor
blank; no name occurs twice; every new entry is `Unknown` and has the base image of
the order. -/
theorem addContainers_registry (BaseImage : String) (GetTag : Container → String)
    (lines : List String) :
    ∀ acc : List Container,
      (acc.map (fun x => x.Name)).Nodup →
      (∀ c ∈ acc, c.Status = Status.Unknown ∧ c.BaseImage = BaseImage) →
      (∀ name, name ∈ (addContainers BaseImage GetTag lines acc).map (fun x => x.Name)
          ↔ name ∈ acc.map (fun x => x.Name)
            ∨ ∃ line ∈ lines, line ∉ ignoredContainers ∧ (TrimSpace line).length ≠ 0
                ∧ name = ToLower line)
        ∧ ((addContainers BaseImage GetTag lines acc).map (fun x => x.Name)).Nodup
        ∧ ∀ c ∈ addContainers BaseImage GetTag lines acc,
            c.Status = Status.Unknown ∧ c.BaseImage = BaseImage := by
  induction lines with
  | nil =>
    intro acc hnodup hall
    refine ⟨fun name => ?_, hnodup, hall⟩
    simp [addContainers]
  | cons line lines ih =>
    intro acc hnodup hall
    rw [addContainers]
    split
    · rename_i hskip
      obtain ⟨hnames, hnd, hfields⟩ := ih acc hnodup hall
      refine ⟨fun name => ?_, hnd, hfields⟩
      rw [hnames name]
      constructor
      · rintro (h | ⟨l, hl, h⟩)
        · exact Or.inl h
        · exact Or.inr ⟨l, List.mem_cons_of_mem line hl, h⟩
      · rintro (h | ⟨l, hl, hign, hblank, hname⟩)
        · exact Or.inl h
        · rcases List.mem_cons.mp hl with hl' | hl'
          · subst hl'
            simp only [Bool.or_eq_true, decide_eq_true_eq] at hskip
            rcases hskip with hs | hs
            · exact absurd ((isIgnored_iff l).mp hs) hign
            · exact absurd hs hblank
          · exact Or.inr ⟨l, hl', hign, hblank, hname⟩
    · rename_i hskip
      simp only [Bool.or_eq_true, decide_eq_true_eq, not_or] at hskip
      obtain ⟨hign, hblank⟩ := hskip
      have hign' : line ∉ ignoredContainers := fun h => hign ((isIgnored_iff line).mpr h)
      obtain ⟨hnames, hnd, hfields⟩ := ih _ (setContainer_nodup acc _ hnodup)
        (by
          intro c hc
          rcases mem_setContainer _ _ _ hc with h | h
          · exact hall c h
          · rw [h]; exact ⟨rfl, rfl⟩ : ∀ c ∈ setContainer acc
              { Name := ToLower line, Tag := GetTag
                  { Name := ToLower line, Status := Status.Unknown, BaseImage := BaseImage },
                Status := Status.Unknown, BaseImage := BaseImage },
              c.Status = Status.Unknown ∧ c.BaseImage = BaseImage)
      refine ⟨fun name => ?_, hnd, hfields⟩
      rw [hnames name, setContainer_names]
      constructor
      · rintro ((h | h) | ⟨l, hl, h⟩)
        · exact Or.inl h
        · exact Or.inr ⟨line, List.mem_cons_self line lines, hign', hblank, h⟩
        · exact Or.inr ⟨l, List.mem_cons_of_mem line hl, h⟩
      · rintro (h | ⟨l, hl, hign2, hblank2, hname⟩)
        · exact Or.inl (Or.inl h)
        · rcases List.mem_cons.mp hl with hl' | hl'
          · subst hl'
            exact Or.inl (Or.inr hname)
          · exact Or.inr ⟨l, hl', hign2, hblank2, hname⟩

/-- Claim C24.  For every inventory text with a header line `[sas-all:children]` at a
line number greater than 0, `getContainers` returns no error; the lines it reads are
those after the last header line; the names in the registry are exactly the
lower-cased forms of those lines that are not literally an ignored name and not blank
after trimming; no name occurs twice (an entry is stored under its name); and every
entry has status `Unknown` and the base image of the order. -/
theorem getContainers_registry (order : SoftwareOrder) (GetTag : Container → String)
    (inventory : String)
    (hheader : ∃ i, 0 < i ∧ (Split inventory "\n")[i]? = some startOfSection) :
    (getContainers order GetTag (Except.ok inventory)).2 = none
      ∧ (∃ k, (Split inventory "\n")[k]? = some startOfSection
          ∧ (∀ j, k < j → (Split inventory "\n")[j]? ≠ some startOfSection)
          ∧ listedLines inventory = (Split inventory "\n").drop (k + 1))
      ∧ (∀ name,
          name ∈ (getContainers order GetTag (Except.ok inventory)).1.map (fun c => c.Name)
            ↔ ∃ line ∈ listedLines inventory, line ∉ ignoredContainers
                ∧ (TrimSpace line).length ≠ 0 ∧ name = ToLower line)
      ∧ ((getContainers order GetTag (Except.ok inventory)).1.map (fun c => c.Name)).Nodup
      ∧ ∀ c ∈ (getContainers order GetTag (Except.ok inventory)).1,
          c.Status = Status.Unknown ∧ c.BaseImage = order.BaseImage := by
  obtain ⟨i, hi, hline⟩ := hheader
  have hmem : startOfSection ∈ Split inventory "\n" := List.getElem?_mem hline
  have hne : findStartLine (Split inventory "\n") 0 0 ≠ 0 := by
    intro h0
    rcases (findStartLine_eq_zero (Split inventory "\n") 0 0).mp h0 with ⟨hnot, _⟩ | ⟨_, rest, hrest, hnot⟩
    · exact hnot hmem
    · obtain ⟨i', rfl⟩ : ∃ i', i = i' + 1 := ⟨i - 1, by omega⟩
      rw [hrest, List.getElem?_cons_succ] at hline
      exact hnot (List.getElem?_mem hline)
  have hget : getContainers order GetTag (Except.ok inventory)
      = (addContainers order.BaseImage GetTag (listedLines inventory) [], none) := by
    simp only [getContainers, hne, if_false, listedLines]
  obtain ⟨hnames, hnd, hfields⟩ := addContainers_registry order.BaseImage GetTag
    (listedLines inventory) [] (by simp) (by simp)
  rw [hget]
  refine ⟨rfl, ?_, ?_, hnd, hfields⟩
  · rcases findStartLine_last (Split inventory "\n") 0 0 with ⟨hnot, _⟩ | ⟨k, hval, hk, hafter⟩
    · exact absurd hmem hnot
    · refine ⟨k, hk, hafter, ?_⟩
      rw [listedLines, hval, Nat.zero_add]
  · intro name
    rw [hnames name]
    simp

set_option maxRecDepth 100000 in
/-- Claim C24, witness: an inventory with two header lines; the units are read after
the second one.  In a second inventory a line with a capital E with acute accent is
lower-cased and a line that holds a no-break space only is skipped as blank. -/
theorem getContainers_registry_witness :
    ((getContainers { DeploymentType := "full", BaseImage := "centos:7" } versionTag
        (Except.ok
          "[all]\n[sas-all:children]\nold\n[sas-all:children]\nConsul\nall\n\nhttpproxy\nconsul")).2
        = none
      ∧ (∃ k, (Split
            "[all]\n[sas-all:children]\nold\n[sas-all:children]\nConsul\nall\n\nhttpproxy\nconsul"
            "\n")[k]? = some startOfSection
          ∧ (∀ j, k < j → (Split
              "[all]\n[sas-all:children]\nold\n[sas-all:children]\nConsul\nall\n\nhttpproxy\nconsul"
              "\n")[j]? ≠ some startOfSection)
          ∧ listedLines
              "[all]\n[sas-all:children]\nold\n[sas-all:children]\nConsul\nall\n\nhttpproxy\nconsul"
            = (Split
                "[all]\n[sas-all:children]\nold\n[sas-all:children]\nConsul\nall\n\nhttpproxy\nconsul"
                "\n").drop (k + 1))
      ∧ (∀ name,
          name ∈ (getContainers { DeploymentType := "full", BaseImage := "centos:7" } versionTag
              (Except.ok
                "[all]\n[sas-all:children]\nold\n[sas-all:children]\nConsul\nall\n\nhttpproxy\nconsul")).1.map
              (fun c => c.Name)
            ↔ ∃ line ∈ listedLines
                  "[all]\n[sas-all:children]\nold\n[sas-all:children]\nConsul\nall\n\nhttpproxy\nconsul",
                line ∉ ignoredContainers ∧ (TrimSpace line).length ≠ 0 ∧ name = ToLower line)
      ∧ ((getContainers { DeploymentType := "full", BaseImage := "centos:7" } versionTag
            (Except.ok
              "[all]\n[sas-all:children]\nold\n[sas-all:children]\nConsul\nall\n\nhttpproxy\nconsul")).1.map
            (fun c => c.Name)).Nodup
      ∧ ∀ c ∈ (getContainers { DeploymentType := "full", BaseImage := "centos:7" } versionTag
            (Except.ok
              "[all]\n[sas-all:children]\nold\n[sas-all:children]\nConsul\nall\n\nhttpproxy\nconsul")).1,
          c.Status = Status.Unknown
            ∧ c.BaseImage
              = ({ DeploymentType := "full", BaseImage := "centos:7" } : SoftwareOrder).BaseImage)
    ∧ getContainers { DeploymentType := "full", BaseImage := "centos:7" } versionTag
        (Except.ok
          "[all]\n[sas-all:children]\nold\n[sas-all:children]\nConsul\nall\n\nhttpproxy\nconsul")
      = ([{ Name := "consul", Tag := "19.0.4", BaseImage := "centos:7" },
          { Name := "httpproxy", Tag := "19.0.4", BaseImage := "centos:7" }], none)
    ∧ (getContainers { DeploymentType := "full" } versionTag
        (Except.ok "[all]\n[sas-all:children]\n\u00c9CLAIR\n\u00a0\nweb")).1.map
          (fun c => c.Name)
      = ["\u00e9clair", "web"] :=
  ⟨getContainers_registry { DeploymentType := "full", BaseImage := "centos:7" } versionTag
    "[all]\n[sas-all:children]\nold\n[sas-all:children]\nConsul\nall\n\nhttpproxy\nconsul"
    ⟨3, by decide, by decide⟩, by decide, by decide⟩

/-! ## The list arguments of `LoadCommands` -/

theorem splitChars_of_not_mem (c : Char) (w : List Char) (h : c ∉ w) :
    splitChars [c] 0 w = [w] := by
  induction w with
  | nil => rfl
  | cons a w ih =>
    have ha : ¬ (c = a) := fun e => h (e ▸ List.mem_cons_self c w)
    have hw : c ∉ w := fun e => h (List.mem_cons_of_mem a e)
    have hp : [c].isPrefixOf (a :: w) = false := by
      simp [List.isPrefixOf, ha]
    rw [splitChars]
    simp only [hp, Bool.false_eq_true, if_false, ih hw]

theorem splitChars_append_sep (c : Char) (w rest : List Char) (h : c ∉ w) :
    splitChars [c] 0 (w ++ c :: rest) = w :: splitChars [c] 0 rest := by
  induction w with
  | nil =>
    have hp : [c].isPrefixOf (c :: rest) = true := by simp [List.isPrefixOf]
    rw [List.nil_append, splitChars]
    simp only [hp, if_true, List.length_singleton, Nat.sub_self]
  | cons a w ih =>
    have ha : ¬ (c = a) := fun e => h (e ▸ List.mem_cons_self c w)
    have hw : c ∉ w := fun e => h (List.mem_cons_of_mem a e)
    have hp : [c].isPrefixOf (a :: (w ++ c :: rest)) = false := by
      simp [List.isPrefixOf, ha]
    rw [List.cons_append, splitChars]
    simp only [hp, Bool.false_eq_true, if_false, ih hw]

theorem splitChars_joinChars (c : Char) (ns : List (List Char))
    (hne : ns ≠ []) (h : ∀ n ∈ ns, c ∉ n) :
    splitChars [c] 0 (joinChars c ns) = ns := by
  induction ns with
  | nil => exact absurd rfl hne
  | cons n rest ih =>
    cases rest with
    | nil =>
      rw [joinChars]
      exact splitChars_of_not_mem c n (h n (List.mem_cons_self n []))
    | cons m rest =>
      rw [joinChars, splitChars_append_sep c n _ (h n (List.mem_cons_self n _)),
        ih (by simp) (fun x hx => h x (List.mem_cons_of_mem n hx))]

theorem mem_joinChars (c x : Char) (ns : List (List Char)) (hx : x ∈ joinChars c ns) :
    x = c ∨ ∃ n ∈ ns, x ∈ n := by
  induction ns with
  | nil => simp [joinChars] at hx
  | cons n rest ih =>
    cases rest with
    | nil =>
      rw [joinChars] at hx
      exact Or.inr ⟨n, List.mem_cons_self n [], hx⟩
    | cons m rest =>
      rw [joinChars] at hx
      rcases List.mem_append.mp hx with h | h
      · exact Or.inr ⟨n, List.mem_cons_self n _, h⟩
      · rcases List.mem_cons.mp h with h | h
        · exact Or.inl h
        · rcases ih h with h' | ⟨k, hk, hxk⟩
          · exact Or.inl h'
          · exact Or.inr ⟨k, List.mem_cons_of_mem n hk, hxk⟩

theorem joinChars_ne_nil (c : Char) (ns : List (List Char)) (hne : ns ≠ [])
    (h : ∀ n ∈ ns, n ≠ []) : joinChars c ns ≠ [] := by
  cases ns with
  | nil => exact absurd rfl hne
  | cons n rest =>
    have hn := h n (List.mem_cons_self n rest)
    cases rest with
    | nil => rw [joinChars]; exact hn
    | cons m rest =>
      rw [joinChars]
      intro e
      exact hn (List.append_eq_nil.mp e).1

theorem head_joinChars (c a : Char) (ns : List (List Char)) (h : ∀ n ∈ ns, n ≠ [])
    (ha : (joinChars c ns).head? = some a) : ∃ n ∈ ns, a ∈ n := by
  cases ns with
  | nil => simp [joinChars] at ha
  | cons n rest =>
    have hn := h n (List.mem_cons_self n rest)
    refine ⟨n, List.mem_cons_self n rest, ?_⟩
    cases rest with
    | nil =>
      rw [joinChars] at ha
      exact List.mem_of_mem_head? ha
    | cons m rest =>
      rw [joinChars, List.head?_append_of_ne_nil _ hn] at ha
      exact List.mem_of_mem_head? ha

theorem getLast_joinChars (c b : Char) (ns : List (List Char)) (h : ∀ n ∈ ns, n ≠ [])
    (hb : (joinChars c ns).getLast? = some b) : ∃ n ∈ ns, b ∈ n := by
  induction ns with
  | nil => simp [joinChars] at hb
  | cons n rest ih =>
    cases rest with
    | nil =>
      rw [joinChars] at hb
      exact ⟨n, List.mem_cons_self n [], List.mem_of_mem_getLast? hb⟩
    | cons m rest =>
      have hrest : ∀ x ∈ m :: rest, x ≠ [] := fun x hx => h x (List.mem_cons_of_mem n hx)
      have hne := joinChars_ne_nil c (m :: rest) (by simp) hrest
      rw [joinChars, List.getLast?_append_of_ne_nil _ (List.cons_ne_nil _ _),
        List.getLast?_cons] at hb
      cases hl : (joinChars c (m :: rest)).getLast? with
      | none => exact absurd (List.getLast?_eq_none_iff.mp hl) hne
      | some b' =>
        rw [hl] at hb
        simp only [Option.getD_some, Option.some.injEq] at hb
        obtain ⟨k, hk, hbk⟩ := ih hrest (hb ▸ hl)
        exact ⟨k, List.mem_cons_of_mem n hk, hbk⟩

theorem trim_of_plain_ends (l : List Char)
    (hhead : ∀ a, l.head? = some a → isSpace a = false)
    (hlast : ∀ b, l.getLast? = some b → isSpace b = false) :
    ((l.dropWhile isSpace).reverse.dropWhile isSpace).reverse = l := by
  cases l with
  | nil => rfl
  | cons a t =>
    have h1 : (a :: t).dropWhile isSpace = a :: t := by
      rw [List.dropWhile_cons_of_neg]
      simp [hhead a rfl]
    rw [h1]
    cases hr : (a :: t).reverse with
    | nil => simp at hr
    | cons b r =>
      have hb : (a :: t).getLast? = some b := by
        rw [← List.head?_reverse, hr]; rfl
      rw [List.dropWhile_cons_of_neg (by simp [hlast b hb]), ← hr, List.reverse_reverse]

theorem joinChars_glue (c : Char) (x y : List Char) (rest : List (List Char)) :
    joinChars c ((x ++ c :: y) :: rest) = x ++ c :: joinChars c (y :: rest) := by
  cases rest with
  | nil => simp [joinChars]
  | cons m r => simp [joinChars]

theorem intercalate_go_data (sep : String) (c : Char) (hsep : sep.data = [c])
    (names : List String) :
    ∀ acc : String,
      (String.intercalate.go acc sep names).data
        = joinChars c (acc.data :: names.map String.data) := by
  induction names with
  | nil => intro acc; rfl
  | cons name names ih =>
    intro acc
    rw [String.intercalate.go, ih, String.data_append, String.data_append, hsep,
      List.append_assoc, List.singleton_append, joinChars_glue, List.map_cons, joinChars]

theorem Join_data (sep : String) (c : Char) (hsep : sep.data = [c]) (names : List String) :
    (Join names sep).data = joinChars c (names.map String.data) := by
  cases names with
  | nil => rfl
  | cons name names =>
    rw [Join, String.intercalate, intercalate_go_data sep c hsep, List.map_cons]

theorem map_mk_data (names : List String) : (names.map String.data).map String.mk = names := by
  induction names with
  | nil => rfl
  | cons name names ih => simp only [List.map_cons, ih]

/-- A list of plain names joined by one separator: trimming changes nothing, splitting
at the separator gives the names back, and splitting at another character that occurs
in no name gives the whole text as one piece. -/
theorem split_joined (names : List String) (sep other : String) (c d : Char)
    (hne : names ≠ []) (hplain : ∀ name ∈ names, plainName name)
    (hsep : sep.data = [c]) (hother : other.data = [d]) (hcd : d ≠ c)
    (hc : ∀ name ∈ names, c ∉ name.data) (hd : ∀ name ∈ names, d ∉ name.data) :
    TrimSpace (Join names sep) = Join names sep
      ∧ Join names sep ≠ ""
      ∧ Split (Join names sep) sep = names
      ∧ Split (Join names sep) other = [Join names sep] := by
  have hdata := Join_data sep c hsep names
  have hnonempty : ∀ n ∈ names.map String.data, n ≠ [] := by
    intro n hn
    obtain ⟨name, hname, rfl⟩ := List.mem_map.mp hn
    intro e
    exact (hplain name hname).1 (String.ext e)
  have hmapne : names.map String.data ≠ [] := by simpa using hne
  have hjne : (Join names sep).data ≠ [] := by
    rw [hdata]
    exact joinChars_ne_nil c _ hmapne hnonempty
  have hspace : ∀ x, (∃ n ∈ names.map String.data, x ∈ n) → isSpace x = false := by
    rintro x ⟨n, hn, hx⟩
    obtain ⟨name, hname, rfl⟩ := List.mem_map.mp hn
    exact ((hplain name hname).2 x hx).1
  refine ⟨?_, ?_, ?_, ?_⟩
  · apply String.ext
    show (((Join names sep).data.dropWhile isSpace).reverse.dropWhile isSpace).reverse
      = (Join names sep).data
    apply trim_of_plain_ends
    · intro a ha
      rw [hdata] at ha
      exact hspace a (head_joinChars c a _ hnonempty ha)
    · intro b hb
      rw [hdata] at hb
      exact hspace b (getLast_joinChars c b _ hnonempty hb)
  · intro e
    exact hjne (by rw [e])
  · rw [Split, hsep, hdata, splitChars_joinChars c _ hmapne, map_mk_data]
    intro n hn
    obtain ⟨name, hname, rfl⟩ := List.mem_map.mp hn
    exact hc name hname
  · rw [Split, hother, splitChars_of_not_mem d]
    · rfl
    · rw [hdata]
      intro hmem
      rcases mem_joinChars c d _ hmem with h | ⟨n, hn, hx⟩
      · exact hcd h
      · obtain ⟨name, hname, rfl⟩ := List.mem_map.mp hn
        exact hd name hname hx

theorem Join_singleton (name sep : String) : Join [name] sep = name := rfl

/-- Claim C21.  For every non-empty list of names, none of which is empty or holds
white space or a comma, the parsing of `--addons` and the parsing of `--build-only`
both return exactly that list, in order, when the names are joined by single blanks
and when they are joined by single commas. -/
theorem list_arguments_round_trip (names BuildOnly : List String)
    (hne : names ≠ []) (hplain : ∀ name ∈ names, plainName name) :
    loadAddOns (Join names " ") = names
      ∧ loadAddOns (Join names ",") = names
      ∧ loadBuildOnly BuildOnly (Join names " ") = names
      ∧ loadBuildOnly BuildOnly (Join names ",") = names := by
  have hblank : ∀ name ∈ names, ' ' ∉ name.data := by
    intro name hname hmem
    have := ((hplain name hname).2 ' ' hmem).1
    exact absurd this (by decide)
  have hcomma : ∀ name ∈ names, ',' ∉ name.data := by
    intro name hname hmem
    exact ((hplain name hname).2 ',' hmem).2 rfl
  obtain ⟨ht1, hn1, hs1, ho1⟩ := split_joined names " " "," ' ' ',' hne hplain rfl rfl
    (by decide) hblank hcomma
  obtain ⟨ht2, hn2, hs2, ho2⟩ := split_joined names "," " " ',' ' ' hne hplain rfl rfl
    (by decide) hcomma hblank
  have hlen : 0 < names.length := List.length_pos.mpr hne
  have hcommaCase : (if ([Join names ","] : List String).length < names.length then names
      else [Join names ","]) = names := by
    split
    · rfl
    · rename_i h
      simp only [List.length_singleton, not_lt] at h
      match names, hlen, h with
      | [name], _, _ => rfl
  refine ⟨?_, ?_, ?_, ?_⟩
  · unfold loadAddOns
    simp only [ht1, hn1, if_false, hs1, ho1, List.length_singleton]
    rw [if_neg (by omega)]
  · unfold loadAddOns
    simp only [ht2, hn2, if_false, hs2, ho2]
    exact hcommaCase
  · unfold loadBuildOnly
    simp only [ht1, ne_eq, hn1, not_false_eq_true, if_true, hs1, ho1, List.length_singleton]
    rw [if_neg (by omega)]
  · unfold loadBuildOnly
    simp only [ht2, ne_eq, hn2, not_false_eq_true, if_true, hs2, ho2]
    exact hcommaCase

/-- Claim C21, witness: the example of the usage text, `consul httpproxy`, and two
add-ons joined by a comma.  A name with a no-break space (U+00A0) is not plain: the
space is trimmed at the ends of the argument. -/
theorem list_arguments_round_trip_witness :
    (loadAddOns (Join ["consul", "httpproxy"] " ") = ["consul", "httpproxy"]
      ∧ loadAddOns (Join ["consul", "httpproxy"] ",") = ["consul", "httpproxy"]
      ∧ loadBuildOnly ["programming", "httpproxy", "sas-casserver-primary"]
          (Join ["consul", "httpproxy"] " ") = ["consul", "httpproxy"]
      ∧ loadBuildOnly ["programming", "httpproxy", "sas-casserver-primary"]
          (Join ["consul", "httpproxy"] ",") = ["consul", "httpproxy"])
    ∧ loadBuildOnly ["programming", "httpproxy", "sas-casserver-primary"] "consul httpproxy"
        = ["consul", "httpproxy"]
    ∧ loadAddOns "auth-sssd,access-odbc" = ["auth-sssd", "access-odbc"]
    ∧ ¬ plainName "\u00a0a"
    ∧ loadBuildOnly [] "\u00a0a b\u00a0" = ["a", "b"] :=
  ⟨list_arguments_round_trip ["consul", "httpproxy"]
    ["programming", "httpproxy", "sas-casserver-primary"] (by decide) (by decide),
    by decide, by decide, by decide, by decide⟩

/-! ## Line 488 under concurrent workers -/

/-- Claim C22 (the code at the failing input).  Two workers add the sizes `a > 0` and
`b` of one image each to the counter, without overflow.  When the accesses of line 488
are interleaved read, read, write, write, both workers have added their size and the
counter holds the start value plus `b` only: the increment by `a` is lost, and the
counter differs from the start value plus the sum of the sizes.  When one worker makes
both its accesses before the other, in either order, the counter holds the sum. -/
theorem TotalBuildSize_lost_update (total a b : Int)
    (hlo : -9223372036854775808 ≤ total) (ha : 0 < a) (hb : 0 ≤ b)
    (hhi : total + a + b < 9223372036854775808) :
    allAdded (interleave (twoWorkers total a b) [0, 1, 0, 1]) = true
      ∧ (interleave (twoWorkers total a b) [0, 1, 0, 1]).TotalBuildSize = total + b
      ∧ (interleave (twoWorkers total a b) [0, 1, 0, 1]).TotalBuildSize
          ≠ wrapInt64 (total + sizesToAdd (twoWorkers total a b))
      ∧ (interleave (twoWorkers total a b) [0, 0, 1, 1]).TotalBuildSize
          = wrapInt64 (total + sizesToAdd (twoWorkers total a b))
      ∧ (interleave (twoWorkers total a b) [1, 1, 0, 0]).TotalBuildSize
          = wrapInt64 (total + sizesToAdd (twoWorkers total a b)) := by
  have h1 : wrapInt64 (total + a) = total + a := wrapInt64_of_fits _ (by omega) (by omega)
  have h2 : wrapInt64 (total + b) = total + b := wrapInt64_of_fits _ (by omega) (by omega)
  have h3 : wrapInt64 (total + a + b) = total + a + b :=
    wrapInt64_of_fits _ (by omega) (by omega)
  have h4 : wrapInt64 (total + b + a) = total + b + a :=
    wrapInt64_of_fits _ (by omega) (by omega)
  have hsum : sizesToAdd (twoWorkers total a b) = a + b := by
    simp [sizesToAdd, twoWorkers]
  have hwrap : wrapInt64 (total + (a + b)) = total + a + b := by
    rw [← Int.add_assoc]; exact h3
  rw [hsum, hwrap]
  refine ⟨?_, ?_, ?_, ?_, ?_⟩
  · simp [interleave, accessBy, SizeWorker.access, twoWorkers, allAdded]
  · simp [interleave, accessBy, SizeWorker.access, twoWorkers, h2]
  · simp [interleave, accessBy, SizeWorker.access, twoWorkers, h2]
    omega
  · simp [interleave, accessBy, SizeWorker.access, twoWorkers, h1, h3]
  · simp [interleave, accessBy, SizeWorker.access, twoWorkers, h2, h4]
    omega

/-- Claim C22, witness: the images of two units measure 10 and 20 bytes; after the
interleaving read, read, write, write the counter holds 20, not 30. -/
theorem TotalBuildSize_lost_update_witness :
    (allAdded (interleave (twoWorkers 0 10 20) [0, 1, 0, 1]) = true
      ∧ (interleave (twoWorkers 0 10 20) [0, 1, 0, 1]).TotalBuildSize = 0 + 20
      ∧ (interleave (twoWorkers 0 10 20) [0, 1, 0, 1]).TotalBuildSize
          ≠ wrapInt64 (0 + sizesToAdd (twoWorkers 0 10 20))
      ∧ (interleave (twoWorkers 0 10 20) [0, 0, 1, 1]).TotalBuildSize
          = wrapInt64 (0 + sizesToAdd (twoWorkers 0 10 20))
      ∧ (interleave (twoWorkers 0 10 20) [1, 1, 0, 0]).TotalBuildSize
          = wrapInt64 (0 + sizesToAdd (twoWorkers 0 10 20)))
    ∧ interleave (twoWorkers 0 10 20) [0, 1, 0, 1]
        = { TotalBuildSize := 20, workers := [{ imageSizes := [] }, { imageSizes := [] }] }
    ∧ wrapInt64 (0 + sizesToAdd (twoWorkers 0 10 20)) = 30 :=
  ⟨TotalBuildSize_lost_update 0 10 20 (by decide) (by decide) (by decide) (by decide),
    by decide, by decide⟩

end SasRecipes
